import Mathlib

/-!
Verification development for `src/bin/pg_dump/pg_dump_sort.c`: the
type/name canonical sort, the stable topological sort, the dependency-loop
finder and the dependency-loop repair engine of the dump tool.

Machine integers of the C code are modelled by `Nat`/`Int` (all quantities
involved -- dump ids, counts, priorities, char codes -- stay far from any
overflow boundary on every input considered, and the C `int` arithmetic on
them is exact).  Arrays indexed by `DumpId` are modelled as Lean lists with
`getD`/`set`, with `pg_malloc0` arrays starting as all-zero lists and the
uninitialized `pg_malloc` array `idMap[]` as a list of `Option` values
(reading a never-written cell is undefined behaviour in C and surfaces as
`none` here).  `pg_fatal` and undefined behaviour both surface as `none` of
an `Option`-valued result, kept apart by richer result types where a claim
needs the distinction.  C functions that mutate objects through pointers
become functions on an explicit object store (a list of objects, looked up
by dump id); back-reference pointers such as `ruletable` are modelled by
the referenced object's dump id (plus a snapshot of its immutable name
where the comparator reads the name through the pointer), which is faithful
whenever dump ids are unique, as the data model requires.
-/

namespace PgDumpSort

/-- Dump ids: positive C ints.  `0` is the reserved "none" value; the C
checks `j <= 0`, which over `Nat` is `j = 0`. -/
abbrev DumpId := Nat

/-- The closed object-kind set (C enum `DumpableObjectType`).  The enum
order fixes the numeric tag used by the comparator's fourth layer.
Modelled from the spec: `pg_dump.h` is not part of the sources, and the
spec lists the kind variants in this order. -/
inductive DOType where
  | DO_NAMESPACE | DO_EXTENSION | DO_TYPE | DO_SHELL_TYPE | DO_FUNC | DO_AGG
  | DO_OPERATOR | DO_ACCESS_METHOD | DO_OPCLASS | DO_OPFAMILY | DO_COLLATION
  | DO_CONVERSION | DO_TABLE | DO_TABLE_ATTACH | DO_ATTRDEF | DO_INDEX
  | DO_INDEX_ATTACH | DO_STATSEXT | DO_RULE | DO_TRIGGER | DO_EVENT_TRIGGER
  | DO_CONSTRAINT | DO_FK_CONSTRAINT | DO_PROCLANG | DO_CAST | DO_TABLE_DATA
  | DO_SEQUENCE_SET | DO_DUMMY_TYPE | DO_TSPARSER | DO_TSDICT | DO_TSTEMPLATE
  | DO_TSCONFIG | DO_FDW | DO_FOREIGN_SERVER | DO_DEFAULT_ACL | DO_TRANSFORM
  | DO_LARGE_OBJECT | DO_LARGE_OBJECT_DATA | DO_PRE_DATA_BOUNDARY
  | DO_POST_DATA_BOUNDARY | DO_POLICY | DO_PUBLICATION | DO_PUBLICATION_REL
  | DO_PUBLICATION_TABLE_IN_SCHEMA | DO_SUBSCRIPTION | DO_SUBSCRIPTION_REL
  | DO_REL_STATS | DO_REFRESH_MATVIEW
  deriving DecidableEq, Repr

open DOType

/-- Numeric value of the kind tag (position in the C enum), used by the
comparator's "sort by type" layer. -/
def DOType.tag : DOType → Nat
  | DO_NAMESPACE => 0 | DO_EXTENSION => 1 | DO_TYPE => 2 | DO_SHELL_TYPE => 3
  | DO_FUNC => 4 | DO_AGG => 5 | DO_OPERATOR => 6 | DO_ACCESS_METHOD => 7
  | DO_OPCLASS => 8 | DO_OPFAMILY => 9 | DO_COLLATION => 10
  | DO_CONVERSION => 11 | DO_TABLE => 12 | DO_TABLE_ATTACH => 13
  | DO_ATTRDEF => 14 | DO_INDEX => 15 | DO_INDEX_ATTACH => 16
  | DO_STATSEXT => 17 | DO_RULE => 18 | DO_TRIGGER => 19
  | DO_EVENT_TRIGGER => 20 | DO_CONSTRAINT => 21 | DO_FK_CONSTRAINT => 22
  | DO_PROCLANG => 23 | DO_CAST => 24 | DO_TABLE_DATA => 25
  | DO_SEQUENCE_SET => 26 | DO_DUMMY_TYPE => 27 | DO_TSPARSER => 28
  | DO_TSDICT => 29 | DO_TSTEMPLATE => 30 | DO_TSCONFIG => 31 | DO_FDW => 32
  | DO_FOREIGN_SERVER => 33 | DO_DEFAULT_ACL => 34 | DO_TRANSFORM => 35
  | DO_LARGE_OBJECT => 36 | DO_LARGE_OBJECT_DATA => 37
  | DO_PRE_DATA_BOUNDARY => 38 | DO_POST_DATA_BOUNDARY => 39 | DO_POLICY => 40
  | DO_PUBLICATION => 41 | DO_PUBLICATION_REL => 42
  | DO_PUBLICATION_TABLE_IN_SCHEMA => 43 | DO_SUBSCRIPTION => 44
  | DO_SUBSCRIPTION_REL => 45 | DO_REL_STATS => 46 | DO_REFRESH_MATVIEW => 47

/-- The priority table `dbObjectTypePriority`, composed with the numeric
values of `enum dbObjectTypePriorities` (which starts at 1 and counts up). -/
def dbObjectTypePriority : DOType → Nat
  | DO_NAMESPACE => 1                       -- PRIO_NAMESPACE
  | DO_PROCLANG => 2                        -- PRIO_PROCLANG
  | DO_COLLATION => 3                       -- PRIO_COLLATION
  | DO_TRANSFORM => 4                       -- PRIO_TRANSFORM
  | DO_EXTENSION => 5                       -- PRIO_EXTENSION
  | DO_TYPE => 6                            -- PRIO_TYPE
  | DO_SHELL_TYPE => 6                      -- PRIO_TYPE
  | DO_CAST => 7                            -- PRIO_CAST
  | DO_FUNC => 8                            -- PRIO_FUNC
  | DO_AGG => 9                             -- PRIO_AGG
  | DO_ACCESS_METHOD => 10                  -- PRIO_ACCESS_METHOD
  | DO_OPERATOR => 11                       -- PRIO_OPERATOR
  | DO_OPCLASS => 12                        -- PRIO_OPFAMILY
  | DO_OPFAMILY => 12                       -- PRIO_OPFAMILY
  | DO_CONVERSION => 13                     -- PRIO_CONVERSION
  | DO_TSPARSER => 14                       -- PRIO_TSPARSER
  | DO_TSTEMPLATE => 15                     -- PRIO_TSTEMPLATE
  | DO_TSDICT => 16                         -- PRIO_TSDICT
  | DO_TSCONFIG => 17                       -- PRIO_TSCONFIG
  | DO_FDW => 18                            -- PRIO_FDW
  | DO_FOREIGN_SERVER => 19                 -- PRIO_FOREIGN_SERVER
  | DO_TABLE => 20                          -- PRIO_TABLE
  | DO_TABLE_ATTACH => 21                   -- PRIO_TABLE_ATTACH
  | DO_DUMMY_TYPE => 22                     -- PRIO_DUMMY_TYPE
  | DO_ATTRDEF => 23                        -- PRIO_ATTRDEF
  | DO_PRE_DATA_BOUNDARY => 24              -- PRIO_PRE_DATA_BOUNDARY
  | DO_TABLE_DATA => 25                     -- PRIO_TABLE_DATA
  | DO_SEQUENCE_SET => 26                   -- PRIO_SEQUENCE_SET
  | DO_LARGE_OBJECT => 27                   -- PRIO_LARGE_OBJECT
  | DO_LARGE_OBJECT_DATA => 28              -- PRIO_LARGE_OBJECT_DATA
  | DO_REL_STATS => 29                      -- PRIO_STATISTICS_DATA_DATA
  | DO_POST_DATA_BOUNDARY => 30             -- PRIO_POST_DATA_BOUNDARY
  | DO_CONSTRAINT => 31                     -- PRIO_CONSTRAINT
  | DO_INDEX => 32                          -- PRIO_INDEX
  | DO_INDEX_ATTACH => 33                   -- PRIO_INDEX_ATTACH
  | DO_STATSEXT => 34                       -- PRIO_STATSEXT
  | DO_RULE => 35                           -- PRIO_RULE
  | DO_TRIGGER => 36                        -- PRIO_TRIGGER
  | DO_FK_CONSTRAINT => 37                  -- PRIO_FK_CONSTRAINT
  | DO_POLICY => 38                         -- PRIO_POLICY
  | DO_PUBLICATION => 39                    -- PRIO_PUBLICATION
  | DO_PUBLICATION_REL => 40                -- PRIO_PUBLICATION_REL
  | DO_PUBLICATION_TABLE_IN_SCHEMA => 41    -- PRIO_PUBLICATION_TABLE_IN_SCHEMA
  | DO_SUBSCRIPTION => 42                   -- PRIO_SUBSCRIPTION
  | DO_SUBSCRIPTION_REL => 43               -- PRIO_SUBSCRIPTION_REL
  | DO_DEFAULT_ACL => 44                    -- PRIO_DEFAULT_ACL
  | DO_EVENT_TRIGGER => 45                  -- PRIO_EVENT_TRIGGER
  | DO_REFRESH_MATVIEW => 46                -- PRIO_REFRESH_MATVIEW

/-- `RELKIND_VIEW` of `pg_class_d.h` as a char code. -/
def RELKIND_VIEW : Nat := 118
/-- `RELKIND_MATVIEW` of `pg_class_d.h` as a char code. -/
def RELKIND_MATVIEW : Nat := 109
/-- `RELKIND_RELATION` (an ordinary table) as a char code. -/
def RELKIND_RELATION : Nat := 114
/-- `SECTION_PRE_DATA` of the archive section enum. -/
def SECTION_PRE_DATA : Nat := 2
/-- `SECTION_POST_DATA` of the archive section enum. -/
def SECTION_POST_DATA : Nat := 4
/-- `DUMP_COMPONENT_DEFINITION` bit of the `DumpComponents` bitmask. -/
def DUMP_COMPONENT_DEFINITION : Nat := 1

/-- The dumpable-object record: the common `DumpableObject` header plus the
kind-specific payload fields the sorter reads, flattened into one record
(the C accesses them by downcasting the header pointer).  Back-reference
pointers carry the referenced object's dump id (`...Id` fields, compared
where the C compares pointers, faithful for unique dump ids) and, for the
comparator paths that read a name through the pointer, a snapshot of that
name (`...Name` fields; object names are immutable during sorting).
`nargs` of the C `FuncInfo` is `argtypes.length`. -/
structure DumpableObject where
  dumpId : DumpId
  objType : DOType
  catIdOid : Nat
  name : String
  namespaceName : Option String
  dependencies : List DumpId
  dump : Nat := 0
  argtypes : List Nat := []
  oprkind : Nat := 0
  oprleft : Nat := 0
  oprright : Nat := 0
  opcmethod : Nat := 0
  opfmethod : Nat := 0
  collencoding : Int := 0
  adnum : Int := 0
  adtableId : Nat := 0
  adtableName : String := ""
  poltableName : String := ""
  ruletableId : Nat := 0
  ruletableName : String := ""
  tgtableName : String := ""
  contype : Nat := 0
  condomainId : Option Nat := none
  condomainName : String := ""
  contableId : Option Nat := none
  contableName : String := ""
  publicationName : String := ""
  ev_type : Nat := 0
  is_instead : Bool := false
  relkind : Nat := 0
  parentidx : Nat := 0
  shellTypeId : Option Nat := none
  separate : Bool := false
  dummy_view : Bool := false
  postponed_def : Bool := false
  teSection : Nat := 2
  deriving DecidableEq, Repr

/-- The read-only representation of a `pg_type` row used while tiebreaking:
its namespace name (if the row has a namespace link) and its type name. -/
instance : Inhabited DumpableObject :=
  ⟨{ dumpId := 0, objType := DO_NAMESPACE, catIdOid := 0, name := "",
     namespaceName := none, dependencies := [] }⟩

structure TypeLite where
  nsName : Option String
  name : String
  deriving DecidableEq, Repr

/-- The read-only catalog-lookup adapters the comparator consults.
Modelled from the spec: `findTypeByOid` and `findAccessMethodByOid` are
host callbacks outside the sources; they are stable and read-only for the
duration of a call, so a finite association list by OID represents them. -/
structure Catalog where
  types : List (Nat × TypeLite)
  ams : List (Nat × String)
  deriving DecidableEq, Repr

/-- `findTypeByOid` host callback: look up a `pg_type` row by OID. -/
def findTypeByOid (cat : Catalog) (oid : Nat) : Option TypeLite :=
  (cat.types.find? (fun p => p.1 == oid)).map Prod.snd

/-- `findAccessMethodByOid` host callback: look up a `pg_am` name by OID. -/
def findAccessMethodByOid (cat : Catalog) (oid : Nat) : Option String :=
  (cat.ams.find? (fun p => p.1 == oid)).map Prod.snd

/-- The sign of C `strcmp`: only its sign is ever consumed. -/
def strcmpM (a b : String) : Int :=
  if a < b then -1 else if b < a then 1 else 0

/-- The sign of `oidcmp` (three-way compare of two OIDs). -/
def oidcmpM (a b : Nat) : Int :=
  if a < b then -1 else if b < a then 1 else 0

/-- First non-zero comparison result of a list, else zero (the shape of the
cascaded `if (cmpval != 0) return cmpval;` chains). -/
def firstNonZero : List Int → Int
  | [] => 0
  | c :: rest => if c ≠ 0 then c else firstNonZero rest

/-- `pgTypeNameCompare`: compare two OID-identified `pg_type` rows by
namespace name, then by type name.  Equal OIDs compare equal without a
lookup; a failed lookup is the catalog-corruption path and reports
"equal"; a missing namespace link skips the namespace layer. -/
def pgTypeNameCompare (cat : Catalog) (typid1 typid2 : Nat) : Int :=
  if typid1 = typid2 then 0
  else
    match findTypeByOid cat typid1, findTypeByOid cat typid2 with
    | some t1, some t2 =>
        let nsc :=
          match t1.nsName, t2.nsName with
          | some n1, some n2 => strcmpM n1 n2
          | _, _ => 0
        if nsc ≠ 0 then nsc else strcmpM t1.name t2.name
    | _, _ => 0

/-- `accessMethodNameCompare`: compare two OID-identified `pg_am` rows by
access-method name, with the same corruption handling. -/
def accessMethodNameCompare (cat : Catalog) (am1 am2 : Nat) : Int :=
  if am1 = am2 then 0
  else
    match findAccessMethodByOid cat am1, findAccessMethodByOid cat am2 with
    | some n1, some n2 => strcmpM n1 n2
    | _, _ => 0

/-- The per-kind natural-key tiebreaker layer of `DOTypeNameCompare`
(reached only when the two objects share priority, namespace, name and
numeric kind tag, hence the same `objType`, so dispatching on
`o1.objType` mirrors the C's `obj1->objType` tests). -/
def doTiebreak (cat : Catalog) (o1 o2 : DumpableObject) : Int :=
  match o1.objType with
  | DO_FUNC =>
      firstNonZero
        (((o1.argtypes.length : Int) - (o2.argtypes.length : Int)) ::
          ((o1.argtypes.zip o2.argtypes).map
            (fun p => pgTypeNameCompare cat p.1 p.2)))
  | DO_AGG =>
      firstNonZero
        (((o1.argtypes.length : Int) - (o2.argtypes.length : Int)) ::
          ((o1.argtypes.zip o2.argtypes).map
            (fun p => pgTypeNameCompare cat p.1 p.2)))
  | DO_OPERATOR =>
      firstNonZero
        [(o2.oprkind : Int) - (o1.oprkind : Int),
          pgTypeNameCompare cat o1.oprleft o2.oprleft,
          pgTypeNameCompare cat o1.oprright o2.oprright]
  | DO_OPCLASS => accessMethodNameCompare cat o1.opcmethod o2.opcmethod
  | DO_OPFAMILY => accessMethodNameCompare cat o1.opfmethod o2.opfmethod
  | DO_COLLATION => o1.collencoding - o2.collencoding
  | DO_ATTRDEF => o1.adnum - o2.adnum
  | DO_POLICY => strcmpM o1.poltableName o2.poltableName
  | DO_RULE => strcmpM o1.ruletableName o2.ruletableName
  | DO_TRIGGER => strcmpM o1.tgtableName o2.tgtableName
  | DO_CONSTRAINT =>
      match o1.condomainId, o2.condomainId with
      | some _, some _ => strcmpM o1.condomainName o2.condomainName
      | some _, none =>
          (dbObjectTypePriority DO_TYPE : Int) -
            (dbObjectTypePriority DO_TABLE : Int)
      | none, some _ =>
          (dbObjectTypePriority DO_TABLE : Int) -
            (dbObjectTypePriority DO_TYPE : Int)
      | none, none => strcmpM o1.contableName o2.contableName
  | DO_PUBLICATION_REL => strcmpM o1.publicationName o2.publicationName
  | DO_PUBLICATION_TABLE_IN_SCHEMA =>
      strcmpM o1.publicationName o2.publicationName
  | _ => 0

/-- The namespace layer of `DOTypeNameCompare`: objects lacking a namespace
sort after objects that have one; two present namespaces compare by name;
two absent namespaces tie. -/
def nsCompare : Option String → Option String → Int
  | some n1, some n2 => strcmpM n1 n2
  | some _, none => -1
  | none, some _ => 1
  | none, none => 0

/-- `DOTypeNameCompare`: the canonical total comparator.  Layers, first
non-zero wins: kind priority, namespace, object name, numeric kind tag,
per-kind natural-key tiebreaker, and as a last resort the catalog OID. -/
def DOTypeNameCompare (cat : Catalog) (o1 o2 : DumpableObject) : Int :=
  firstNonZero
    [(dbObjectTypePriority o1.objType : Int) -
       (dbObjectTypePriority o2.objType : Int),
      nsCompare o1.namespaceName o2.namespaceName,
      strcmpM o1.name o2.name,
      (o1.objType.tag : Int) - (o2.objType.tag : Int),
      doTiebreak cat o1 o2,
      oidcmpM o1.catIdOid o2.catIdOid]

/-- The comparator as a Boolean "less or equal" relation, the form a
comparison sort consumes. -/
def doLE (cat : Catalog) (o1 o2 : DumpableObject) : Prop :=
  DOTypeNameCompare cat o1 o2 ≤ 0

instance (cat : Catalog) : DecidableRel (doLE cat) := fun o1 o2 =>
  inferInstanceAs (Decidable (DOTypeNameCompare cat o1 o2 ≤ 0))

/-- `sortDumpableObjectsByTypeName`: sort the array with `DOTypeNameCompare`
when it has more than one element.  `qsort` is modelled as a deterministic
comparison sort (insertion sort over the comparator's `≤ 0` relation). -/
def sortDumpableObjectsByTypeName (cat : Catalog) (objs : List DumpableObject) :
    List DumpableObject :=
  if objs.length > 1 then objs.insertionSort (doLE cat) else objs

/-! ## Object store and the dependency-edge host API -/

/-- `findObjectByDumpId` host callback over the set of objects handed to
the sorter: the first object in the store with the given dump id (unique
dump ids make the choice immaterial).  Ids that resolve to no object are
the "undumped" ids. -/
def findObjectByDumpId (store : List DumpableObject) (id : DumpId) :
    Option DumpableObject :=
  store.find? (fun o => o.dumpId == id)

/-- Replace the object with the given dump id by `f` of itself (the model
of mutating a `DumpableObject` through its pointer). -/
def updateObject (store : List DumpableObject) (id : DumpId)
    (f : DumpableObject → DumpableObject) : List DumpableObject :=
  store.map (fun o => if o.dumpId = id then f o else o)

/-- `removeObjectDependency` host callback on one object.  Modelled from
the spec: the callback lives outside the sources; it removes the id from
the object's dependency list (every occurrence), preserving the order of
the rest. -/
def removeDep (refId : DumpId) (o : DumpableObject) : DumpableObject :=
  { o with dependencies := o.dependencies.filter (fun d => d ≠ refId) }

/-- `addObjectDependency` host callback on one object.  Modelled from the
spec: it appends the id to the object's dependency list (the C grows the
array and stores at the end; duplicates are not suppressed). -/
def addDep (refId : DumpId) (o : DumpableObject) : DumpableObject :=
  { o with dependencies := o.dependencies ++ [refId] }

/-- `removeObjectDependency(obj, refId)` acting on the store. -/
def removeObjectDependency (store : List DumpableObject) (objId refId : DumpId) :
    List DumpableObject :=
  updateObject store objId (removeDep refId)

/-- `addObjectDependency(obj, refId)` acting on the store. -/
def addObjectDependency (store : List DumpableObject) (objId refId : DumpId) :
    List DumpableObject :=
  updateObject store objId (addDep refId)

/-! ## TopoSort

The C routine works with two `DumpId`-indexed workspaces:
`beforeConstraints[]` (zero-initialized counts) and `idMap[]`
(uninitialized; written only at ids of input objects), a pending max-heap
of input indexes, and the backwards-filled `ordering[]`.  The heap is an
opaque priority queue (`lib/binaryheap` is outside the sources; modelled
from the spec: a max-heap of input indexes, `binaryheap_remove_first`
returning the largest member), so the pending set is a list from which
each step removes the maximum. -/

/-- Scan phase of `TopoSort`: check every dump id and dependency id for
range, count in `before[k]` the constraints that say `k` must be emitted
before something else (one per occurrence of `k` in a dependency list),
and record in `idMap[j]` the input index of the object with dump id `j`.
`none` is `pg_fatal` on an out-of-range id. -/
def topoScan (maxDumpId : Nat) (objs : List DumpableObject) :
    Option (List Int × List (Option Nat)) :=
  go objs 0 (List.replicate (maxDumpId + 1) 0)
    (List.replicate (maxDumpId + 1) none)
where
  go : List DumpableObject → Nat → List Int → List (Option Nat) →
      Option (List Int × List (Option Nat))
  | [], _, before, idMap => some (before, idMap)
  | o :: rest, i, before, idMap =>
      if o.dumpId = 0 ∨ o.dumpId > maxDumpId then none
      else
        match goDeps o.dependencies before with
        | none => none
        | some before2 => go rest (i + 1) before2 (idMap.set o.dumpId (some i))
  goDeps : List DumpId → List Int → Option (List Int)
  | [], before => some before
  | k :: ks, before =>
      if k = 0 ∨ k > maxDumpId then none
      else goDeps ks (before.set k (before.getD k 0 + 1))

/-- Heap-seeding phase: the indexes `i` with
`beforeConstraints[objs[i].dumpId] == 0`, entered in decreasing order. -/
def topoSeed (objs : List DumpableObject) (before : List Int) : List Nat :=
  (List.range objs.length).reverse.filter
    (fun i => before.getD ((objs.getD i default).dumpId) 0 = 0)

/-- Remove the largest member of the pending set
(`binaryheap_remove_first` under `int_cmp`). -/
def popMax (pending : List Nat) : Option (Nat × List Nat) :=
  match pending with
  | [] => none
  | _ =>
      let m := pending.foldl Nat.max 0
      some (m, pending.erase m)

/-- State of the emission loop: the pending index set, the current
`beforeConstraints[]`, the output built so far (`out` lists the emitted
dump ids, each new emission consed on the front, exactly as `ordering[]`
is filled from the back toward the front), and an error flag recording
that the C read the uninitialized `idMap[]` cell of an undumped id whose
count reached zero (undefined behaviour). -/
structure EmitState where
  pending : List Nat
  before : List Int
  out : List DumpId
  err : Bool
  deriving Repr

/-- The `Update beforeConstraints counts of its predecessors` loop of the
emission step: decrement the count of each dependency in turn, and enqueue
`idMap[id]` whenever a count hits zero (setting the error flag instead
when that cell of `idMap[]` was never initialized).  The accumulator is
`(pending, before, err)`. -/
def depFold (idMap : List (Option Nat)) :
    List DumpId → List Nat × List Int × Bool → List Nat × List Int × Bool
  | [], acc => acc
  | id :: ds, acc =>
      let b2 := acc.2.1.set id (acc.2.1.getD id 0 - 1)
      if b2.getD id 0 = 0 then
        match idMap.getD id none with
        | some ix => depFold idMap ds (acc.1 ++ [ix], b2, acc.2.2)
        | none => depFold idMap ds (acc.1, b2, true)
      else depFold idMap ds (acc.1, b2, acc.2.2)

/-- One iteration of the emission loop: pop the largest pending index,
emit that object, decrement the count of each of its dependencies, and
enqueue `idMap[id]` for every count that hits zero. -/
def emitStep (objs : List DumpableObject) (idMap : List (Option Nat))
    (s : EmitState) : EmitState :=
  match popMax s.pending with
  | none => s
  | some (j, rest) =>
      let o := objs.getD j default
      let upd := depFold idMap o.dependencies (rest, s.before, s.err)
      { pending := upd.1, before := upd.2.1, out := o.dumpId :: s.out,
        err := upd.2.2 }

/-- The emission loop, run to a fixed fuel (any fuel at least the number
of input objects plus one lets every run drain the pending set, because
pending indexes are distinct input indexes of unemitted objects). -/
def emitLoop (objs : List DumpableObject) (idMap : List (Option Nat)) :
    Nat → EmitState → EmitState
  | 0, s => s
  | fuel + 1, s =>
      match s.pending with
      | [] => s
      | _ => emitLoop objs idMap fuel (emitStep objs idMap s)

/-- Result of `TopoSort`.  `success` is the C return value; `ordering` the
emitted dump ids in final order (`ordering[0]` first); `residualIds` the
dump ids `j` in `1..maxDumpId` whose count stayed non-zero on a failing
run (in increasing order of `j`, as the C failure loop scans); and
`remainder` those ids resolved through `idMap[]` to input objects, or
`none` if some residual id's `idMap[]` cell was never written (the C
failure path then reads uninitialized memory). -/
structure TopoOut where
  success : Bool
  ordering : List DumpId
  residualIds : List DumpId
  remainder : Option (List DumpId)
  finalBefore : List Int
  deriving Repr

/-- `TopoSort`: the stable topological sort.  `none` is `pg_fatal` on an
out-of-range id, or the undefined behaviour of enqueueing the
uninitialized `idMap[]` cell of an undumped id during emission. -/
def TopoSort (maxDumpId : Nat) (objs : List DumpableObject) : Option TopoOut :=
  match topoScan maxDumpId objs with
  | none => none
  | some (before, idMap) =>
      let s0 : EmitState :=
        { pending := topoSeed objs before, before := before, out := [],
          err := false }
      let s := emitLoop objs idMap (objs.length + 1) s0
      if s.err then none
      else
        let success := s.out.length = objs.length
        let residual := (List.range' 1 maxDumpId).filter
          (fun j => s.before.getD j 0 ≠ 0)
        let rem : Option (List DumpId) :=
          if residual.all (fun j => (idMap.getD j none).isSome) then
            some (residual.map
              (fun j => (objs.getD ((idMap.getD j none).getD 0) default).dumpId))
          else none
        some { success := success, ordering := s.out,
               residualIds := residual, remainder := rem,
               finalBefore := s.before }

/-! ## findLoop -/

/-!
`findLoop` and its dependency-scanning inner loop: depth-first search for
a dependency path from `obj` back to `start`, avoiding processed objects,
memoized failures (`sf.getD id 0 = start` meaning a previous sub-search
proved no path from `id` to `start`), and objects already on the current
path `ws` (the `workspace[0..depth)` prefix, as dump ids).  On success the
returned list is the loop `workspace[0..depth)`; the updated
`searchFailed[]` array is returned in either case.  The C recursion is
bounded by the growth of `workspace[]`; `fuel ≥ store.length` makes the
model's explicit fuel never run out.
-/
/-- `findLoop`: depth-first search for a dependency path from `obj` back
to `start`, rejecting processed objects, memoized failures and objects
already on the current path; on success the loop `workspace[0..depth)` is
returned.  The `Recurse down each outgoing branch` loop is a fold over the
dependency list that stops changing state once a loop has been found (the
C returns immediately there) and skips unresolvable ids.  The C recursion
depth is bounded by the growth of `workspace[]`, which rejects repeats;
`fuel` larger than the store size therefore never runs out. -/
def findLoop (store : List DumpableObject) (processed : List Bool) :
    Nat → DumpableObject → DumpId → List DumpId → List DumpId →
    Option (List DumpId) × List DumpId
  | 0, _, _, sf, _ => (none, sf)
  | fuel + 1, obj, start, sf, ws =>
      if processed.getD obj.dumpId false then (none, sf)
      else if sf.getD obj.dumpId 0 = start then (none, sf)
      else if obj.dumpId ∈ ws then (none, sf)
      else
        let ws2 := ws ++ [obj.dumpId]
        if obj.dependencies.any (fun d => d = start) then (some ws2, sf)
        else
          match obj.dependencies.foldl
              (fun (acc : Option (List DumpId) × List DumpId) d =>
                match acc.1 with
                | some _ => acc
                | none =>
                    match findObjectByDumpId store d with
                    | none => acc
                    | some nextobj =>
                        findLoop store processed fuel nextobj start acc.2 ws2)
              (none, sf) with
          | (some loop, sf2) => (some loop, sf2)
          | (none, sf2) => (none, sf2.set obj.dumpId start)

/-! ## The loop-repair catalogue -/

/-- `repairTypeFuncLoop`: break a datatype / I-O-function two-cycle by
removing the function's dependency on the type; if the type has a shell
type, make the function depend on the shell type instead and, when the
function is dumped at all, mark the shell type as to be dumped including
its definition. -/
def repairTypeFuncLoop (store : List DumpableObject) (typeId funcId : DumpId) :
    List DumpableObject :=
  let funcDump := ((findObjectByDumpId store funcId).getD default).dump
  let store1 := removeObjectDependency store funcId typeId
  match (findObjectByDumpId store typeId).bind (fun t => t.shellTypeId) with
  | none => store1
  | some shId =>
      let store2 := addObjectDependency store1 funcId shId
      if funcDump ≠ 0 then
        updateObject store2 shId
          (fun sh => { sh with dump := funcDump ||| DUMP_COMPONENT_DEFINITION })
      else store2

/-- `repairViewRuleLoop`: a view and its ON SELECT rule with nothing else
in the loop: drop the rule's dependency on the view. -/
def repairViewRuleLoop (store : List DumpableObject) (viewId ruleId : DumpId) :
    List DumpableObject :=
  removeObjectDependency store ruleId viewId

/-- `repairViewRuleMultiLoop`: a view and its ON SELECT rule inside a
larger loop: drop the view-to-rule dependency, emit the view as a dummy,
make the rule a separate post-data item depending on the view and on the
post-data boundary. -/
def repairViewRuleMultiLoop (postId : DumpId) (store : List DumpableObject)
    (viewId ruleId : DumpId) : List DumpableObject :=
  let s1 := removeObjectDependency store viewId ruleId
  let s2 := updateObject s1 viewId (fun v => { v with dummy_view := true })
  let s3 := updateObject s2 ruleId (fun r => { r with separate := true })
  let s4 := addObjectDependency s3 ruleId viewId
  addObjectDependency s4 ruleId postId

/-- `repairMatViewBoundaryMultiLoop`: drop the boundary's dependency on
the object after it in the loop; if that object is a matview (or matview
statistics), postpone it into post-data. -/
def repairMatViewBoundaryMultiLoop (store : List DumpableObject)
    (boundaryId nextId : DumpId) : List DumpableObject :=
  let s1 := removeObjectDependency store boundaryId nextId
  updateObject s1 nextId (fun nx =>
    if nx.objType = DO_TABLE then
      if nx.relkind = RELKIND_MATVIEW then { nx with postponed_def := true }
      else nx
    else if nx.objType = DO_REL_STATS then
      if nx.relkind = RELKIND_MATVIEW then
        { nx with teSection := SECTION_POST_DATA }
      else nx
    else nx)

/-- `repairFunctionBoundaryMultiLoop`: drop the boundary's dependency on
the object after it in the loop; if that object is a function, postpone
its definition into post-data. -/
def repairFunctionBoundaryMultiLoop (store : List DumpableObject)
    (boundaryId nextId : DumpId) : List DumpableObject :=
  let s1 := removeObjectDependency store boundaryId nextId
  updateObject s1 nextId (fun nx =>
    if nx.objType = DO_FUNC then { nx with postponed_def := true } else nx)

/-- `repairTableConstraintLoop`: drop the CHECK constraint's dependency on
its table. -/
def repairTableConstraintLoop (store : List DumpableObject)
    (tableId constraintId : DumpId) : List DumpableObject :=
  removeObjectDependency store constraintId tableId

/-- `repairTableConstraintMultiLoop`: make the CHECK constraint a separate
post-data item: drop the table-to-constraint dependency, mark the
constraint separate, re-add its dependency on the table, and add one on
the post-data boundary. -/
def repairTableConstraintMultiLoop (postId : DumpId)
    (store : List DumpableObject) (tableId constraintId : DumpId) :
    List DumpableObject :=
  let s1 := removeObjectDependency store tableId constraintId
  let s2 := updateObject s1 constraintId (fun c => { c with separate := true })
  let s3 := addObjectDependency s2 constraintId tableId
  addObjectDependency s3 constraintId postId

/-- `repairTableAttrDefLoop`: drop the attribute default's dependency on
its table. -/
def repairTableAttrDefLoop (store : List DumpableObject)
    (tableId attrdefId : DumpId) : List DumpableObject :=
  removeObjectDependency store attrdefId tableId

/-- `repairTableAttrDefMultiLoop`: make the attribute default a separate
item: drop the table-to-attrdef dependency, mark it separate, re-add its
dependency on the table. -/
def repairTableAttrDefMultiLoop (store : List DumpableObject)
    (tableId attrdefId : DumpId) : List DumpableObject :=
  let s1 := removeObjectDependency store tableId attrdefId
  let s2 := updateObject s1 attrdefId (fun a => { a with separate := true })
  addObjectDependency s2 attrdefId tableId

/-- `repairDomainConstraintLoop`: drop the domain constraint's dependency
on its domain. -/
def repairDomainConstraintLoop (store : List DumpableObject)
    (domainId constraintId : DumpId) : List DumpableObject :=
  removeObjectDependency store constraintId domainId

/-- `repairDomainConstraintMultiLoop`: make the domain constraint a
separate post-data item (as for tables, with the post-data boundary). -/
def repairDomainConstraintMultiLoop (postId : DumpId)
    (store : List DumpableObject) (domainId constraintId : DumpId) :
    List DumpableObject :=
  let s1 := removeObjectDependency store domainId constraintId
  let s2 := updateObject s1 constraintId (fun c => { c with separate := true })
  let s3 := addObjectDependency s2 constraintId domainId
  addObjectDependency s3 constraintId postId

/-- `repairIndexLoop`: drop the partitioned index's dependency on the
partition's index. -/
def repairIndexLoop (store : List DumpableObject)
    (partedIndexId partIndexId : DumpId) : List DumpableObject :=
  removeObjectDependency store partedIndexId partIndexId

/-- First pair of loop positions `(i, j)`, `i`-major, with `P i` and
`Q i j` (the shape of the repairer's nested scans over a multi-object
loop). -/
def findPair (n : Nat) (P : Nat → Bool) (Q : Nat → Nat → Bool) :
    Option (Nat × Nat) :=
  (List.range n).findSome? (fun i =>
    if P i then ((List.range n).find? (fun j => Q i j)).map (fun j => (i, j))
    else none)

/-- The object at loop position `i`. -/
def loopObj (store : List DumpableObject) (loop : List DumpId) (i : Nat) :
    DumpableObject :=
  (findObjectByDumpId store (loop.getD i 0)).getD default

/-- The `Indirect loop involving view (but not matview) and ON SELECT
rule` scan: the first (view, its ON SELECT rule) position pair, for loops
of more than two objects. -/
def viewRuleMultiScan (store : List DumpableObject) (loop : List DumpId) :
    Option (Nat × Nat) :=
  if loop.length > 2 then
    findPair loop.length
      (fun i => (loopObj store loop i).objType = DO_TABLE ∧
        (loopObj store loop i).relkind = RELKIND_VIEW)
      (fun i j => (loopObj store loop j).objType = DO_RULE ∧
        (loopObj store loop j).ev_type = 49 ∧
        (loopObj store loop j).is_instead = true ∧
        (loopObj store loop j).ruletableId = (loopObj store loop i).dumpId)
  else none

/-- The `Indirect loop involving matview and data boundary` scan: for the
first matview (or matview statistics) member, the position of the pre-data
(respectively post-data) boundary and of the loop member after it. -/
def matviewBoundaryScan (store : List DumpableObject) (loop : List DumpId) :
    Option (Nat × Nat) :=
  if loop.length > 2 then
    (List.range loop.length).findSome? (fun i =>
      if (loopObj store loop i).objType = DO_TABLE ∧
          (loopObj store loop i).relkind = RELKIND_MATVIEW then
        ((List.range loop.length).find?
          (fun j => (loopObj store loop j).objType = DO_PRE_DATA_BOUNDARY)).map
          (fun j => (j, if j < loop.length - 1 then j + 1 else 0))
      else if (loopObj store loop i).objType = DO_REL_STATS ∧
          (loopObj store loop i).relkind = RELKIND_MATVIEW then
        ((List.range loop.length).find?
          (fun j => (loopObj store loop j).objType =
            DO_POST_DATA_BOUNDARY)).map
          (fun j => (j, if j < loop.length - 1 then j + 1 else 0))
      else none)
  else none

/-- The `Indirect loop involving function and data boundary` scan: when a
function is in the loop, the position of the pre-data boundary and of the
loop member after it. -/
def functionBoundaryScan (store : List DumpableObject) (loop : List DumpId) :
    Option (Nat × Nat) :=
  if loop.length > 2 then
    (findPair loop.length (fun i => (loopObj store loop i).objType = DO_FUNC)
      (fun _ j => (loopObj store loop j).objType = DO_PRE_DATA_BOUNDARY)).map
      (fun p => (p.2, if p.2 < loop.length - 1 then p.2 + 1 else 0))
  else none

/-- The `Indirect loop involving table and CHECK constraint` scan. -/
def tableConstraintScan (store : List DumpableObject) (loop : List DumpId) :
    Option (Nat × Nat) :=
  if loop.length > 2 then
    findPair loop.length
      (fun i => (loopObj store loop i).objType = DO_TABLE)
      (fun i j => (loopObj store loop j).objType = DO_CONSTRAINT ∧
        (loopObj store loop j).contype = 99 ∧
        (loopObj store loop j).contableId = some (loopObj store loop i).dumpId)
  else none

/-- The `Indirect loop involving table and attribute default` scan. -/
def tableAttrDefScan (store : List DumpableObject) (loop : List DumpId) :
    Option (Nat × Nat) :=
  if loop.length > 2 then
    findPair loop.length
      (fun i => (loopObj store loop i).objType = DO_TABLE)
      (fun i j => (loopObj store loop j).objType = DO_ATTRDEF ∧
        (loopObj store loop j).adtableId = (loopObj store loop i).dumpId)
  else none

/-- The `Indirect loop involving domain and CHECK or NOT NULL constraint`
scan. -/
def domainConstraintScan (store : List DumpableObject) (loop : List DumpId) :
    Option (Nat × Nat) :=
  if loop.length > 2 then
    findPair loop.length
      (fun i => (loopObj store loop i).objType = DO_TYPE)
      (fun i j => (loopObj store loop j).objType = DO_CONSTRAINT ∧
        ((loopObj store loop j).contype = 99 ∨
          (loopObj store loop j).contype = 110) ∧
        (loopObj store loop j).condomainId =
          some (loopObj store loop i).dumpId)
  else none

/-- `repairDependencyLoop`: reduce the loop to one of the catalogued
shapes, first match wins, and apply the matching fixer; fall back to
removing `loop[0]`'s dependency on `loop[1]` (or its self-dependency).
The warning output of the two reporting branches has no effect on the
object set and is not modelled.  Loop members are handed over as dump ids;
the C's pointer-equality tests on back-references become dump-id equality
(faithful for unique dump ids). -/
def repairDependencyLoop (preId postId : DumpId) (store : List DumpableObject)
    (loop : List DumpId) : List DumpableObject :=
  let n := loop.length
  let lid := fun i => loop.getD i 0
  let lobj := fun i => loopObj store loop i
  -- Datatype and one of its I/O or canonicalize functions
  if n = 2 ∧ (lobj 0).objType = DO_TYPE ∧ (lobj 1).objType = DO_FUNC then
    repairTypeFuncLoop store (lid 0) (lid 1)
  else if n = 2 ∧ (lobj 1).objType = DO_TYPE ∧ (lobj 0).objType = DO_FUNC then
    repairTypeFuncLoop store (lid 1) (lid 0)
  -- View (including matview) and its ON SELECT rule
  else if n = 2 ∧ (lobj 0).objType = DO_TABLE ∧ (lobj 1).objType = DO_RULE ∧
      ((lobj 0).relkind = RELKIND_VIEW ∨ (lobj 0).relkind = RELKIND_MATVIEW) ∧
      (lobj 1).ev_type = 49 ∧ (lobj 1).is_instead = true ∧
      (lobj 1).ruletableId = (lobj 0).dumpId then
    repairViewRuleLoop store (lid 0) (lid 1)
  else if n = 2 ∧ (lobj 1).objType = DO_TABLE ∧ (lobj 0).objType = DO_RULE ∧
      ((lobj 1).relkind = RELKIND_VIEW ∨ (lobj 1).relkind = RELKIND_MATVIEW) ∧
      (lobj 0).ev_type = 49 ∧ (lobj 0).is_instead = true ∧
      (lobj 0).ruletableId = (lobj 1).dumpId then
    repairViewRuleLoop store (lid 1) (lid 0)
  else
    match viewRuleMultiScan store loop with
  | some (i, j) => repairViewRuleMultiLoop postId store (lid i) (lid j)
  | none =>
    match matviewBoundaryScan store loop with
  | some (j, nx) => repairMatViewBoundaryMultiLoop store (lid j) (lid nx)
  | none =>
    match functionBoundaryScan store loop with
  | some (j, nx) => repairFunctionBoundaryMultiLoop store (lid j) (lid nx)
  | none =>
    -- Table and CHECK constraint
    if n = 2 ∧ (lobj 0).objType = DO_TABLE ∧
        (lobj 1).objType = DO_CONSTRAINT ∧ (lobj 1).contype = 99 ∧
        (lobj 1).contableId = some (lobj 0).dumpId then
      repairTableConstraintLoop store (lid 0) (lid 1)
    else if n = 2 ∧ (lobj 1).objType = DO_TABLE ∧
        (lobj 0).objType = DO_CONSTRAINT ∧ (lobj 0).contype = 99 ∧
        (lobj 0).contableId = some (lobj 1).dumpId then
      repairTableConstraintLoop store (lid 1) (lid 0)
    else
      match tableConstraintScan store loop with
  | some (i, j) => repairTableConstraintMultiLoop postId store (lid i) (lid j)
  | none =>
    -- Table and attribute default
    if n = 2 ∧ (lobj 0).objType = DO_TABLE ∧ (lobj 1).objType = DO_ATTRDEF ∧
        (lobj 1).adtableId = (lobj 0).dumpId then
      repairTableAttrDefLoop store (lid 0) (lid 1)
    else if n = 2 ∧ (lobj 1).objType = DO_TABLE ∧
        (lobj 0).objType = DO_ATTRDEF ∧
        (lobj 0).adtableId = (lobj 1).dumpId then
      repairTableAttrDefLoop store (lid 1) (lid 0)
    -- index on partitioned table and corresponding index on partition
    else if n = 2 ∧ (lobj 0).objType = DO_INDEX ∧
        (lobj 1).objType = DO_INDEX ∧
        (lobj 0).parentidx = (lobj 1).catIdOid then
      repairIndexLoop store (lid 0) (lid 1)
    else if n = 2 ∧ (lobj 0).objType = DO_INDEX ∧
        (lobj 1).objType = DO_INDEX ∧
        (lobj 1).parentidx = (lobj 0).catIdOid then
      repairIndexLoop store (lid 1) (lid 0)
    else
      match tableAttrDefScan store loop with
  | some (i, j) => repairTableAttrDefMultiLoop store (lid i) (lid j)
  | none =>
    -- Domain and CHECK or NOT NULL constraint
    if n = 2 ∧ (lobj 0).objType = DO_TYPE ∧
        (lobj 1).objType = DO_CONSTRAINT ∧
        ((lobj 1).contype = 99 ∨ (lobj 1).contype = 110) ∧
        (lobj 1).condomainId = some (lobj 0).dumpId then
      repairDomainConstraintLoop store (lid 0) (lid 1)
    else if n = 2 ∧ (lobj 1).objType = DO_TYPE ∧
        (lobj 0).objType = DO_CONSTRAINT ∧
        ((lobj 0).contype = 99 ∨ (lobj 0).contype = 110) ∧
        (lobj 0).condomainId = some (lobj 1).dumpId then
      repairDomainConstraintLoop store (lid 1) (lid 0)
    else
      match domainConstraintScan store loop with
  | some (i, j) => repairDomainConstraintMultiLoop postId store (lid i) (lid j)
  | none =>
    -- Loop of table with itself
    if n = 1 ∧ (lobj 0).objType = DO_TABLE then
      removeObjectDependency store (lid 0) (lid 0)
    -- all TABLE_DATA: circular foreign keys; warn and break arbitrarily
    else if loop.all (fun id =>
        ((findObjectByDumpId store id).getD default).objType = DO_TABLE_DATA)
    then
      if n > 1 then removeObjectDependency store (lid 0) (lid 1)
      else removeObjectDependency store (lid 0) (lid 0)
    -- unrecognized shape: warn and break arbitrarily
    else if n > 1 then removeObjectDependency store (lid 0) (lid 1)
    else removeObjectDependency store (lid 0) (lid 0)

/-! ## findDependencyLoops and the driver -/

/-- State over the finder pass: the (mutated) object store, the
`processed[]` and `searchFailed[]` arrays, and the `fixedloop` flag. -/
structure FdlState where
  store : List DumpableObject
  processed : List Bool
  sf : List DumpId
  fixedloop : Bool
  deriving Repr

/-- One iteration of the finder pass over one unsorted object: look for a
loop starting there; if one is found, repair it and mark its members
processed, otherwise mark the object processed. -/
def fdlStep (preId postId : DumpId) (s : FdlState) (objId : DumpId) :
    FdlState :=
  match findObjectByDumpId s.store objId with
  | none => s
  | some obj =>
      match findLoop s.store s.processed (s.store.length + 1) obj obj.dumpId
          s.sf [] with
      | (some loop, sf2) =>
          { store := repairDependencyLoop preId postId s.store loop,
            processed := loop.foldl (fun pr id => pr.set id true) s.processed,
            sf := sf2, fixedloop := true }
      | (none, sf2) =>
          { s with processed := s.processed.set obj.dumpId true, sf := sf2 }

/-- `findDependencyLoops`: one full finder pass over TopoSort's failure
output; `none` is the `pg_fatal("could not identify dependency loop")`
taken when the pass repaired nothing. -/
def findDependencyLoops (preId postId maxDumpId : DumpId)
    (store : List DumpableObject) (remainder : List DumpId) :
    Option (List DumpableObject) :=
  let s := remainder.foldl (fdlStep preId postId)
    { store := store, processed := List.replicate (maxDumpId + 1) false,
      sf := List.replicate (maxDumpId + 1) 0, fixedloop := false }
  if s.fixedloop then some s.store else none

/-- Result of the driver: the reordered objects, a fatal exit
(`pg_fatal` or undefined behaviour), or fuel exhaustion of the model
(the C driver loops without bound). -/
inductive DriverResult where
  | ok (objs : List DumpableObject)
  | fatal
  | outOfFuel
  deriving Repr, DecidableEq

/-- The driver loop of `sortDumpableObjects`: run `TopoSort`; on failure
hand the remainder to `findDependencyLoops` and retry.  The C loop has no
bound; the model carries fuel and reports exhaustion distinctly. -/
def sortDumpableObjectsLoop (maxDumpId preId postId : DumpId) :
    Nat → List DumpableObject → DriverResult
  | fuel, objs =>
      match TopoSort maxDumpId objs with
      | none => .fatal
      | some r =>
          if r.success then .ok (r.ordering.filterMap (findObjectByDumpId objs))
          else
            match r.remainder with
            | none => .fatal
            | some rem =>
                match fuel with
                | 0 => .outOfFuel
                | fuel + 1 =>
                    match findDependencyLoops preId postId maxDumpId objs
                        rem with
                    | none => .fatal
                    | some objs2 =>
                        sortDumpableObjectsLoop maxDumpId preId postId fuel
                          objs2

/-- `sortDumpableObjects(objs, numObjs, preBoundaryId, postBoundaryId)`:
empty input returns at once; otherwise the driver loop runs and the final
successful ordering is copied back over `objs[]`. -/
def sortDumpableObjects (fuel maxDumpId preId postId : DumpId)
    (objs : List DumpableObject) : DriverResult :=
  if objs.length = 0 then .ok objs
  else sortDumpableObjectsLoop maxDumpId preId postId fuel objs

/-! ## Basic array-model lemmas -/

theorem getD_set_eq {α : Type} (l : List α) (k : Nat) (v d : α)
    (h : k < l.length) : (l.set k v).getD k d = v := by
  simp [List.getD_eq_getElem?_getD, List.getElem?_set_self h]

theorem getD_set_ne {α : Type} (l : List α) {k j : Nat} (v d : α)
    (h : k ≠ j) : (l.set k v).getD j d = l.getD j d := by
  simp [List.getD_eq_getElem?_getD, List.getElem?_set_ne h]

theorem getD_replicate_self {α : Type} (n k : Nat) (v : α) (h : k < n) :
    (List.replicate n v).getD k v = v := by
  simp [List.getD_eq_getElem?_getD, List.getElem?_replicate, h]

theorem getD_replicate_any {α : Type} (n k : Nat) (v d : α) :
    (List.replicate n v).getD k d = if k < n then v else d := by
  simp [List.getD_eq_getElem?_getD, List.getElem?_replicate]
  split <;> simp

/-! ## Characterizing the scan phase of TopoSort -/

/-- The total number of occurrences of `id` among the dependency lists of
`objs` (how many constraints say the object with dump id `id` must be
emitted before something else). -/
def depOccCount (objs : List DumpableObject) (id : DumpId) : Nat :=
  ((objs.map (fun o => o.dependencies)).flatten).count id

theorem depOccCount_cons (o : DumpableObject) (objs : List DumpableObject)
    (id : DumpId) :
    depOccCount (o :: objs) id =
      o.dependencies.count id + depOccCount objs id := by
  simp [depOccCount, List.count_append]

theorem goDeps_length {maxId : Nat} :
    ∀ (ks : List DumpId) (bef bef2 : List Int),
      topoScan.goDeps maxId ks bef = some bef2 → bef2.length = bef.length
  | [], bef, bef2, h => by
      simp only [topoScan.goDeps, Option.some.injEq] at h
      rw [h]
  | k :: ks, bef, bef2, h => by
      simp only [topoScan.goDeps] at h
      split at h
      · exact absurd h (by simp)
      · have := goDeps_length ks _ _ h
        simpa using this

theorem goDeps_some {maxId : Nat} :
    ∀ (ks : List DumpId) (bef : List Int),
      (∀ k ∈ ks, k ≠ 0 ∧ k ≤ maxId) →
      ∃ bef2, topoScan.goDeps maxId ks bef = some bef2
  | [], bef, _ => ⟨bef, rfl⟩
  | k :: ks, bef, h => by
      have hk := h k (by simp)
      obtain ⟨bef2, h2⟩ := goDeps_some ks
        (bef.set k (bef.getD k 0 + 1)) (fun x hx => h x (by simp [hx]))
      refine ⟨bef2, ?_⟩
      simp only [topoScan.goDeps]
      rw [if_neg (not_or.mpr ⟨hk.1, Nat.not_lt.mpr hk.2⟩)]
      exact h2

theorem goDeps_getD {maxId : Nat} :
    ∀ (ks : List DumpId) (bef bef2 : List Int),
      topoScan.goDeps maxId ks bef = some bef2 →
      (∀ k ∈ ks, k < bef.length) →
      ∀ id, bef2.getD id 0 = bef.getD id 0 + (ks.count id : Int)
  | [], bef, bef2, h, _, id => by
      simp only [topoScan.goDeps, Option.some.injEq] at h
      simp [← h]
  | k :: ks, bef, bef2, h, hrange, id => by
      simp only [topoScan.goDeps] at h
      split at h
      · exact absurd h (by simp)
      · have hlen : ∀ x ∈ ks, x < (bef.set k (bef.getD k 0 + 1)).length := by
          intro x hx
          rw [List.length_set]
          exact hrange x (by simp [hx])
        have ih := goDeps_getD ks _ bef2 h hlen id
        rw [ih]
        by_cases hid : k = id
        · subst hid
          rw [getD_set_eq _ _ _ _ (hrange k (by simp))]
          simp [List.count_cons]
          omega
        · rw [getD_set_ne _ _ _ hid]
          have : (k == id) = false := by
            simpa using hid
          simp [List.count_cons, this]

theorem goDeps_valid {maxId : Nat} :
    ∀ (ks : List DumpId) (b b2 : List Int),
      topoScan.goDeps maxId ks b = some b2 → ∀ d ∈ ks, d ≠ 0 ∧ d ≤ maxId
  | [], _, _, _ => by simp
  | k :: ks, b, b2, h => by
      simp only [topoScan.goDeps] at h
      split at h
      · exact absurd h (by simp)
      · rename_i hk
        push_neg at hk
        intro d hd
        rcases List.mem_cons.mp hd with hd2 | hd2
        · subst hd2; exact ⟨hk.1, hk.2⟩
        · exact goDeps_valid ks _ _ h d hd2

theorem go_valid {maxId : Nat} :
    ∀ (objs : List DumpableObject) (i : Nat) (bef : List Int)
      (im : List (Option Nat)) (res : List Int × List (Option Nat)),
      topoScan.go maxId objs i bef im = some res →
      ∀ o ∈ objs, (o.dumpId ≠ 0 ∧ o.dumpId ≤ maxId) ∧
        ∀ d ∈ o.dependencies, d ≠ 0 ∧ d ≤ maxId
  | [], _, _, _, _, _ => by simp
  | o :: objs, i, bef, im, res, h => by
      simp only [topoScan.go] at h
      split at h
      · exact absurd h (by simp)
      · rename_i hid
        push_neg at hid
        intro o2 ho2
        match hgd : topoScan.goDeps maxId o.dependencies bef with
        | none => rw [hgd] at h; exact absurd h (by simp)
        | some bef2 =>
            rw [hgd] at h
            rcases List.mem_cons.mp ho2 with ho3 | ho3
            · subst ho3
              exact ⟨⟨hid.1, hid.2⟩, goDeps_valid o2.dependencies bef bef2 hgd⟩
            · exact go_valid objs (i + 1) bef2 _ res h o2 ho3

theorem go_some {maxId : Nat} :
    ∀ (objs : List DumpableObject) (i : Nat) (bef : List Int)
      (im : List (Option Nat)),
      (∀ o ∈ objs, (o.dumpId ≠ 0 ∧ o.dumpId ≤ maxId) ∧
        ∀ d ∈ o.dependencies, d ≠ 0 ∧ d ≤ maxId) →
      ∃ res, topoScan.go maxId objs i bef im = some res
  | [], i, bef, im, _ => ⟨(bef, im), rfl⟩
  | o :: objs, i, bef, im, h => by
      have ho := h o (by simp)
      obtain ⟨bef2, h2⟩ := @goDeps_some maxId o.dependencies bef ho.2
      obtain ⟨res, h3⟩ := go_some objs (i + 1) bef2
        (im.set o.dumpId (some i)) (fun x hx => h x (by simp [hx]))
      refine ⟨res, ?_⟩
      simp only [topoScan.go]
      rw [if_neg (not_or.mpr ⟨ho.1.1, Nat.not_lt.mpr ho.1.2⟩), h2]
      exact h3

theorem go_lengths {maxId : Nat} :
    ∀ (objs : List DumpableObject) (i : Nat) (bef : List Int)
      (im : List (Option Nat)) (res : List Int × List (Option Nat)),
      topoScan.go maxId objs i bef im = some res →
      res.1.length = bef.length ∧ res.2.length = im.length
  | [], _, _, _, _, h => by
      simp only [topoScan.go, Option.some.injEq] at h
      rw [← h]
      exact ⟨rfl, rfl⟩
  | o :: objs, i, bef, im, res, h => by
      simp only [topoScan.go] at h
      split at h
      · exact absurd h (by simp)
      · match hgd : topoScan.goDeps maxId o.dependencies bef with
        | none => rw [hgd] at h; exact absurd h (by simp)
        | some bef2 =>
            rw [hgd] at h
            have ih := go_lengths objs (i + 1) bef2 _ res h
            have hl := @goDeps_length maxId o.dependencies bef bef2 hgd
            constructor
            · rw [ih.1, hl]
            · rw [ih.2, List.length_set]

theorem go_before {maxId : Nat} :
    ∀ (objs : List DumpableObject) (i : Nat) (bef : List Int)
      (im : List (Option Nat)) (res : List Int × List (Option Nat)),
      topoScan.go maxId objs i bef im = some res →
      bef.length = maxId + 1 →
      ∀ id, res.1.getD id 0 = bef.getD id 0 + (depOccCount objs id : Int)
  | [], _, bef, _, res, h, _, id => by
      simp only [topoScan.go, Option.some.injEq] at h
      rw [← h]
      simp [depOccCount]
  | o :: objs, i, bef, im, res, h, hlen, id => by
      simp only [topoScan.go] at h
      split at h
      · exact absurd h (by simp)
      · match hgd : topoScan.goDeps maxId o.dependencies bef with
        | none => rw [hgd] at h; exact absurd h (by simp)
        | some bef2 =>
            rw [hgd] at h
            have hval := @goDeps_valid maxId o.dependencies bef bef2 hgd
            have hrange : ∀ k ∈ o.dependencies, k < bef.length := by
              intro k hk
              have h2 := (hval k hk).2
              rw [hlen]
              exact Nat.lt_succ_of_le h2
            have hstep := @goDeps_getD maxId o.dependencies bef bef2
              hgd hrange id
            have hlen2 : bef2.length = maxId + 1 := by
              rw [@goDeps_length maxId o.dependencies bef bef2 hgd,
                hlen]
            have ih := go_before objs (i + 1) bef2 _ res h hlen2 id
            rw [ih, hstep, depOccCount_cons]
            push_cast
            ring

theorem go_im_stable {maxId : Nat} :
    ∀ (objs : List DumpableObject) (i : Nat) (bef : List Int)
      (im : List (Option Nat)) (res : List Int × List (Option Nat)),
      topoScan.go maxId objs i bef im = some res →
      ∀ id, (∀ o ∈ objs, o.dumpId ≠ id) →
      res.2.getD id none = im.getD id none
  | [], _, _, _, _, h, id, _ => by
      simp only [topoScan.go, Option.some.injEq] at h
      rw [← h]
  | o :: objs, i, bef, im, res, h, id, hne => by
      simp only [topoScan.go] at h
      split at h
      · exact absurd h (by simp)
      · match hgd : topoScan.goDeps maxId o.dependencies bef with
        | none => rw [hgd] at h; exact absurd h (by simp)
        | some bef2 =>
            rw [hgd] at h
            have ih := go_im_stable objs (i + 1) bef2 _ res h id
              (fun x hx => hne x (by simp [hx]))
            rw [ih, getD_set_ne _ _ _ (hne o (by simp))]

theorem go_im_mem {maxId : Nat} :
    ∀ (objs : List DumpableObject) (i : Nat) (bef : List Int)
      (im : List (Option Nat)) (res : List Int × List (Option Nat)),
      topoScan.go maxId objs i bef im = some res →
      im.length = maxId + 1 →
      (objs.map (fun o => o.dumpId)).Nodup →
      ∀ k (h : k < objs.length),
        res.2.getD ((objs.getD k default).dumpId) none = some (i + k)
  | [], _, _, _, _, _, _, _, k, hk => by simp at hk
  | o :: objs, i, bef, im, res, h, hlen, hnd, k, hk => by
      simp only [topoScan.go] at h
      split at h
      · exact absurd h (by simp)
      · rename_i hid
        push_neg at hid
        match hgd : topoScan.goDeps maxId o.dependencies bef with
        | none => rw [hgd] at h; exact absurd h (by simp)
        | some bef2 =>
            rw [hgd] at h
            simp only [List.map_cons, List.nodup_cons] at hnd
            match k with
            | 0 =>
                show res.2.getD ((o :: objs).getD 0 default).dumpId none =
                  some (i + 0)
                have h0 : (o :: objs).getD 0 default = o := rfl
                rw [h0]
                have hstable := go_im_stable objs (i + 1) bef2 _ res h o.dumpId
                  (by
                    intro x hx
                    intro hcon
                    exact hnd.1 (by
                      rw [← hcon]
                      exact List.mem_map_of_mem _ hx))
                have hr : o.dumpId < im.length := by
                  rw [hlen]
                  exact Nat.lt_succ_of_le hid.2
                rw [hstable, getD_set_eq _ _ _ _ hr, Nat.add_zero]
            | k + 1 =>
                have ih := go_im_mem objs (i + 1) bef2 _ res h
                  (by rw [List.length_set]; exact hlen) hnd.2 k
                  (by simpa using hk)
                simpa [Nat.add_assoc, Nat.add_comm 1 k] using ih

theorem go_im_sound {maxId : Nat} :
    ∀ (objs : List DumpableObject) (i : Nat) (bef : List Int)
      (im : List (Option Nat)) (res : List Int × List (Option Nat)),
      topoScan.go maxId objs i bef im = some res →
      ∀ id ix, res.2.getD id none = some ix →
        im.getD id none = some ix ∨
        ∃ k, k < objs.length ∧ (objs.getD k default).dumpId = id ∧
          ix = i + k
  | [], _, _, _, _, h, id, ix, hix => by
      simp only [topoScan.go, Option.some.injEq] at h
      rw [← h] at hix
      exact Or.inl hix
  | o :: objs, i, bef, im, res, h, id, ix, hix => by
      simp only [topoScan.go] at h
      split at h
      · exact absurd h (by simp)
      · match hgd : topoScan.goDeps maxId o.dependencies bef with
        | none => rw [hgd] at h; exact absurd h (by simp)
        | some bef2 =>
            rw [hgd] at h
            rcases go_im_sound objs (i + 1) bef2 _ res h id ix hix with
              hbase | ⟨k, hk, hkid, hkix⟩
            · by_cases hoid : o.dumpId = id
              · subst hoid
                by_cases hr : o.dumpId < im.length
                · rw [getD_set_eq _ _ _ _ hr] at hbase
                  refine Or.inr ⟨0, by simp, by simp, ?_⟩
                  have hix2 : i = ix := by simpa using hbase
                  rw [← hix2, Nat.add_zero]
                · rw [List.set_eq_of_length_le (Nat.le_of_not_lt hr)] at hbase
                  exact Or.inl hbase
              · rw [getD_set_ne _ _ _ hoid] at hbase
                exact Or.inl hbase
            · refine Or.inr ⟨k + 1, by simpa using hk, by simpa using hkid, ?_⟩
              rw [hkix, Nat.add_assoc, Nat.add_comm 1 k]

theorem topoScan_eq_go (maxId : Nat) (objs : List DumpableObject) :
    topoScan maxId objs =
      topoScan.go maxId objs 0 (List.replicate (maxId + 1) 0)
        (List.replicate (maxId + 1) none) := rfl

theorem topoScan_some (maxId : Nat) (objs : List DumpableObject)
    (h : ∀ o ∈ objs, (o.dumpId ≠ 0 ∧ o.dumpId ≤ maxId) ∧
      ∀ d ∈ o.dependencies, d ≠ 0 ∧ d ≤ maxId) :
    ∃ bef im, topoScan maxId objs = some (bef, im) := by
  obtain ⟨res, hres⟩ := @go_some maxId objs 0
    (List.replicate (maxId + 1) 0) (List.replicate (maxId + 1) none) h
  exact ⟨res.1, res.2, by rw [topoScan_eq_go, hres]⟩

theorem topoScan_valid (maxId : Nat) (objs : List DumpableObject)
    (bef : List Int) (im : List (Option Nat))
    (h : topoScan maxId objs = some (bef, im)) :
    ∀ o ∈ objs, (o.dumpId ≠ 0 ∧ o.dumpId ≤ maxId) ∧
      ∀ d ∈ o.dependencies, d ≠ 0 ∧ d ≤ maxId := by
  rw [topoScan_eq_go] at h
  exact go_valid objs 0 _ _ _ h

theorem topoScan_lengths (maxId : Nat) (objs : List DumpableObject)
    (bef : List Int) (im : List (Option Nat))
    (h : topoScan maxId objs = some (bef, im)) :
    bef.length = maxId + 1 ∧ im.length = maxId + 1 := by
  rw [topoScan_eq_go] at h
  have := go_lengths objs 0 _ _ _ h
  simpa using this

theorem topoScan_before (maxId : Nat) (objs : List DumpableObject)
    (bef : List Int) (im : List (Option Nat))
    (h : topoScan maxId objs = some (bef, im)) :
    ∀ id, bef.getD id 0 = (depOccCount objs id : Int) := by
  intro id
  rw [topoScan_eq_go] at h
  have := go_before objs 0 (List.replicate (maxId + 1) 0)
    (List.replicate (maxId + 1) none) (bef, im) h (by simp) id
  rw [getD_replicate_any] at this
  simpa using this

theorem topoScan_im_mem (maxId : Nat) (objs : List DumpableObject)
    (bef : List Int) (im : List (Option Nat))
    (h : topoScan maxId objs = some (bef, im))
    (hnd : (objs.map (fun o => o.dumpId)).Nodup) :
    ∀ k (hk : k < objs.length),
      im.getD ((objs.getD k default).dumpId) none = some k := by
  intro k hk
  rw [topoScan_eq_go] at h
  have := go_im_mem objs 0 (List.replicate (maxId + 1) 0)
    (List.replicate (maxId + 1) none) (bef, im) h (by simp) hnd k hk
  simpa using this

theorem topoScan_im_sound (maxId : Nat) (objs : List DumpableObject)
    (bef : List Int) (im : List (Option Nat))
    (h : topoScan maxId objs = some (bef, im)) :
    ∀ id ix, im.getD id none = some ix →
      ix < objs.length ∧ (objs.getD ix default).dumpId = id := by
  intro id ix hix
  rw [topoScan_eq_go] at h
  rcases go_im_sound objs 0 _ _ (bef, im) h id ix hix with hbase | ⟨k, h1, h2, h3⟩
  · rw [getD_replicate_any] at hbase
    split at hbase <;> exact absurd hbase (by simp)
  · simp only [Nat.zero_add] at h3
    subst h3
    exact ⟨h1, h2⟩

theorem topoScan_im_none (maxId : Nat) (objs : List DumpableObject)
    (bef : List Int) (im : List (Option Nat))
    (h : topoScan maxId objs = some (bef, im))
    (id : DumpId) (hne : ∀ o ∈ objs, o.dumpId ≠ id) :
    im.getD id none = none := by
  rw [topoScan_eq_go] at h
  have := go_im_stable objs 0 _ _ (bef, im) h id hne
  rw [getD_replicate_any] at this
  simp only at this
  rw [this]
  split <;> rfl

theorem topoSeed_mem (objs : List DumpableObject) (bef : List Int) (i : Nat) :
    i ∈ topoSeed objs bef ↔
      i < objs.length ∧ bef.getD ((objs.getD i default).dumpId) 0 = 0 := by
  simp only [topoSeed, List.mem_filter, List.mem_reverse, List.mem_range,
    decide_eq_true_eq]

/-! ## Claim C5: the beforeConstraints counters and the heap seed -/

/-- A minimal concrete object used to exhibit what `before[]` counts: one
object with dump id 1 depending on the (undumped) id 2. -/
def c5Obj : DumpableObject :=
  { dumpId := 1, objType := DO_TABLE, catIdOid := 11, name := "t",
    namespaceName := some "public", dependencies := [2] }

/-- C5, counterexample: the claim reads `before[id]` as the length of the
object's own dependency list.  On the one-object input `[c5Obj]` (dump id
1, one outgoing dependency), the scan leaves `before[1] = 0` — the counter
counts how many **other** constraints name id 1, not the object's own
list, whose length is 1. -/
theorem c5_before_not_own_deps_length :
    topoScan 2 [c5Obj] = some ([0, 0, 1], [none, some 0, none]) ∧
      ¬ (([0, 0, 1] : List Int).getD c5Obj.dumpId 0 =
          (c5Obj.dependencies.length : Int)) := by
  constructor
  · rfl
  · decide

/-- C5, amended: after the scan phase of `TopoSort`, `before[id]` equals
the number of occurrences of `id` across the dependency lists of all input
objects (the number of constraints saying `id` must be emitted before
something else), and the pending heap is seeded with exactly the input
indexes whose counter is zero. -/
theorem c5_before_counts_and_seed (maxId : Nat) (objs : List DumpableObject)
    (bef : List Int) (im : List (Option Nat))
    (h : topoScan maxId objs = some (bef, im)) :
    (∀ id, bef.getD id 0 = (depOccCount objs id : Int)) ∧
      (∀ i, i ∈ topoSeed objs bef ↔
        i < objs.length ∧ bef.getD ((objs.getD i default).dumpId) 0 = 0) :=
  ⟨topoScan_before maxId objs bef im h,
    fun i => topoSeed_mem objs bef i⟩

/-- Witness for C5 at a concrete input. -/
theorem c5_witness :
    topoScan 2 [c5Obj] = some ([0, 0, 1], [none, some 0, none]) ∧
      ((∀ id, ([0, 0, 1] : List Int).getD id 0 =
          (depOccCount [c5Obj] id : Int)) ∧
        (∀ i, i ∈ topoSeed [c5Obj] [0, 0, 1] ↔
          i < ([c5Obj] : List DumpableObject).length ∧
            ([0, 0, 1] : List Int).getD
              ((([c5Obj] : List DumpableObject).getD i default).dumpId) 0
              = 0)) :=
  ⟨rfl, c5_before_counts_and_seed 2 [c5Obj] [0, 0, 1] [none, some 0, none] rfl⟩

/-! ## Emission-loop lemmas about untouched counters -/

theorem depFold_untouched (im : List (Option Nat)) :
    ∀ (ds : List DumpId) (acc : List Nat × List Int × Bool) (id : DumpId),
      id ∉ ds → (depFold im ds acc).2.1.getD id 0 = acc.2.1.getD id 0
  | [], _, _, _ => rfl
  | d :: ds, acc, id, hid => by
      have hne : d ≠ id := fun hc => hid (hc ▸ List.mem_cons_self d ds)
      have hid2 : id ∉ ds := fun hc => hid (List.mem_cons_of_mem d hc)
      simp only [depFold]
      split
      · split
        · rw [depFold_untouched im ds _ id hid2]
          exact getD_set_ne _ _ _ hne
        · rw [depFold_untouched im ds _ id hid2]
          exact getD_set_ne _ _ _ hne
      · rw [depFold_untouched im ds _ id hid2]
        exact getD_set_ne _ _ _ hne

theorem emitStep_untouched (objs : List DumpableObject)
    (im : List (Option Nat)) (s : EmitState) (id : DumpId)
    (h : ∀ o ∈ objs, id ∉ o.dependencies) :
    (emitStep objs im s).before.getD id 0 = s.before.getD id 0 := by
  unfold emitStep
  match hpop : popMax s.pending with
  | none => rfl
  | some (j, rest) =>
      simp only
      apply depFold_untouched
      by_cases hj : j < objs.length
      · refine h _ ?_
        rw [List.getD_eq_getElem _ _ hj]
        exact objs.getElem_mem hj
      · rw [List.getD_eq_default _ _ (Nat.le_of_not_lt hj)]
        simp [default, Inhabited.default]

theorem emitLoop_untouched (objs : List DumpableObject)
    (im : List (Option Nat)) (id : DumpId)
    (h : ∀ o ∈ objs, id ∉ o.dependencies) :
    ∀ (fuel : Nat) (s : EmitState),
      (emitLoop objs im fuel s).before.getD id 0 = s.before.getD id 0
  | 0, _ => rfl
  | fuel + 1, s => by
      simp only [emitLoop]
      match s.pending with
      | [] => rfl
      | _ :: _ =>
          rw [emitLoop_untouched objs im id h fuel _,
            emitStep_untouched objs im s id h]

/-- The state of the emission loop as `TopoSort` runs it, given the scan
results. -/
def emitRun (objs : List DumpableObject) (bef : List Int)
    (im : List (Option Nat)) : EmitState :=
  emitLoop objs im (objs.length + 1)
    { pending := topoSeed objs bef, before := bef, out := [], err := false }

theorem TopoSort_some_elim (maxId : Nat) (objs : List DumpableObject)
    (r : TopoOut) (h : TopoSort maxId objs = some r) :
    ∃ bef im, topoScan maxId objs = some (bef, im) ∧
      (emitRun objs bef im).err = false ∧
      r = { success := decide ((emitRun objs bef im).out.length = objs.length),
            ordering := (emitRun objs bef im).out,
            residualIds := (List.range' 1 maxId).filter
              (fun j => (emitRun objs bef im).before.getD j 0 ≠ 0),
            remainder :=
              if ((List.range' 1 maxId).filter
                  (fun j => (emitRun objs bef im).before.getD j 0 ≠ 0)).all
                  (fun j => (im.getD j none).isSome) then
                some (((List.range' 1 maxId).filter
                  (fun j => (emitRun objs bef im).before.getD j 0 ≠ 0)).map
                  (fun j => (objs.getD ((im.getD j none).getD 0)
                    default).dumpId))
              else none,
            finalBefore := (emitRun objs bef im).before } := by
  unfold TopoSort at h
  match hscan : topoScan maxId objs with
  | none => rw [hscan] at h; exact absurd h (by simp)
  | some (bef, im) =>
      rw [hscan] at h
      refine ⟨bef, im, rfl, ?_⟩
      simp only at h
      by_cases herr : (emitRun objs bef im).err
      · rw [show (emitLoop objs im (objs.length + 1)
            { pending := topoSeed objs bef, before := bef, out := [],
              err := false }) = emitRun objs bef im from rfl] at h
        rw [if_pos herr] at h
        exact absurd h (by simp)
      · rw [show (emitLoop objs im (objs.length + 1)
            { pending := topoSeed objs bef, before := bef, out := [],
              err := false }) = emitRun objs bef im from rfl] at h
        rw [if_neg herr] at h
        refine ⟨by simpa using herr, ?_⟩
        simp only [Option.some.injEq] at h
        exact h.symm

/-! ## Claim C9: residual counters and the failure path's idMap reads -/

/-- First member of a two-cycle that also carries a dependency on the
undumped id 3. -/
def c9A : DumpableObject :=
  { dumpId := 1, objType := DO_TABLE, catIdOid := 11, name := "a",
    namespaceName := some "public", dependencies := [2, 3] }

/-- Second member of the two-cycle. -/
def c9B : DumpableObject :=
  { dumpId := 2, objType := DO_TABLE, catIdOid := 12, name := "b",
    namespaceName := some "public", dependencies := [1] }

/-- C9, counterexample: on the failing input `[c9A, c9B]` (a two-cycle in
which `c9A` also depends on the undumped id 3, `maxDumpId = 3`), the
residual id 3 has a non-zero before-count but is the dump id of no input
object, and the failure path's `idMap[3]` read has no defined value (the
model's resolved remainder is `none`). -/
theorem c9_residual_id_not_dumped :
    ∃ r, TopoSort 3 [c9A, c9B] = some r ∧ r.success = false ∧
      3 ∈ r.residualIds ∧ (¬ ∃ o ∈ [c9A, c9B], o.dumpId = 3) ∧
      r.remainder = none := by
  refine ⟨_, rfl, ?_, ?_, ?_, ?_⟩ <;> decide

/-- C9, amended: on a failing `TopoSort` run whose input resolves every
dependency id to an input object (as the dump tool guarantees) and whose
dump ids are unique, every dump id with a non-zero residual before-count
is the dump id of an input object, and the failure path's `idMap[]`
resolution of the remainder is defined.  (The counterexample shows this
fails once dependency ids referencing undumped objects occur.) -/
theorem c9_residual_ids_are_dumped (maxId : Nat) (objs : List DumpableObject)
    (r : TopoOut) (h : TopoSort maxId objs = some r)
    (hfail : r.success = false)
    (hnd : (objs.map (fun o => o.dumpId)).Nodup)
    (hres : ∀ o ∈ objs, ∀ d ∈ o.dependencies, ∃ o2 ∈ objs, o2.dumpId = d) :
    (∀ j ∈ r.residualIds, ∃ o ∈ objs, o.dumpId = j) ∧ r.remainder.isSome := by
  obtain ⟨bef, im, hscan, herr, hr⟩ := TopoSort_some_elim maxId objs r h
  have hmem : ∀ j ∈ r.residualIds, ∃ o ∈ objs, o.dumpId = j := by
    intro j hj
    rw [hr] at hj
    simp only [List.mem_filter, decide_eq_true_eq] at hj
    have hnz := hj.2
    -- if no object's dependency list mentions j, its counter was and
    -- stays zero
    by_cases hocc : ∀ o ∈ objs, j ∉ o.dependencies
    · exfalso
      apply hnz
      have huntouched := emitLoop_untouched objs im j hocc (objs.length + 1)
        { pending := topoSeed objs bef, before := bef, out := [],
          err := false }
      rw [show emitRun objs bef im = emitLoop objs im (objs.length + 1)
        { pending := topoSeed objs bef, before := bef, out := [],
          err := false } from rfl]
      rw [huntouched]
      simp only
      rw [topoScan_before maxId objs bef im hscan j]
      have : depOccCount objs j = 0 := by
        rw [depOccCount, List.count_eq_zero]
        intro hc
        rcases List.mem_flatten.mp hc with ⟨dl, hdl, hjdl⟩
        rcases List.mem_map.mp hdl with ⟨o, ho, hodl⟩
        exact hocc o ho (hodl ▸ hjdl)
      rw [this]
      rfl
    · push_neg at hocc
      obtain ⟨o, ho, hjo⟩ := hocc
      exact hres o ho j hjo
  refine ⟨hmem, ?_⟩
  have hall : (r.residualIds.all (fun j => (im.getD j none).isSome)) = true := by
    rw [List.all_eq_true]
    intro j hj
    obtain ⟨o, ho, hoid⟩ := hmem j hj
    rcases List.mem_iff_getElem.mp ho with ⟨k, hk, hko⟩
    have := topoScan_im_mem maxId objs bef im hscan hnd k hk
    rw [List.getD_eq_getElem _ _ hk, hko, hoid] at this
    rw [this]
    rfl
  rw [hr] at hall ⊢
  simp only at hall ⊢
  rw [if_pos hall]
  rfl

/-- A resolvable two-cycle used as the witness input for C9. -/
def c9WA : DumpableObject :=
  { dumpId := 1, objType := DO_TABLE, catIdOid := 11, name := "a",
    namespaceName := some "public", dependencies := [2] }

/-- The other member of the witness two-cycle. -/
def c9WB : DumpableObject :=
  { dumpId := 2, objType := DO_TABLE, catIdOid := 12, name := "b",
    namespaceName := some "public", dependencies := [1] }

/-- The TopoSort output on the witness two-cycle. -/
def c9WR : TopoOut :=
  { success := false, ordering := [], residualIds := [1, 2],
    remainder := some [1, 2], finalBefore := [0, 1, 1] }

/-- Witness for C9 at a concrete failing input whose dependency ids all
resolve. -/
theorem c9_witness :
    TopoSort 2 [c9WA, c9WB] = some c9WR ∧ c9WR.success = false ∧
      ((∀ j ∈ c9WR.residualIds, ∃ o ∈ [c9WA, c9WB], o.dumpId = j) ∧
        c9WR.remainder.isSome) :=
  ⟨rfl, rfl,
    c9_residual_ids_are_dumped 2 [c9WA, c9WB] c9WR rfl rfl (by decide)
      (by decide)⟩

/-! ## Claim C6: operator tiebreaking in the canonical comparator -/

theorem strcmpM_self (s : String) : strcmpM s s = 0 := by
  simp [strcmpM]

theorem nsCompare_self (x : Option String) : nsCompare x x = 0 := by
  cases x with
  | none => rfl
  | some n => simp [nsCompare, strcmpM_self]

/-- When two OPERATOR objects tie on the first four comparator layers, the
comparison reduces to the operator tiebreak chain followed by the OID
fallback. -/
theorem operator_cmp_unfold (cat : Catalog) (o1 o2 : DumpableObject)
    (h1 : o1.objType = DO_OPERATOR) (h2 : o2.objType = DO_OPERATOR)
    (hns : o1.namespaceName = o2.namespaceName) (hname : o1.name = o2.name) :
    DOTypeNameCompare cat o1 o2 =
      firstNonZero [(o2.oprkind : Int) - (o1.oprkind : Int),
        pgTypeNameCompare cat o1.oprleft o2.oprleft,
        pgTypeNameCompare cat o1.oprright o2.oprright,
        oidcmpM o1.catIdOid o2.catIdOid] := by
  have htb : doTiebreak cat o1 o2 =
      firstNonZero [(o2.oprkind : Int) - (o1.oprkind : Int),
        pgTypeNameCompare cat o1.oprleft o2.oprleft,
        pgTypeNameCompare cat o1.oprright o2.oprright] := by
    unfold doTiebreak
    rw [h1]
  unfold DOTypeNameCompare
  rw [htb, h1, h2, hns, hname, nsCompare_self, strcmpM_self]
  simp only [dbObjectTypePriority, DOType.tag, firstNonZero]
  norm_num
  by_cases hk : (o2.oprkind : Int) - (o1.oprkind : Int) = 0
  · by_cases hL : pgTypeNameCompare cat o1.oprleft o2.oprleft = 0
    · by_cases hR : pgTypeNameCompare cat o1.oprright o2.oprright = 0
      · simp [hk, hL, hR]
      · simp [hk, hL, hR]
    · simp [hk, hL]
  · simp [hk]

/-- An OPERATOR object with a given `oprkind` char code and argument-type
OIDs, tying with its peers on priority, namespace, name and tag. -/
def c6Op (oid kind lft rgt : Nat) : DumpableObject :=
  { dumpId := oid, objType := DO_OPERATOR, catIdOid := oid, name := "+",
    namespaceName := some "public", dependencies := [], oprkind := kind,
    oprleft := lft, oprright := rgt }

/-- C6, counterexample: two OPERATOR objects tying on priority, namespace,
name and kind tag, the first with `oprkind = 'l'` (108, a prefix
operator), the second with `oprkind = 'r'` (114, a postfix operator).
The claim orders `'l'` before `'b'` before `'r'`, which would require a
negative comparison here; the code's descending char-code comparison
returns `'r' - 'l' = 6 > 0`, sorting the postfix operator first. -/
theorem c6_prefix_does_not_sort_before_postfix :
    DOTypeNameCompare { types := [], ams := [] } (c6Op 1 108 0 7)
        (c6Op 2 114 7 0) = 6 ∧
      ¬ (DOTypeNameCompare { types := [], ams := [] } (c6Op 1 108 0 7)
          (c6Op 2 114 7 0) < 0) := by
  have h := operator_cmp_unfold { types := [], ams := [] } (c6Op 1 108 0 7)
    (c6Op 2 114 7 0) rfl rfl rfl rfl
  rw [show (firstNonZero [((c6Op 2 114 7 0).oprkind : Int) -
      ((c6Op 1 108 0 7).oprkind : Int),
      pgTypeNameCompare { types := [], ams := [] } (c6Op 1 108 0 7).oprleft
        (c6Op 2 114 7 0).oprleft,
      pgTypeNameCompare { types := [], ams := [] } (c6Op 1 108 0 7).oprright
        (c6Op 2 114 7 0).oprright,
      oidcmpM (c6Op 1 108 0 7).catIdOid (c6Op 2 114 7 0).catIdOid]) = 6
    from by decide] at h
  exact ⟨h, by rw [h]; decide⟩

/-- C6, amended: when two OPERATOR objects tie on priority, namespace,
name and kind tag, they are ordered by `oprkind` **descending by char
code** — `'r'` (postfix) sorts before `'l'` (prefix) sorts before `'b'`
(infix) — and only on an `oprkind` tie are the left and then the right
argument-type natural keys compared. -/
theorem c6_operator_tiebreak (cat : Catalog) (o1 o2 : DumpableObject)
    (h1 : o1.objType = DO_OPERATOR) (h2 : o2.objType = DO_OPERATOR)
    (hns : o1.namespaceName = o2.namespaceName) (hname : o1.name = o2.name) :
    (o2.oprkind < o1.oprkind → DOTypeNameCompare cat o1 o2 < 0) ∧
      (o1.oprkind < o2.oprkind → 0 < DOTypeNameCompare cat o1 o2) ∧
      (o1.oprkind = o2.oprkind →
        pgTypeNameCompare cat o1.oprleft o2.oprleft ≠ 0 →
        DOTypeNameCompare cat o1 o2 =
          pgTypeNameCompare cat o1.oprleft o2.oprleft) ∧
      (o1.oprkind = o2.oprkind →
        pgTypeNameCompare cat o1.oprleft o2.oprleft = 0 →
        pgTypeNameCompare cat o1.oprright o2.oprright ≠ 0 →
        DOTypeNameCompare cat o1 o2 =
          pgTypeNameCompare cat o1.oprright o2.oprright) := by
  have hcmp := operator_cmp_unfold cat o1 o2 h1 h2 hns hname
  refine ⟨?_, ?_, ?_, ?_⟩
  · intro hk
    rw [hcmp]
    have hne : (o2.oprkind : Int) - (o1.oprkind : Int) ≠ 0 := by omega
    simp only [firstNonZero, ne_eq, hne, not_false_eq_true, if_true]
    omega
  · intro hk
    rw [hcmp]
    have hne : (o2.oprkind : Int) - (o1.oprkind : Int) ≠ 0 := by omega
    simp only [firstNonZero, ne_eq, hne, not_false_eq_true, if_true]
    omega
  · intro hk hl
    rw [hcmp, hk]
    simp only [firstNonZero, sub_self, ne_eq, not_true_eq_false, if_false,
      ite_self, hl, not_false_eq_true, if_true]
  · intro hk hl hr
    rw [hcmp, hk, hl]
    simp only [firstNonZero, sub_self, ne_eq, not_true_eq_false, if_false,
      ite_self, hr, not_false_eq_true, if_true]

/-- Witness for C6 at concrete operator objects with equal `oprkind`. -/
theorem c6_witness :
    ((c6Op 1 108 0 7).objType = DO_OPERATOR ∧
      (c6Op 3 108 0 9).objType = DO_OPERATOR ∧
      (c6Op 1 108 0 7).namespaceName = (c6Op 3 108 0 9).namespaceName ∧
      (c6Op 1 108 0 7).name = (c6Op 3 108 0 9).name) ∧
      ((c6Op 3 108 0 9).oprkind < (c6Op 1 108 0 7).oprkind →
        DOTypeNameCompare { types := [], ams := [] } (c6Op 1 108 0 7)
          (c6Op 3 108 0 9) < 0) :=
  ⟨⟨rfl, rfl, rfl, rfl⟩,
    (c6_operator_tiebreak { types := [], ams := [] } (c6Op 1 108 0 7)
      (c6Op 3 108 0 9) rfl rfl rfl rfl).1⟩

/-! ## Claim C7: the fatal exit of findDependencyLoops -/

/-- The iteration of the finder pass on `objId` identifies a loop: the id
resolves to an object and `findLoop` from it succeeds. -/
def fdlFound (s : FdlState) (objId : DumpId) : Prop :=
  ∃ obj, findObjectByDumpId s.store objId = some obj ∧
    ((findLoop s.store s.processed (s.store.length + 1) obj obj.dumpId
      s.sf []).1).isSome

/-- The initial state of a finder pass. -/
def fdlInit (maxDumpId : Nat) (store : List DumpableObject) : FdlState :=
  { store := store, processed := List.replicate (maxDumpId + 1) false,
    sf := List.replicate (maxDumpId + 1) 0, fixedloop := false }

theorem fdlStep_fixedloop (preId postId : DumpId) (s : FdlState)
    (objId : DumpId) :
    (fdlStep preId postId s objId).fixedloop = true ↔
      s.fixedloop = true ∨ fdlFound s objId := by
  unfold fdlStep
  match hfind : findObjectByDumpId s.store objId with
  | none =>
      simp only [fdlFound, hfind]
      simp
  | some obj =>
      simp only
      match hfl : findLoop s.store s.processed (s.store.length + 1) obj
          obj.dumpId s.sf [] with
      | (some loop, sf2) =>
          simp only [fdlFound, hfind, Option.some.injEq]
          constructor
          · intro _
            exact Or.inr ⟨obj, rfl, by rw [hfl]; rfl⟩
          · intro _
            trivial
      | (none, sf2) =>
          simp only [fdlFound, hfind, Option.some.injEq]
          constructor
          · intro hs
            exact Or.inl hs
          · rintro (hs | ⟨obj2, hobj2, hsome⟩)
            · exact hs
            · cases hobj2
              rw [hfl] at hsome
              exact absurd hsome (by simp)

theorem fdlFold_fixedloop (preId postId : DumpId) :
    ∀ (rem : List DumpId) (s : FdlState),
      (rem.foldl (fdlStep preId postId) s).fixedloop = true ↔
        s.fixedloop = true ∨ ∃ i, i < rem.length ∧
          fdlFound ((rem.take i).foldl (fdlStep preId postId) s)
            (rem.getD i 0)
  | [], s => by simp
  | a :: rem, s => by
      rw [List.foldl_cons, fdlFold_fixedloop preId postId rem _,
        fdlStep_fixedloop]
      constructor
      · rintro ((hs | hfound) | ⟨i, hi, hf⟩)
        · exact Or.inl hs
        · exact Or.inr ⟨0, by simp, by simpa using hfound⟩
        · exact Or.inr ⟨i + 1, by simpa using hi, by simpa using hf⟩
      · rintro (hs | ⟨i, hi, hf⟩)
        · exact Or.inl (Or.inl hs)
        · match i with
          | 0 => exact Or.inl (Or.inr (by simpa using hf))
          | i + 1 =>
              exact Or.inr ⟨i, by simpa using hi, by simpa using hf⟩

/-- C7: a full finder pass that identifies no loop ends in the fatal
`pg_fatal("could not identify dependency loop")` (the model's `none`), and
every pass in which some iteration identifies (and hence repairs) a loop
returns normally. -/
theorem c7_fatal_iff_no_loop_found (preId postId maxDumpId : DumpId)
    (store : List DumpableObject) (rem : List DumpId) :
    findDependencyLoops preId postId maxDumpId store rem = none ↔
      ¬ ∃ i, i < rem.length ∧
        fdlFound ((rem.take i).foldl (fdlStep preId postId)
          (fdlInit maxDumpId store)) (rem.getD i 0) := by
  unfold findDependencyLoops
  have hfold := fdlFold_fixedloop preId postId rem (fdlInit maxDumpId store)
  simp only [fdlInit] at hfold ⊢
  constructor
  · intro hnone hex
    have : (rem.foldl (fdlStep preId postId)
        { store := store, processed := List.replicate (maxDumpId + 1) false,
          sf := List.replicate (maxDumpId + 1) 0,
          fixedloop := false }).fixedloop = true := by
      rw [hfold]
      exact Or.inr hex
    rw [if_pos this] at hnone
    exact absurd hnone (by simp)
  · intro hnex
    split
    · rename_i hfix
      rw [hfold] at hfix
      rcases hfix with hfix | hfix
      · exact absurd hfix (by simp)
      · exact absurd hfix hnex
    · rfl

/-! ## Claim C4: findLoop's cycle preference is DFS order, not length -/

/-- Start object: depends on `c4D1` (id 2) first, then `c4D2` (id 3). -/
def c4S : DumpableObject :=
  { dumpId := 1, objType := DO_TABLE, catIdOid := 11, name := "s",
    namespaceName := some "public", dependencies := [2, 3] }

/-- First-listed dependency of the start; leads into a 3-cycle. -/
def c4D1 : DumpableObject :=
  { dumpId := 2, objType := DO_TABLE, catIdOid := 12, name := "d1",
    namespaceName := some "public", dependencies := [4] }

/-- Second-listed dependency of the start; closes a 2-cycle with it. -/
def c4D2 : DumpableObject :=
  { dumpId := 3, objType := DO_TABLE, catIdOid := 13, name := "d2",
    namespaceName := some "public", dependencies := [1] }

/-- Third member of the 3-cycle through `c4D1`. -/
def c4E : DumpableObject :=
  { dumpId := 4, objType := DO_TABLE, catIdOid := 14, name := "e",
    namespaceName := some "public", dependencies := [1] }

/-- The store for the C4 counterexample. -/
def c4Store : List DumpableObject := [c4S, c4D1, c4D2, c4E]

/-- C4, counterexample: with nothing processed, a 2-cycle through the
start exists (`c4S → c4D2 → c4S`, both unprocessed), yet `findLoop`
returns the 3-cycle `[1, 2, 4]` found depth-first through the start's
first-listed dependency. -/
theorem c4_returns_longer_cycle_despite_two_cycle :
    (findLoop c4Store (List.replicate 5 false) 5 c4S 1
        (List.replicate 5 0) []).1 = some [1, 2, 4] ∧
      (3 ∈ c4S.dependencies ∧ findObjectByDumpId c4Store 3 = some c4D2 ∧
        1 ∈ c4D2.dependencies ∧
        (List.replicate 5 false).getD 3 false = false) ∧
      ∀ l, (findLoop c4Store (List.replicate 5 false) 5 c4S 1
        (List.replicate 5 0) []).1 = some l → l.length ≠ 2 := by
  refine ⟨rfl, by decide, ?_⟩
  intro l hl
  rw [show (findLoop c4Store (List.replicate 5 false) 5 c4S 1
    (List.replicate 5 0) []).1 = some [1, 2, 4] from rfl] at hl
  cases hl
  decide

/-- C4, amended: `findLoop` returns the first cycle encountered in
depth-first dependency order.  In particular, when the start's
first-listed dependency resolves to an unprocessed, unmemoized object that
closes a 2-cycle with the start (and the start has no self-dependency),
the returned loop is that 2-cycle; but, per the counterexample, a longer
cycle reached through an earlier-listed dependency is returned even when a
2-cycle through a later-listed dependency exists. -/
theorem c4_first_dep_two_cycle (store : List DumpableObject)
    (processed : List Bool) (sf : List DumpId) (fuel : Nat)
    (start d1obj : DumpableObject) (d : DumpId) (ds : List DumpId)
    (hp : processed.getD start.dumpId false = false)
    (hsf : sf.getD start.dumpId 0 ≠ start.dumpId)
    (hself : start.dumpId ∉ start.dependencies)
    (hdeps : start.dependencies = d :: ds)
    (hres : findObjectByDumpId store d = some d1obj)
    (hp1 : processed.getD d1obj.dumpId false = false)
    (hsf1 : sf.getD d1obj.dumpId 0 ≠ start.dumpId)
    (hne : d1obj.dumpId ≠ start.dumpId)
    (hcyc : start.dumpId ∈ d1obj.dependencies) :
    findLoop store processed (fuel + 2) start start.dumpId sf [] =
      (some [start.dumpId, d1obj.dumpId], sf) := by
  have hany : start.dependencies.any (fun x => x = start.dumpId) = false := by
    rw [List.any_eq_false]
    intro x hx
    simp only [decide_eq_true_eq]
    intro hxc
    exact hself (hxc ▸ hx)
  have hany1 : d1obj.dependencies.any (fun x => x = start.dumpId) = true := by
    rw [List.any_eq_true]
    exact ⟨start.dumpId, hcyc, by simp⟩
  have hstop : ∀ (ds2 : List DumpId)
      (acc : Option (List DumpId) × List DumpId) (l : List DumpId),
      acc.1 = some l →
      ds2.foldl
        (fun (acc : Option (List DumpId) × List DumpId) d =>
          match acc.1 with
          | some _ => acc
          | none =>
              match findObjectByDumpId store d with
              | none => acc
              | some nextobj =>
                  findLoop store processed (fuel + 1) nextobj start.dumpId
                    acc.2 [start.dumpId])
        acc = acc := by
    intro ds2
    induction ds2 with
    | nil => intro acc l _; rfl
    | cons x xs ih =>
        intro acc l hacc
        rw [List.foldl_cons]
        have hrw : (match acc.1 with
            | some _ => acc
            | none =>
                match findObjectByDumpId store x with
                | none => acc
                | some nextobj =>
                    findLoop store processed (fuel + 1) nextobj start.dumpId
                      acc.2 [start.dumpId]) = acc := by
          rw [hacc]
        rw [hrw]
        exact ih acc l hacc
  have hinner : findLoop store processed (fuel + 1) d1obj start.dumpId sf
      [start.dumpId] = (some [start.dumpId, d1obj.dumpId], sf) := by
    rw [findLoop]
    rw [hp1, if_neg (by simp)]
    rw [if_neg hsf1]
    rw [if_neg (by simpa using hne)]
    simp only [hany1, if_true]
    rfl
  rw [findLoop]
  rw [hp, if_neg (by simp)]
  rw [if_neg hsf]
  rw [if_neg (by simp)]
  simp only [hany, Bool.false_eq_true, if_false, List.nil_append]
  rw [hdeps, List.foldl_cons]
  simp only [hres, hinner]
  rw [hstop ds (some [start.dumpId, d1obj.dumpId], sf)
    [start.dumpId, d1obj.dumpId] rfl]

/-- Witness for C4's amended theorem: a plain two-cycle is returned as a
2-cycle when it hangs off the start's first dependency. -/
theorem c4_witness :
    ((List.replicate 3 false : List Bool).getD c9WA.dumpId false = false ∧
      (List.replicate 3 (0 : DumpId)).getD c9WA.dumpId 0 ≠ c9WA.dumpId ∧
      c9WA.dumpId ∉ c9WA.dependencies ∧
      c9WA.dependencies = 2 :: [] ∧
      findObjectByDumpId [c9WA, c9WB] 2 = some c9WB ∧
      (List.replicate 3 false : List Bool).getD c9WB.dumpId false = false ∧
      (List.replicate 3 (0 : DumpId)).getD c9WB.dumpId 0 ≠ c9WA.dumpId ∧
      c9WB.dumpId ≠ c9WA.dumpId ∧
      c9WA.dumpId ∈ c9WB.dependencies) ∧
      findLoop [c9WA, c9WB] (List.replicate 3 false) 2 c9WA c9WA.dumpId
        (List.replicate 3 0) [] =
        (some [c9WA.dumpId, c9WB.dumpId], List.replicate 3 0) :=
  ⟨⟨by decide, by decide, by decide, rfl, rfl, by decide, by decide,
      by decide, by decide⟩,
    c4_first_dep_two_cycle [c9WA, c9WB] (List.replicate 3 false)
      (List.replicate 3 0) 0 c9WA c9WB 2 [] (by decide) (by decide)
      (by decide) rfl rfl (by decide) (by decide) (by decide) (by decide)⟩

/-! ## Claim C8: idempotence of the canonical sort -/

theorem strcmpM_antisymm (a b : String) : strcmpM b a = -strcmpM a b := by
  unfold strcmpM
  by_cases h1 : a < b
  · rw [if_neg (lt_asymm h1), if_pos h1, if_pos h1]
    norm_num
  · by_cases h2 : b < a
    · rw [if_pos h2, if_neg h1, if_pos h2]
    · rw [if_neg h2, if_neg h1, if_neg h1, if_neg h2]
      norm_num

theorem oidcmpM_antisymm (a b : Nat) : oidcmpM b a = -oidcmpM a b := by
  unfold oidcmpM
  by_cases h1 : a < b
  · rw [if_neg (Nat.lt_asymm h1), if_pos h1, if_pos h1]
    norm_num
  · by_cases h2 : b < a
    · rw [if_pos h2, if_neg h1, if_pos h2]
    · rw [if_neg h2, if_neg h1, if_neg h1, if_neg h2]
      norm_num

theorem nsCompare_antisymm (a b : Option String) :
    nsCompare b a = -nsCompare a b := by
  match a, b with
  | none, none => norm_num [nsCompare]
  | some n1, none => norm_num [nsCompare]
  | none, some n2 => norm_num [nsCompare]
  | some n1, some n2 => exact strcmpM_antisymm n1 n2

theorem pgTypeNameCompare_antisymm (cat : Catalog) (t1 t2 : Nat) :
    pgTypeNameCompare cat t2 t1 = -pgTypeNameCompare cat t1 t2 := by
  unfold pgTypeNameCompare
  by_cases h : t1 = t2
  · rw [if_pos h, if_pos h.symm]
    norm_num
  · rw [if_neg h, if_neg (Ne.symm h)]
    match findTypeByOid cat t1, findTypeByOid cat t2 with
    | some a, some b =>
        simp only
        match hna : a.nsName, hnb : b.nsName with
        | some n1, some n2 =>
            simp only
            by_cases hns : strcmpM n1 n2 = 0
            · rw [if_neg (by rw [strcmpM_antisymm, hns]; norm_num),
                if_neg (by rw [hns]; norm_num)]
              · exact strcmpM_antisymm a.name b.name
            · rw [if_pos (by rw [strcmpM_antisymm]; simpa using hns),
                if_pos hns]
              exact strcmpM_antisymm n1 n2
        | some n1, none =>
            simp only
            rw [if_neg (by norm_num), if_neg (by norm_num)]
            exact strcmpM_antisymm a.name b.name
        | none, some n2 =>
            simp only
            rw [if_neg (by norm_num), if_neg (by norm_num)]
            exact strcmpM_antisymm a.name b.name
        | none, none =>
            simp only
            rw [if_neg (by norm_num), if_neg (by norm_num)]
            exact strcmpM_antisymm a.name b.name
    | some a, none => simp
    | none, some b => simp
    | none, none => simp

theorem accessMethodNameCompare_antisymm (cat : Catalog) (a b : Nat) :
    accessMethodNameCompare cat b a = -accessMethodNameCompare cat a b := by
  unfold accessMethodNameCompare
  by_cases h : a = b
  · rw [if_pos h, if_pos h.symm]
    norm_num
  · rw [if_neg h, if_neg (Ne.symm h)]
    match findAccessMethodByOid cat a, findAccessMethodByOid cat b with
    | some n1, some n2 => exact strcmpM_antisymm n1 n2
    | some n1, none => simp
    | none, some n2 => simp
    | none, none => simp

theorem firstNonZero_neg :
    ∀ (l1 l2 : List Int), List.Forall₂ (fun x y => y = -x) l1 l2 →
      firstNonZero l2 = -firstNonZero l1
  | [], [], _ => by norm_num [firstNonZero]
  | x :: l1, y :: l2, h => by
      rcases h with _ | ⟨hxy, hrest⟩
      subst hxy
      simp only [firstNonZero]
      by_cases hx : x = 0
      · rw [hx]
        norm_num
        exact firstNonZero_neg l1 l2 hrest
      · rw [if_pos (by simpa using hx), if_pos hx]

theorem doTiebreak_antisymm (cat : Catalog) (o1 o2 : DumpableObject)
    (h : o1.objType = o2.objType) :
    doTiebreak cat o2 o1 = -doTiebreak cat o1 o2 := by
  unfold doTiebreak
  rw [← h]
  cases h1 : o1.objType <;> simp only
  case DO_FUNC =>
    apply firstNonZero_neg
    refine List.Forall₂.cons (by ring) ?_
    rw [← List.zip_swap o1.argtypes o2.argtypes, List.map_map]
    rw [List.forall₂_map_right_iff, List.forall₂_map_left_iff]
    rw [List.forall₂_same]
    intro p _
    exact pgTypeNameCompare_antisymm cat p.1 p.2
  case DO_AGG =>
    apply firstNonZero_neg
    refine List.Forall₂.cons (by ring) ?_
    rw [← List.zip_swap o1.argtypes o2.argtypes, List.map_map]
    rw [List.forall₂_map_right_iff, List.forall₂_map_left_iff]
    rw [List.forall₂_same]
    intro p _
    exact pgTypeNameCompare_antisymm cat p.1 p.2
  case DO_OPERATOR =>
    apply firstNonZero_neg
    refine List.Forall₂.cons (by ring) (List.Forall₂.cons
      (pgTypeNameCompare_antisymm cat o1.oprleft o2.oprleft)
      (List.Forall₂.cons
        (pgTypeNameCompare_antisymm cat o1.oprright o2.oprright)
        List.Forall₂.nil))
  case DO_OPCLASS => exact accessMethodNameCompare_antisymm cat _ _
  case DO_OPFAMILY => exact accessMethodNameCompare_antisymm cat _ _
  case DO_COLLATION => ring
  case DO_ATTRDEF => ring
  case DO_POLICY => exact strcmpM_antisymm _ _
  case DO_RULE => exact strcmpM_antisymm _ _
  case DO_TRIGGER => exact strcmpM_antisymm _ _
  case DO_CONSTRAINT =>
    match hc1 : o1.condomainId, hc2 : o2.condomainId with
    | some a, some b => exact strcmpM_antisymm _ _
    | some a, none => norm_num
    | none, some b => norm_num
    | none, none => exact strcmpM_antisymm _ _
  case DO_PUBLICATION_REL => exact strcmpM_antisymm _ _
  case DO_PUBLICATION_TABLE_IN_SCHEMA => exact strcmpM_antisymm _ _
  all_goals norm_num

theorem tag_injective (t1 t2 : DOType) (h : t1.tag = t2.tag) : t1 = t2 := by
  revert h
  cases t1 <;> cases t2 <;> decide

theorem firstNonZero_cons_neg (x : Int) (l1 l2 : List Int)
    (h : x = 0 → firstNonZero l2 = -firstNonZero l1) :
    firstNonZero (-x :: l2) = -firstNonZero (x :: l1) := by
  simp only [firstNonZero]
  by_cases hx : x = 0
  · rw [hx, h hx]
    norm_num
  · rw [if_pos (by simpa using hx), if_pos hx]

theorem firstNonZero6_neg (a b c d e f e2 : Int)
    (he : d = 0 → e2 = -e) :
    firstNonZero [-a, -b, -c, -d, e2, -f] =
      -firstNonZero [a, b, c, d, e, f] := by
  apply firstNonZero_cons_neg
  intro ha
  apply firstNonZero_cons_neg
  intro hb
  apply firstNonZero_cons_neg
  intro hc
  apply firstNonZero_cons_neg
  intro hd
  rw [he hd]
  apply firstNonZero_cons_neg
  intro hev
  apply firstNonZero_cons_neg
  intro hf
  norm_num [firstNonZero]

theorem DOTypeNameCompare_antisymm (cat : Catalog) (o1 o2 : DumpableObject) :
    DOTypeNameCompare cat o2 o1 = -DOTypeNameCompare cat o1 o2 := by
  unfold DOTypeNameCompare
  have h1 : ((dbObjectTypePriority o2.objType : Int) -
      (dbObjectTypePriority o1.objType : Int)) =
    -((dbObjectTypePriority o1.objType : Int) -
      (dbObjectTypePriority o2.objType : Int)) := by ring
  have h2 := nsCompare_antisymm o1.namespaceName o2.namespaceName
  have h3 := strcmpM_antisymm o1.name o2.name
  have h4 : ((o2.objType.tag : Int) - (o1.objType.tag : Int)) =
    -((o1.objType.tag : Int) - (o2.objType.tag : Int)) := by ring
  have h6 := oidcmpM_antisymm o1.catIdOid o2.catIdOid
  rw [h1, h2, h3, h4, h6]
  apply firstNonZero6_neg
  intro hd
  apply doTiebreak_antisymm
  apply tag_injective
  omega

/-- Totality of the comparator's `≤ 0` relation. -/
theorem doLE_total (cat : Catalog) (o1 o2 : DumpableObject) :
    doLE cat o1 o2 ∨ doLE cat o2 o1 := by
  unfold doLE
  rw [DOTypeNameCompare_antisymm cat o1 o2]
  omega

theorem chain'_orderedInsert {α : Type} (r : α → α → Prop) [DecidableRel r]
    (htot : ∀ a b, r a b ∨ r b a) (a : α) :
    ∀ l, List.Chain' r l → List.Chain' r (l.orderedInsert r a)
  | [], _ => List.chain'_singleton a
  | b :: l, hb => by
      simp only [List.orderedInsert]
      by_cases hab : r a b
      · rw [if_pos hab]
        exact List.chain'_cons.mpr ⟨hab, hb⟩
      · rw [if_neg hab]
        have hba : r b a := (htot a b).resolve_left hab
        have hl : List.Chain' r l := hb.tail
        have ih := chain'_orderedInsert r htot a l hl
        match l, ih with
        | [], _ => exact List.chain'_pair.mpr hba
        | c :: l2, ih =>
            simp only [List.orderedInsert] at ih ⊢
            by_cases hac : r a c
            · rw [if_pos hac] at ih ⊢
              exact List.chain'_cons.mpr ⟨hba, ih⟩
            · rw [if_neg hac] at ih ⊢
              exact List.chain'_cons.mpr
                ⟨(List.chain'_cons.mp hb).1, ih⟩

theorem chain'_insertionSort {α : Type} (r : α → α → Prop) [DecidableRel r]
    (htot : ∀ a b, r a b ∨ r b a) :
    ∀ l : List α, List.Chain' r (l.insertionSort r)
  | [] => List.chain'_nil
  | a :: l => by
      simp only [List.insertionSort]
      exact chain'_orderedInsert r htot a _ (chain'_insertionSort r htot l)

theorem insertionSort_of_chain' {α : Type} (r : α → α → Prop)
    [DecidableRel r] :
    ∀ l : List α, List.Chain' r l → l.insertionSort r = l
  | [], _ => rfl
  | a :: l, h => by
      simp only [List.insertionSort]
      rw [insertionSort_of_chain' r l h.tail]
      match l, h with
      | [], _ => rfl
      | b :: l2, h =>
          exact List.orderedInsert_of_le r l2 (List.chain'_cons.mp h).1

/-- C8: `sortDumpableObjectsByTypeName` is idempotent — sorting its own
output changes nothing.  The comparator's `≤ 0` relation is total (by
sign-antisymmetry of `DOTypeNameCompare`, including the treat-as-equal
corruption paths), so the sorted output is adjacent-ordered and a stable
comparison sort leaves any adjacent-ordered list unchanged. -/
theorem c8_sortByTypeName_idempotent (cat : Catalog)
    (objs : List DumpableObject) :
    sortDumpableObjectsByTypeName cat (sortDumpableObjectsByTypeName cat objs)
      = sortDumpableObjectsByTypeName cat objs := by
  unfold sortDumpableObjectsByTypeName
  by_cases h : objs.length > 1
  · rw [if_pos h]
    rw [if_pos (by rw [List.length_insertionSort]; exact h)]
    exact insertionSort_of_chain' (doLE cat) _
      (chain'_insertionSort (doLE cat) (doLE_total cat) objs)
  · rw [if_neg h, if_neg h]

/-! ## Claim C10: does every repair remove an existing edge? -/

/-- The current dependency list of the object with the given dump id. -/
def depsOf (store : List DumpableObject) (id : DumpId) : List DumpId :=
  ((findObjectByDumpId store id).getD default).dependencies

theorem findObjectByDumpId_updateObject_self (store : List DumpableObject)
    (id : DumpId) (f : DumpableObject → DumpableObject)
    (hf : ∀ o, (f o).dumpId = o.dumpId) :
    findObjectByDumpId (updateObject store id f) id =
      (findObjectByDumpId store id).map f := by
  induction store with
  | nil => rfl
  | cons o store ih =>
      simp only [updateObject, List.map_cons, findObjectByDumpId,
        List.find?_cons] at ih ⊢
      by_cases ho : o.dumpId = id
      · rw [if_pos ho]
        have : ((f o).dumpId == id) = true := by
          rw [hf o]; simpa using ho
        rw [this]
        have : (o.dumpId == id) = true := by simpa using ho
        rw [this]
        rfl
      · rw [if_neg ho]
        have : (o.dumpId == id) = false := by simpa using ho
        rw [this]
        exact ih

theorem findObjectByDumpId_updateObject_other (store : List DumpableObject)
    (id id2 : DumpId) (f : DumpableObject → DumpableObject)
    (hf : ∀ o, (f o).dumpId = o.dumpId) (hne : id2 ≠ id) :
    findObjectByDumpId (updateObject store id f) id2 =
      findObjectByDumpId store id2 := by
  induction store with
  | nil => rfl
  | cons o store ih =>
      simp only [updateObject, List.map_cons, findObjectByDumpId,
        List.find?_cons] at ih ⊢
      by_cases ho : o.dumpId = id
      · rw [if_pos ho]
        have h1 : ((f o).dumpId == id2) = false := by
          rw [hf o, ho]
          simpa using (Ne.symm hne)
        have h2 : (o.dumpId == id2) = false := by
          rw [ho]
          simpa using (Ne.symm hne)
        rw [h1, h2]
        exact ih
      · rw [if_neg ho]
        by_cases ho2 : o.dumpId = id2
        · have : (o.dumpId == id2) = true := by simpa using ho2
          rw [this]
        · have : (o.dumpId == id2) = false := by simpa using ho2
          rw [this]
          exact ih

theorem depsOf_removeObjectDependency_self (store : List DumpableObject)
    (objId refId : DumpId) (hobj : (findObjectByDumpId store objId).isSome) :
    depsOf (removeObjectDependency store objId refId) objId =
      (depsOf store objId).filter (fun d => d ≠ refId) := by
  unfold depsOf removeObjectDependency
  rw [findObjectByDumpId_updateObject_self store objId (removeDep refId)
    (fun o => rfl)]
  match hl : findObjectByDumpId store objId with
  | some o => rfl
  | none => rw [hl] at hobj; exact absurd hobj (by simp)

theorem depsOf_removeObjectDependency_other (store : List DumpableObject)
    (objId refId id2 : DumpId) (hne : id2 ≠ objId) :
    depsOf (removeObjectDependency store objId refId) id2 =
      depsOf store id2 := by
  unfold depsOf removeObjectDependency
  rw [findObjectByDumpId_updateObject_other store objId id2 (removeDep refId)
    (fun o => rfl) hne]

theorem depsOf_addObjectDependency_self (store : List DumpableObject)
    (objId refId : DumpId) (hobj : (findObjectByDumpId store objId).isSome) :
    depsOf (addObjectDependency store objId refId) objId =
      depsOf store objId ++ [refId] := by
  unfold depsOf addObjectDependency
  rw [findObjectByDumpId_updateObject_self store objId (addDep refId)
    (fun o => rfl)]
  match hl : findObjectByDumpId store objId with
  | some o => rfl
  | none => rw [hl] at hobj; exact absurd hobj (by simp)

theorem depsOf_updateObject_flags (store : List DumpableObject) (id id2 : DumpId)
    (f : DumpableObject → DumpableObject)
    (hfid : ∀ o, (f o).dumpId = o.dumpId)
    (hfdeps : ∀ o, (f o).dependencies = o.dependencies) :
    depsOf (updateObject store id f) id2 = depsOf store id2 := by
  unfold depsOf
  by_cases h : id2 = id
  · subst h
    rw [findObjectByDumpId_updateObject_self store id2 f hfid]
    match findObjectByDumpId store id2 with
    | some o => exact hfdeps o
    | none => rfl
  · rw [findObjectByDumpId_updateObject_other store id id2 f hfid h]

/-- A loop as `findLoop` actually produces it: nonempty, and each member's
dependency list contains the next member around the cycle. -/
def genuineLoop (store : List DumpableObject) (loop : List DumpId) : Prop :=
  loop ≠ [] ∧ ∀ i, i < loop.length →
    loop.getD ((i + 1) % loop.length) 0 ∈ depsOf store (loop.getD i 0)

theorem lookup_isSome_of_mem (store : List DumpableObject) (id : DumpId)
    (h : ∃ o ∈ store, o.dumpId = id) :
    (findObjectByDumpId store id).isSome := by
  unfold findObjectByDumpId
  rw [List.find?_isSome]
  obtain ⟨o, ho, hid⟩ := h
  exact ⟨o, ho, by simpa using hid⟩

theorem removed_edge_witness (store : List DumpableObject) (loop : List DumpId)
    (objId refId : DumpId) (hm : objId ∈ loop)
    (hobj : (findObjectByDumpId store objId).isSome)
    (hdep : refId ∈ depsOf store objId) :
    ∃ m ∈ loop, ∃ d, d ∈ depsOf store m ∧
      d ∉ depsOf (removeObjectDependency store objId refId) m := by
  refine ⟨objId, hm, refId, hdep, ?_⟩
  rw [depsOf_removeObjectDependency_self store objId refId hobj]
  simp

theorem typeFunc_removed_edge (store : List DumpableObject)
    (loop : List DumpId) (typeId funcId : DumpId) (hm : funcId ∈ loop)
    (hfunc : (findObjectByDumpId store funcId).isSome)
    (hdep : typeId ∈ depsOf store funcId)
    (hshell : ∀ sh, ((findObjectByDumpId store typeId).bind
      (fun t => t.shellTypeId)) = some sh → sh ≠ typeId) :
    ∃ m ∈ loop, ∃ d, d ∈ depsOf store m ∧
      d ∉ depsOf (repairTypeFuncLoop store typeId funcId) m := by
  refine ⟨funcId, hm, typeId, hdep, ?_⟩
  unfold repairTypeFuncLoop
  match hsh : (findObjectByDumpId store typeId).bind (fun t => t.shellTypeId)
      with
  | none =>
      simp only
      rw [depsOf_removeObjectDependency_self store funcId typeId hfunc]
      simp
  | some shId =>
      simp only
      have hfunc2 : (findObjectByDumpId
          (removeObjectDependency store funcId typeId) funcId).isSome := by
        unfold removeObjectDependency
        rw [findObjectByDumpId_updateObject_self store funcId
          (removeDep typeId) (fun o => rfl)]
        simpa using hfunc
      have hadd := depsOf_addObjectDependency_self
        (removeObjectDependency store funcId typeId) funcId shId hfunc2
      have hrem := depsOf_removeObjectDependency_self store funcId typeId hfunc
      have hne := hshell shId hsh
      split
      · rw [depsOf_updateObject_flags _ shId funcId
          (fun sh => { sh with dump :=
            ((findObjectByDumpId store funcId).getD default).dump |||
              DUMP_COMPONENT_DEFINITION }) (fun o => rfl) (fun o => rfl),
          hadd, hrem]
        simp only [List.mem_append, List.mem_filter]
        rintro (⟨_, hc⟩ | hc)
        · simpa using hc
        · simp only [List.mem_singleton] at hc
          exact hne hc.symm
      · rw [hadd, hrem]
        simp only [List.mem_append, List.mem_filter]
        rintro (⟨_, hc⟩ | hc)
        · simpa using hc
        · simp only [List.mem_singleton] at hc
          exact hne hc.symm

theorem findPair_none (n : Nat) (P : Nat → Bool) (Q : Nat → Nat → Bool)
    (h : ∀ i, i < n → P i = false) : findPair n P Q = none := by
  unfold findPair
  rw [List.findSome?_eq_none_iff]
  intro i hi
  rw [h i (List.mem_range.mp hi)]
  simp

theorem scans_none_of_allTD (store : List DumpableObject) (loop : List DumpId)
    (hTD : ∀ i, i < loop.length →
      (loopObj store loop i).objType = DO_TABLE_DATA) :
    viewRuleMultiScan store loop = none ∧
      matviewBoundaryScan store loop = none ∧
      functionBoundaryScan store loop = none ∧
      tableConstraintScan store loop = none ∧
      tableAttrDefScan store loop = none ∧
      domainConstraintScan store loop = none := by
  refine ⟨?_, ?_, ?_, ?_, ?_, ?_⟩
  · unfold viewRuleMultiScan
    split
    · exact findPair_none _ _ _ (fun i hi => by
        simp only [decide_eq_false_iff_not]
        rintro ⟨hc, -⟩
        rw [hTD i hi] at hc
        exact absurd hc (by decide))
    · rfl
  · unfold matviewBoundaryScan
    split
    · rw [List.findSome?_eq_none_iff]
      intro i hi
      have hi2 := List.mem_range.mp hi
      rw [if_neg (fun hc => by
        rw [hTD i hi2] at hc
        exact absurd hc.1 (by decide))]
      rw [if_neg (fun hc => by
        rw [hTD i hi2] at hc
        exact absurd hc.1 (by decide))]
    · rfl
  · unfold functionBoundaryScan
    split
    · rw [findPair_none _ _ _ (fun i hi => by
        simp only [decide_eq_false_iff_not]
        intro hc
        rw [hTD i hi] at hc
        exact absurd hc (by decide))]
      rfl
    · rfl
  · unfold tableConstraintScan
    split
    · exact findPair_none _ _ _ (fun i hi => by
        simp only [decide_eq_false_iff_not]
        intro hc
        rw [hTD i hi] at hc
        exact absurd hc (by decide))
    · rfl
  · unfold tableAttrDefScan
    split
    · exact findPair_none _ _ _ (fun i hi => by
        simp only [decide_eq_false_iff_not]
        intro hc
        rw [hTD i hi] at hc
        exact absurd hc (by decide))
    · rfl
  · unfold domainConstraintScan
    split
    · exact findPair_none _ _ _ (fun i hi => by
        simp only [decide_eq_false_iff_not]
        intro hc
        rw [hTD i hi] at hc
        exact absurd hc (by decide))
    · rfl

theorem repairDependencyLoop_allTD (preId postId : DumpId)
    (store : List DumpableObject) (loop : List DumpId)
    (h : ∀ id ∈ loop, ((findObjectByDumpId store id).getD default).objType =
      DO_TABLE_DATA)
    (hlen : 2 < loop.length) :
    repairDependencyLoop preId postId store loop =
      removeObjectDependency store (loop.getD 0 0) (loop.getD 1 0) := by
  have hTD : ∀ i, i < loop.length →
      (loopObj store loop i).objType = DO_TABLE_DATA := by
    intro i hi
    unfold loopObj
    refine h _ ?_
    rw [List.getD_eq_getElem _ _ hi]
    exact loop.getElem_mem hi
  obtain ⟨hs1, hs2, hs3, hs4, hs5, hs6⟩ := scans_none_of_allTD store loop hTD
  unfold repairDependencyLoop
  have hn2 : ¬ (loop.length = 2) := by omega
  have hn1 : ¬ (loop.length = 1) := by omega
  rw [if_neg (fun hc => hn2 hc.1), if_neg (fun hc => hn2 hc.1),
    if_neg (fun hc => hn2 hc.1), if_neg (fun hc => hn2 hc.1)]
  rw [hs1]
  dsimp only
  rw [hs2]
  dsimp only
  rw [hs3]
  dsimp only
  rw [if_neg (fun hc => hn2 hc.1), if_neg (fun hc => hn2 hc.1)]
  rw [hs4]
  dsimp only
  rw [if_neg (fun hc => hn2 hc.1), if_neg (fun hc => hn2 hc.1),
    if_neg (fun hc => hn2 hc.1), if_neg (fun hc => hn2 hc.1)]
  rw [hs5]
  dsimp only
  rw [if_neg (fun hc => hn2 hc.1), if_neg (fun hc => hn2 hc.1)]
  rw [hs6]
  dsimp only
  rw [if_neg (fun hc => hn1 hc.1)]
  rw [if_pos (by
    rw [List.all_eq_true]
    intro id hid
    simpa using h id hid)]
  rw [if_pos (by omega)]

theorem scans_none_short (store : List DumpableObject) (loop : List DumpId)
    (h : ¬ loop.length > 2) :
    viewRuleMultiScan store loop = none ∧
      matviewBoundaryScan store loop = none ∧
      functionBoundaryScan store loop = none ∧
      tableConstraintScan store loop = none ∧
      tableAttrDefScan store loop = none ∧
      domainConstraintScan store loop = none := by
  unfold viewRuleMultiScan matviewBoundaryScan functionBoundaryScan
    tableConstraintScan tableAttrDefScan domainConstraintScan
  rw [if_neg h, if_neg h, if_neg h, if_neg h, if_neg h, if_neg h]
  exact ⟨rfl, rfl, rfl, rfl, rfl, rfl⟩

theorem shell_cond (store : List DumpableObject) (tid : DumpId)
    (hshell : ∀ o ∈ store, ∀ sh, o.shellTypeId = some sh → sh ≠ o.dumpId) :
    ∀ sh, ((findObjectByDumpId store tid).bind (fun t => t.shellTypeId)) =
      some sh → sh ≠ tid := by
  intro sh h
  match hl : findObjectByDumpId store tid with
  | none => rw [hl] at h; exact absurd h (by simp)
  | some o =>
      rw [hl] at h
      have h : o.shellTypeId = some sh := h
      have hmem := List.mem_of_find?_eq_some hl
      have hid : o.dumpId = tid := by simpa using List.find?_some hl
      exact hid ▸ hshell o hmem sh h


/-- C10, amended: on a genuine `findLoop`-produced loop (each member's
dependency list holds the next member), every invocation of
`repairDependencyLoop` on a single-object loop, on a two-object loop, or
on an all-TABLE_DATA loop removes at least one edge that is actually
present in the dependency list of some loop member.  (This fails for the
indirect promotion repairs on longer loops — see the counterexample.) -/
theorem c10_repair_removes_edge (preId postId : DumpId)
    (store : List DumpableObject) (loop : List DumpId)
    (hgen : genuineLoop store loop)
    (hmem : ∀ id ∈ loop, ∃ o ∈ store, o.dumpId = id)
    (hshell : ∀ o ∈ store, ∀ sh, o.shellTypeId = some sh → sh ≠ o.dumpId)
    (hsize : loop.length ≤ 2 ∨ ∀ id ∈ loop,
      ((findObjectByDumpId store id).getD default).objType = DO_TABLE_DATA) :
    ∃ m ∈ loop, ∃ d, d ∈ depsOf store m ∧
      d ∉ depsOf (repairDependencyLoop preId postId store loop) m := by
  obtain ⟨hne, hedge⟩ := hgen
  match loop, hne, hedge, hmem, hsize with
  | [a], _, hedge, hmem, _ =>
      have hself : a ∈ depsOf store a := by
        have := hedge 0 (by simp)
        simpa using this
      have hsomeA : (findObjectByDumpId store a).isSome :=
        lookup_isSome_of_mem store a (hmem a (by simp))
      obtain ⟨hs1, hs2, hs3, hs4, hs5, hs6⟩ :=
        scans_none_short store [a] (by simp)
      have hn2 : ¬ (([a] : List DumpId).length = 2) := by simp
      unfold repairDependencyLoop
      rw [hs1, hs2, hs3, hs4, hs5, hs6]
      dsimp only
      rw [if_neg (fun hc => hn2 hc.1), if_neg (fun hc => hn2 hc.1),
        if_neg (fun hc => hn2 hc.1), if_neg (fun hc => hn2 hc.1),
        if_neg (fun hc => hn2 hc.1), if_neg (fun hc => hn2 hc.1),
        if_neg (fun hc => hn2 hc.1), if_neg (fun hc => hn2 hc.1),
        if_neg (fun hc => hn2 hc.1), if_neg (fun hc => hn2 hc.1),
        if_neg (fun hc => hn2 hc.1), if_neg (fun hc => hn2 hc.1)]
      by_cases hT : ([a] : List DumpId).length = 1 ∧
          (loopObj store [a] 0).objType = DOType.DO_TABLE
      · rw [if_pos hT]
        exact removed_edge_witness store [a] a a (by simp) hsomeA hself
      · rw [if_neg hT]
        by_cases hA : ([a].all fun id => decide
            (((findObjectByDumpId store id).getD default).objType =
              DOType.DO_TABLE_DATA)) = true
        · rw [if_pos hA,
            if_neg (show ¬ (([a] : List DumpId).length > 1) by simp)]
          exact removed_edge_witness store [a] a a (by simp) hsomeA hself
        · rw [if_neg hA,
            if_neg (show ¬ (([a] : List DumpId).length > 1) by simp)]
          exact removed_edge_witness store [a] a a (by simp) hsomeA hself
  | [a, b], _, hedge, hmem, _ =>
      have hedge0 : b ∈ depsOf store a := by
        have := hedge 0 (by simp)
        simpa using this
      have hedge1 : a ∈ depsOf store b := by
        have := hedge 1 (by simp)
        simpa using this
      have hsomeA : (findObjectByDumpId store a).isSome :=
        lookup_isSome_of_mem store a (hmem a (by simp))
      have hsomeB : (findObjectByDumpId store b).isSome :=
        lookup_isSome_of_mem store b (hmem b (by simp))
      have hshellA := shell_cond store a hshell
      have hshellB := shell_cond store b hshell
      obtain ⟨hs1, hs2, hs3, hs4, hs5, hs6⟩ :=
        scans_none_short store [a, b] (by simp)
      have hn1 : ¬ (([a, b] : List DumpId).length = 1) := by simp
      unfold repairDependencyLoop
      rw [hs1, hs2, hs3, hs4, hs5, hs6]
      dsimp only
      by_cases g1 : ([a, b] : List DumpId).length = 2 ∧
          (loopObj store [a, b] 0).objType = DOType.DO_TYPE ∧
          (loopObj store [a, b] 1).objType = DOType.DO_FUNC
      · rw [if_pos g1]
        exact typeFunc_removed_edge store [a, b] a b (by simp) hsomeB hedge1
          hshellA
      · rw [if_neg g1]
        by_cases g2 : ([a, b] : List DumpId).length = 2 ∧
            (loopObj store [a, b] 1).objType = DOType.DO_TYPE ∧
            (loopObj store [a, b] 0).objType = DOType.DO_FUNC
        · rw [if_pos g2]
          exact typeFunc_removed_edge store [a, b] b a (by simp) hsomeA hedge0
            hshellB
        · rw [if_neg g2]
          by_cases g3 : ([a, b] : List DumpId).length = 2 ∧
              (loopObj store [a, b] 0).objType = DOType.DO_TABLE ∧
              (loopObj store [a, b] 1).objType = DOType.DO_RULE ∧
              ((loopObj store [a, b] 0).relkind = RELKIND_VIEW ∨
                (loopObj store [a, b] 0).relkind = RELKIND_MATVIEW) ∧
              (loopObj store [a, b] 1).ev_type = 49 ∧
              (loopObj store [a, b] 1).is_instead = true ∧
              (loopObj store [a, b] 1).ruletableId =
                (loopObj store [a, b] 0).dumpId
          · rw [if_pos g3]
            exact removed_edge_witness store [a, b] b a (by simp) hsomeB hedge1
          · rw [if_neg g3]
            by_cases g4 : ([a, b] : List DumpId).length = 2 ∧
                (loopObj store [a, b] 1).objType = DOType.DO_TABLE ∧
                (loopObj store [a, b] 0).objType = DOType.DO_RULE ∧
                ((loopObj store [a, b] 1).relkind = RELKIND_VIEW ∨
                  (loopObj store [a, b] 1).relkind = RELKIND_MATVIEW) ∧
                (loopObj store [a, b] 0).ev_type = 49 ∧
                (loopObj store [a, b] 0).is_instead = true ∧
                (loopObj store [a, b] 0).ruletableId =
                  (loopObj store [a, b] 1).dumpId
            · rw [if_pos g4]
              exact removed_edge_witness store [a, b] a b (by simp) hsomeA
                hedge0
            · rw [if_neg g4]
              by_cases g5 : ([a, b] : List DumpId).length = 2 ∧
                  (loopObj store [a, b] 0).objType = DOType.DO_TABLE ∧
                  (loopObj store [a, b] 1).objType = DOType.DO_CONSTRAINT ∧
                  (loopObj store [a, b] 1).contype = 99 ∧
                  (loopObj store [a, b] 1).contableId =
                    some (loopObj store [a, b] 0).dumpId
              · rw [if_pos g5]
                exact removed_edge_witness store [a, b] b a (by simp) hsomeB
                  hedge1
              · rw [if_neg g5]
                by_cases g6 : ([a, b] : List DumpId).length = 2 ∧
                    (loopObj store [a, b] 1).objType = DOType.DO_TABLE ∧
                    (loopObj store [a, b] 0).objType = DOType.DO_CONSTRAINT ∧
                    (loopObj store [a, b] 0).contype = 99 ∧
                    (loopObj store [a, b] 0).contableId =
                      some (loopObj store [a, b] 1).dumpId
                · rw [if_pos g6]
                  exact removed_edge_witness store [a, b] a b (by simp) hsomeA
                    hedge0
                · rw [if_neg g6]
                  by_cases g7 : ([a, b] : List DumpId).length = 2 ∧
                      (loopObj store [a, b] 0).objType = DOType.DO_TABLE ∧
                      (loopObj store [a, b] 1).objType = DOType.DO_ATTRDEF ∧
                      (loopObj store [a, b] 1).adtableId =
                        (loopObj store [a, b] 0).dumpId
                  · rw [if_pos g7]
                    exact removed_edge_witness store [a, b] b a (by simp)
                      hsomeB hedge1
                  · rw [if_neg g7]
                    by_cases g8 : ([a, b] : List DumpId).length = 2 ∧
                        (loopObj store [a, b] 1).objType = DOType.DO_TABLE ∧
                        (loopObj store [a, b] 0).objType = DOType.DO_ATTRDEF ∧
                        (loopObj store [a, b] 0).adtableId =
                          (loopObj store [a, b] 1).dumpId
                    · rw [if_pos g8]
                      exact removed_edge_witness store [a, b] a b (by simp)
                        hsomeA hedge0
                    · rw [if_neg g8]
                      by_cases g9 : ([a, b] : List DumpId).length = 2 ∧
                          (loopObj store [a, b] 0).objType = DOType.DO_INDEX ∧
                          (loopObj store [a, b] 1).objType = DOType.DO_INDEX ∧
                          (loopObj store [a, b] 0).parentidx =
                            (loopObj store [a, b] 1).catIdOid
                      · rw [if_pos g9]
                        exact removed_edge_witness store [a, b] a b (by simp)
                          hsomeA hedge0
                      · rw [if_neg g9]
                        by_cases g10 : ([a, b] : List DumpId).length = 2 ∧
                            (loopObj store [a, b] 0).objType =
                              DOType.DO_INDEX ∧
                            (loopObj store [a, b] 1).objType =
                              DOType.DO_INDEX ∧
                            (loopObj store [a, b] 1).parentidx =
                              (loopObj store [a, b] 0).catIdOid
                        · rw [if_pos g10]
                          exact removed_edge_witness store [a, b] b a
                            (by simp) hsomeB hedge1
                        · rw [if_neg g10]
                          by_cases g11 : ([a, b] : List DumpId).length = 2 ∧
                              (loopObj store [a, b] 0).objType =
                                DOType.DO_TYPE ∧
                              (loopObj store [a, b] 1).objType =
                                DOType.DO_CONSTRAINT ∧
                              ((loopObj store [a, b] 1).contype = 99 ∨
                                (loopObj store [a, b] 1).contype = 110) ∧
                              (loopObj store [a, b] 1).condomainId =
                                some (loopObj store [a, b] 0).dumpId
                          · rw [if_pos g11]
                            exact removed_edge_witness store [a, b] b a
                              (by simp) hsomeB hedge1
                          · rw [if_neg g11]
                            by_cases g12 : ([a, b] : List DumpId).length = 2 ∧
                                (loopObj store [a, b] 1).objType =
                                  DOType.DO_TYPE ∧
                                (loopObj store [a, b] 0).objType =
                                  DOType.DO_CONSTRAINT ∧
                                ((loopObj store [a, b] 0).contype = 99 ∨
                                  (loopObj store [a, b] 0).contype = 110) ∧
                                (loopObj store [a, b] 0).condomainId =
                                  some (loopObj store [a, b] 1).dumpId
                            · rw [if_pos g12]
                              exact removed_edge_witness store [a, b] a b
                                (by simp) hsomeA hedge0
                            · rw [if_neg g12,
                                if_neg (fun hc => hn1 hc.1)]
                              by_cases hA : ([a, b].all fun id => decide
                                  (((findObjectByDumpId store id).getD
                                    default).objType =
                                      DOType.DO_TABLE_DATA)) = true
                              · rw [if_pos hA, if_pos
                                  (show ([a, b] : List DumpId).length > 1
                                    by simp)]
                                exact removed_edge_witness store [a, b] a b
                                  (by simp) hsomeA hedge0
                              · rw [if_neg hA, if_pos
                                  (show ([a, b] : List DumpId).length > 1
                                    by simp)]
                                exact removed_edge_witness store [a, b] a b
                                  (by simp) hsomeA hedge0
  | a :: b :: c :: rest, _, hedge, hmem, hsize =>
      rcases hsize with hsize | hTD
      · exact absurd hsize (by simp)
      · rw [repairDependencyLoop_allTD preId postId store _ hTD (by simp)]
        have hlen : 1 < (a :: b :: c :: rest).length := by simp
        have hdep : (a :: b :: c :: rest).getD 1 0 ∈
            depsOf store ((a :: b :: c :: rest).getD 0 0) := by
          have := hedge 0 (by simp)
          rwa [Nat.mod_eq_of_lt (by simpa using hlen)] at this
        exact removed_edge_witness store _ _ _ (by simp) (lookup_isSome_of_mem
          store a (hmem a (by simp))) hdep

/-- The C10 counterexample store: a view `v` (dump id 1) depending on a
function `f` (dump id 2) depending on `v`'s ON SELECT rule `r` (dump id
3) depending back on `v` — the genuine loop 1 → 2 → 3 → 1 found by
`findLoop`. -/
def c10Store : List DumpableObject :=
  [{ dumpId := 1, objType := DO_TABLE, catIdOid := 11, name := "v",
     namespaceName := some "public", dependencies := [2],
     relkind := RELKIND_VIEW },
   { dumpId := 2, objType := DO_FUNC, catIdOid := 12, name := "f",
     namespaceName := some "public", dependencies := [3] },
   { dumpId := 3, objType := DO_RULE, catIdOid := 13, name := "r",
     namespaceName := some "public", dependencies := [1],
     ruletableId := 1, ev_type := 49, is_instead := true }]

/-- C10 counterexample: on the genuine three-object loop view → function
→ ON SELECT rule → view, `repairDependencyLoop` takes the indirect
view-and-rule branch, which removes the view's dependency on the rule —
an edge that does not exist — so every dependency edge present before the
repair is still present after it: the claim that each invocation removes
at least one loop-member dependency fails. -/
theorem c10_no_edge_removed :
    genuineLoop c10Store [1, 2, 3] ∧
    ∀ m ∈ ([1, 2, 3] : List DumpId), ∀ d ∈ depsOf c10Store m,
      d ∈ depsOf (repairDependencyLoop 90 91 c10Store [1, 2, 3]) m := by
  constructor
  · exact ⟨by decide, by decide⟩
  · decide

/-- The C10 witness store: two TABLE_DATA objects with circular foreign
keys. -/
def c10WStore : List DumpableObject :=
  [{ dumpId := 1, objType := DO_TABLE_DATA, catIdOid := 21, name := "t1",
     namespaceName := some "public", dependencies := [2] },
   { dumpId := 2, objType := DO_TABLE_DATA, catIdOid := 22, name := "t2",
     namespaceName := some "public", dependencies := [1] }]

theorem c10_witness :
    ∃ m ∈ ([1, 2] : List DumpId), ∃ d, d ∈ depsOf c10WStore m ∧
      d ∉ depsOf (repairDependencyLoop 90 91 c10WStore [1, 2]) m :=
  c10_repair_removes_edge 90 91 c10WStore [1, 2]
    ⟨by decide, by decide⟩
    (by decide)
    (by
      intro o ho sh hsh
      fin_cases ho <;> simp_all)
    (Or.inl (by decide))
/-! ## Claim C3: termination of the driver loop -/

/-- The C3 counterexample start state: a table `t` (dump id 1) whose
definition depends on a function `f` (dump id 2) whose body depends on
`t`'s separate CHECK constraint `c` (dump id 3), which depends on `t`;
plus the two section boundaries (dump ids 4 and 5). -/
def cState0 : List DumpableObject :=
  [{ dumpId := 1, objType := DO_TABLE, catIdOid := 31, name := "t",
     namespaceName := some "public", dependencies := [2],
     relkind := RELKIND_RELATION },
   { dumpId := 2, objType := DO_FUNC, catIdOid := 32, name := "f",
     namespaceName := some "public", dependencies := [3] },
   { dumpId := 3, objType := DO_CONSTRAINT, catIdOid := 33, name := "c",
     namespaceName := some "public", dependencies := [1],
     contype := 99, contableId := some 1, contableName := "t" },
   { dumpId := 4, objType := DO_PRE_DATA_BOUNDARY, catIdOid := 0,
     name := "PRE-DATA BOUNDARY", namespaceName := none, dependencies := [] },
   { dumpId := 5, objType := DO_POST_DATA_BOUNDARY, catIdOid := 0,
     name := "POST-DATA BOUNDARY", namespaceName := none,
     dependencies := [] }]

/-- The states the C3 counterexample run cycles through: the same objects
as `cState0`, with the constraint marked separate and its dependency list
grown by the junk the repair appends on each pass (alternating table and
post-boundary ids). -/
def cStateJ (junk : List DumpId) : List DumpableObject :=
  [{ dumpId := 1, objType := DO_TABLE, catIdOid := 31, name := "t",
     namespaceName := some "public", dependencies := [2],
     relkind := RELKIND_RELATION },
   { dumpId := 2, objType := DO_FUNC, catIdOid := 32, name := "f",
     namespaceName := some "public", dependencies := [3] },
   { dumpId := 3, objType := DO_CONSTRAINT, catIdOid := 33, name := "c",
     namespaceName := some "public", dependencies := 1 :: junk,
     contype := 99, contableId := some 1, contableName := "t",
     separate := true },
   { dumpId := 4, objType := DO_PRE_DATA_BOUNDARY, catIdOid := 0,
     name := "PRE-DATA BOUNDARY", namespaceName := none, dependencies := [] },
   { dumpId := 5, objType := DO_POST_DATA_BOUNDARY, catIdOid := 0,
     name := "POST-DATA BOUNDARY", namespaceName := none,
     dependencies := [] }]

/-- Scanning the grown dependency list of the constraint only bumps the
counters of ids 1 and 5, by the respective occurrence counts. -/
theorem goDeps_junk (junk : List DumpId) :
    ∀ (b : List Int), (∀ d ∈ junk, d = 1 ∨ d = 5) → 5 < b.length →
    ∃ b2, topoScan.goDeps 5 junk b = some b2 ∧
      b2.length = b.length ∧
      (∀ k, k ≠ 1 → k ≠ 5 → b2.getD k 0 = b.getD k 0) ∧
      b2.getD 1 0 = b.getD 1 0 + junk.count 1 ∧
      b2.getD 5 0 = b.getD 5 0 + junk.count 5 := by
  induction junk with
  | nil =>
      intro b hj hlen
      exact ⟨b, rfl, rfl, fun k h1 h5 => rfl, by simp, by simp⟩
  | cons d ds ih =>
      intro b hj hlen
      rcases hj d (by simp) with rfl | rfl
      · have hstep := ih (b.set 1 (b.getD 1 0 + 1))
          (fun x hx => hj x (by simp [hx])) (by simpa using hlen)
        obtain ⟨b2, hgd, hl, hk, h1, h5⟩ := hstep
        refine ⟨b2, ?_, ?_, ?_, ?_, ?_⟩
        · simp only [topoScan.goDeps]
          rw [if_neg (show ¬((1 : DumpId) = 0 ∨ 1 > 5) by decide)]
          exact hgd
        · rw [hl]; simp
        · intro k hk1 hk5
          rw [hk k hk1 hk5, getD_set_ne _ _ _ (fun h => hk1 h.symm)]
        · have hb1 : 1 < b.length := by omega
          rw [h1, getD_set_eq b 1 (b.getD 1 0 + 1) 0 hb1]
          simp [List.count_cons]
          ring
        · rw [h5, getD_set_ne _ _ _ (by omega)]
          simp [List.count_cons]
      · have hstep := ih (b.set 5 (b.getD 5 0 + 1))
          (fun x hx => hj x (by simp [hx])) (by simpa using hlen)
        obtain ⟨b2, hgd, hl, hk, h1, h5⟩ := hstep
        refine ⟨b2, ?_, ?_, ?_, ?_, ?_⟩
        · simp only [topoScan.goDeps]
          rw [if_neg (show ¬((5 : DumpId) = 0 ∨ 5 > 5) by decide)]
          exact hgd
        · rw [hl]; simp
        · intro k hk1 hk5
          rw [hk k hk1 hk5, getD_set_ne _ _ _ (fun h => hk5 h.symm)]
        · rw [h1, getD_set_ne _ _ _ (by omega)]
          simp [List.count_cons]
        · have hb5 : 5 < b.length := by omega
          rw [h5, getD_set_eq b 5 (b.getD 5 0 + 1) 0 hb5]
          simp [List.count_cons]
          ring

/-- The scan phase on a counterexample state reduces to scanning the
junk. -/
theorem topoScan_cStateJ (junk : List DumpId) :
    topoScan 5 (cStateJ junk) =
      match topoScan.goDeps 5 junk ([0, 1, 1, 1, 0, 0] : List Int) with
      | none => none
      | some b2 => some (b2, ([none, some 0, some 1, some 2, some 3, some 4] :
          List (Option Nat))) := rfl

/-- On every counterexample state, TopoSort fails and hands
`findDependencyLoops` the remainder `[1, 2, 3, 5]`. -/
theorem topoSort_cStateJ (junk : List DumpId)
    (hj : ∀ d ∈ junk, d = 1 ∨ d = 5) (h5 : 5 ∈ junk) :
    ∃ r, TopoSort 5 (cStateJ junk) = some r ∧ r.success = false ∧
      r.remainder = some [1, 2, 3, 5] := by
  obtain ⟨bJ, hgd, hlen, hk, h1, h5c⟩ := goDeps_junk junk
    ([0, 1, 1, 1, 0, 0] : List Int) hj (by decide)
  have hscan : topoScan 5 (cStateJ junk) =
      some (bJ, [none, some 0, some 1, some 2, some 3, some 4]) := by
    rw [topoScan_cStateJ, hgd]
  have e1 : bJ.getD 1 0 ≠ 0 := by
    rw [h1, show ([0, 1, 1, 1, 0, 0] : List Int).getD 1 0 = 1 from by decide]
    have : (0 : Int) ≤ (junk.count 1 : Int) := Int.ofNat_nonneg _
    omega
  have e2 : bJ.getD 2 0 = 1 := by
    rw [hk 2 (by decide) (by decide)]; decide
  have e3 : bJ.getD 3 0 = 1 := by
    rw [hk 3 (by decide) (by decide)]; decide
  have e4 : bJ.getD 4 0 = 0 := by
    rw [hk 4 (by decide) (by decide)]; decide
  have e5 : bJ.getD 5 0 ≠ 0 := by
    rw [h5c, show ([0, 1, 1, 1, 0, 0] : List Int).getD 5 0 = 0 from by decide]
    have hpos : junk.count 5 ≠ 0 := fun hc => (List.count_eq_zero.mp hc) h5
    omega
  simp only [List.getD_eq_getElem?_getD] at e1 e2 e3 e4 e5
  have hseed : topoSeed (cStateJ junk) bJ = [3] := by
    unfold topoSeed
    rw [show (cStateJ junk).length = 5 from rfl,
      show (List.range 5).reverse = [4, 3, 2, 1, 0] from by decide]
    simp only [List.filter_cons, List.filter_nil,
      show ((cStateJ junk).getD 4 default).dumpId = 5 from rfl,
      show ((cStateJ junk).getD 3 default).dumpId = 4 from rfl,
      show ((cStateJ junk).getD 2 default).dumpId = 3 from rfl,
      show ((cStateJ junk).getD 1 default).dumpId = 2 from rfl,
      show ((cStateJ junk).getD 0 default).dumpId = 1 from rfl]
    simp [e1, e2, e3, e4, e5]
  refine ⟨{ success := false, ordering := [4], residualIds := [1, 2, 3, 5],
            remainder := some [1, 2, 3, 5], finalBefore := bJ }, ?_, rfl, rfl⟩
  unfold TopoSort
  rw [hscan]
  dsimp only
  rw [hseed]
  rw [show emitLoop (cStateJ junk)
      [none, some 0, some 1, some 2, some 3, some 4]
      ((cStateJ junk).length + 1)
      { pending := [3], before := bJ, out := [], err := false } =
      { pending := [], before := bJ, out := [4], err := false } from rfl]
  dsimp only
  rw [if_neg Bool.false_ne_true]
  simp [e1, e2, e3, e4, e5, show List.range' 1 5 = [1, 2, 3, 4, 5] from by decide]
  exact ⟨by simp [cStateJ], rfl, rfl, rfl, rfl⟩

set_option maxHeartbeats 3200000 in
/-- The finder pass on a counterexample state finds the loop
`[1, 2, 3]`, applies the table-and-CHECK-constraint multi-loop repair —
which removes the non-existent table-to-constraint edge and appends the
table and post-boundary ids to the constraint's dependencies — and
returns the next counterexample state. -/
theorem fdl_cStateJ (junk : List DumpId) :
    findDependencyLoops 4 5 5 (cStateJ junk) [1, 2, 3, 5] =
      some (cStateJ (junk ++ [1, 5])) := by
  have h : findDependencyLoops 4 5 5 (cStateJ junk) [1, 2, 3, 5] =
      some (cStateJ ((junk ++ [1]) ++ [5])) := rfl
  rw [h, List.append_assoc]
  rfl

/-- One driver iteration maps a counterexample state to the next one. -/
theorem driver_step_cStateJ (fuel : Nat) (junk : List DumpId)
    (hj : ∀ d ∈ junk, d = 1 ∨ d = 5) (h5 : 5 ∈ junk) :
    sortDumpableObjectsLoop 5 4 5 (fuel + 1) (cStateJ junk) =
      sortDumpableObjectsLoop 5 4 5 fuel (cStateJ (junk ++ [1, 5])) := by
  obtain ⟨r, hts, hsucc, hrem⟩ := topoSort_cStateJ junk hj h5
  rw [sortDumpableObjectsLoop, hts]
  dsimp only
  rw [hsucc, if_neg Bool.false_ne_true, hrem]
  dsimp only
  rw [fdl_cStateJ]

/-- With no fuel left, a counterexample state reports exhaustion. -/
theorem driver_zero_cStateJ (junk : List DumpId)
    (hj : ∀ d ∈ junk, d = 1 ∨ d = 5) (h5 : 5 ∈ junk) :
    sortDumpableObjectsLoop 5 4 5 0 (cStateJ junk) =
      DriverResult.outOfFuel := by
  obtain ⟨r, hts, hsucc, hrem⟩ := topoSort_cStateJ junk hj h5
  rw [sortDumpableObjectsLoop, hts]
  dsimp only
  rw [hsucc, if_neg Bool.false_ne_true, hrem]

/-- No amount of fuel lets the driver leave the counterexample family:
the C `while (!TopoSort(...))` loop runs forever on these inputs. -/
theorem driver_diverges : ∀ (fuel : Nat) (junk : List DumpId),
    (∀ d ∈ junk, d = 1 ∨ d = 5) → 5 ∈ junk →
    sortDumpableObjectsLoop 5 4 5 fuel (cStateJ junk) =
      DriverResult.outOfFuel := by
  intro fuel
  induction fuel with
  | zero => exact fun junk hj h5 => driver_zero_cStateJ junk hj h5
  | succ n ih =>
      intro junk hj h5
      rw [driver_step_cStateJ n junk hj h5]
      refine ih (junk ++ [1, 5]) (fun d hd => ?_)
        (List.mem_append_right _ (by simp))
      rcases List.mem_append.mp hd with h | h
      · exact hj d h
      · simpa using h

/-- The first driver iteration enters the counterexample family. -/
theorem driver_step0 (fuel : Nat) :
    sortDumpableObjectsLoop 5 4 5 (fuel + 1) cState0 =
      sortDumpableObjectsLoop 5 4 5 fuel (cStateJ [1, 5]) := rfl

/-- Every run on `cState0`, whatever its fuel, exhausts the fuel. -/
theorem driver_out_of_fuel_cState0 :
    ∀ fuel, sortDumpableObjects fuel 5 4 5 cState0 =
      DriverResult.outOfFuel := by
  intro fuel
  unfold sortDumpableObjects
  rw [if_neg (show ¬(cState0.length = 0) by decide)]
  cases fuel with
  | zero => rfl
  | succ n =>
      rw [driver_step0 n]
      exact driver_diverges n [1, 5] (by decide) (by decide)

/-- C3 counterexample: on the valid five-object input `cState0` — a
table, a function, a CHECK constraint closing the indirect loop, and the
two boundaries — the driver loop of `sortDumpableObjects` never
terminates: it neither returns an ordering nor hits the fatal path, for
any amount of fuel; every pass's repair removes a non-existent edge and
appends two dependencies.  The claim's stated reason (each repair
strictly reduces the edge count or breaks a cycle) fails. -/
theorem c3_driver_never_terminates :
    ¬ ∃ fuel out, sortDumpableObjects fuel 5 4 5 cState0 =
        DriverResult.ok out ∨
      sortDumpableObjects fuel 5 4 5 cState0 = DriverResult.fatal := by
  rintro ⟨fuel, out, h⟩
  rw [driver_out_of_fuel_cState0 fuel] at h
  rcases h with h | h <;> exact absurd h (by simp)

/-- C3, amended: the driver loop terminates whenever `TopoSort` reports
success, returning the sorted objects at once; termination is not
guaranteed in general (see the counterexample). -/
theorem c3_first_pass_success (fuel maxId preId postId : Nat)
    (objs : List DumpableObject) (r : TopoOut)
    (hts : TopoSort maxId objs = some r) (hs : r.success = true) :
    sortDumpableObjectsLoop maxId preId postId fuel objs =
      DriverResult.ok (r.ordering.filterMap (findObjectByDumpId objs)) := by
  rw [sortDumpableObjectsLoop, hts]
  dsimp only
  rw [if_pos hs]

/-- The C3 witness store: a table in a namespace, no cycle. -/
def c3WStore : List DumpableObject :=
  [{ dumpId := 1, objType := DO_TABLE, catIdOid := 41, name := "a",
     namespaceName := some "public", dependencies := [2] },
   { dumpId := 2, objType := DO_NAMESPACE, catIdOid := 42, name := "public",
     namespaceName := none, dependencies := [] }]

theorem c3_witness :
    sortDumpableObjectsLoop 2 3 4 7 c3WStore =
      DriverResult.ok ([2, 1].filterMap (findObjectByDumpId c3WStore)) :=
  c3_first_pass_success 7 2 3 4 c3WStore
    { success := true, ordering := [2, 1], residualIds := [],
      remainder := some [], finalBefore := [0, 0, 0] }
    rfl rfl

/-! ## Claims C1 and C2: correctness of a successful TopoSort pass -/

/-- The occurrences of `id` among the dependency lists of the objects not
yet emitted (those whose dump id is not in `out`): the quantity the
emission loop keeps in `beforeConstraints[id]`. -/
def remCount (objs : List DumpableObject) (out : List DumpId)
    (id : DumpId) : Nat :=
  depOccCount (objs.filter (fun o => o.dumpId ∉ out)) id

theorem remCount_nil (objs : List DumpableObject) (id : DumpId) :
    remCount objs [] id = depOccCount objs id := by
  unfold remCount
  congr 1
  simp

theorem remCount_out_irrelevant (objs : List DumpableObject)
    (out : List DumpId) (x : DumpId) (h : ∀ o ∈ objs, o.dumpId ≠ x)
    (id : DumpId) :
    remCount objs (x :: out) id = remCount objs out id := by
  unfold remCount
  congr 1
  apply List.filter_congr
  intro o ho
  simp only [List.mem_cons, decide_eq_decide]
  constructor
  · intro hc hm
    exact hc (Or.inr hm)
  · rintro hc (hx | hm)
    · exact h o ho hx
    · exact hc hm

theorem remCount_emit : ∀ (objs : List DumpableObject) (out : List DumpId)
    (a : DumpableObject), (objs.map (fun o => o.dumpId)).Nodup → a ∈ objs →
    a.dumpId ∉ out → ∀ id,
    remCount objs out id =
      remCount objs (a.dumpId :: out) id + a.dependencies.count id
  | [], _, a, _, ha, _, _ => absurd ha (by simp)
  | o :: os, out, a, hnd, ha, hout, id => by
      simp only [List.map_cons, List.nodup_cons] at hnd
      rcases List.mem_cons.mp ha with rfl | hmem
      · have hos : ∀ b ∈ os, b.dumpId ≠ a.dumpId := by
          intro b hb hc
          exact hnd.1 (hc ▸ List.mem_map_of_mem (fun o => o.dumpId) hb)
        unfold remCount
        rw [List.filter_cons, List.filter_cons]
        rw [if_pos (by simpa using hout), if_neg (by simp)]
        rw [depOccCount_cons]
        have hirr := remCount_out_irrelevant os out a.dumpId hos id
        unfold remCount at hirr
        rw [hirr]
        omega
      · have hne : o.dumpId ≠ a.dumpId := by
          intro hc
          exact hnd.1 (hc ▸ List.mem_map_of_mem (fun o => o.dumpId) hmem)
        have ih := remCount_emit os out a hnd.2 hmem hout id
        unfold remCount at ih ⊢
        rw [List.filter_cons, List.filter_cons]
        by_cases hkeep : o.dumpId ∉ out
        · rw [if_pos (by simpa using hkeep),
            if_pos (by
              simp only [List.mem_cons, decide_not, Bool.not_eq_eq_eq_not,
                Bool.not_true, decide_eq_false_iff_not]
              push_neg
              exact ⟨hne, hkeep⟩)]
          rw [depOccCount_cons, depOccCount_cons]
          omega
        · have hmem2 : o.dumpId ∈ a.dumpId :: out :=
            List.mem_cons_of_mem _ (not_not.mp hkeep)
          rw [if_neg (by simpa using hkeep), if_neg (by simp [hmem2])]
          exact ih

theorem remCount_pos (objs : List DumpableObject) (out : List DumpId)
    (a : DumpableObject) (ha : a ∈ objs) (hout : a.dumpId ∉ out)
    (d : DumpId) (hd : d ∈ a.dependencies) : remCount objs out d ≠ 0 := by
  unfold remCount depOccCount
  intro hc
  rw [List.count_eq_zero] at hc
  exact hc (List.mem_flatten.mpr ⟨a.dependencies,
    List.mem_map_of_mem (fun o => o.dependencies)
      (List.mem_filter.mpr ⟨ha, by simpa using hout⟩), hd⟩)

theorem findObjectByDumpId_spec (store : List DumpableObject) (id : DumpId)
    (o : DumpableObject) (h : findObjectByDumpId store id = some o) :
    o ∈ store ∧ o.dumpId = id :=
  ⟨List.mem_of_find?_eq_some h, by simpa using List.find?_some h⟩

theorem getD_mem_of_lt {α : Type} [Inhabited α] (l : List α) (k : Nat)
    (hk : k < l.length) : l.getD k default ∈ l := by
  rw [List.getD_eq_getElem l default hk]
  exact l.getElem_mem hk

theorem lookup_getD_nodup : ∀ (objs : List DumpableObject) (k : Nat),
    (objs.map (fun o => o.dumpId)).Nodup → k < objs.length →
    findObjectByDumpId objs ((objs.getD k default).dumpId) =
      some (objs.getD k default)
  | [], k, _, hk => absurd hk (by simp)
  | o :: os, 0, _, _ => by
      unfold findObjectByDumpId
      simp
  | o :: os, k + 1, hnd, hk => by
      simp only [List.map_cons, List.nodup_cons] at hnd
      have hk' : k < os.length := by simpa using hk
      have hgd : (o :: os).getD (k + 1) default = os.getD k default := rfl
      have hmem : os.getD k default ∈ os := getD_mem_of_lt os k hk'
      have hne : (o.dumpId == (os.getD k default).dumpId) = false := by
        rw [beq_eq_false_iff_ne]
        intro hc
        exact hnd.1 (hc ▸ List.mem_map_of_mem (fun x => x.dumpId) hmem)
      rw [hgd]
      unfold findObjectByDumpId
      rw [List.find?_cons, hne]
      exact lookup_getD_nodup os k hnd.2 hk'

theorem foldl_max_shape : ∀ (l : List Nat) (a : Nat),
    l.foldl Nat.max a = a ∨ l.foldl Nat.max a ∈ l
  | [], _ => Or.inl rfl
  | x :: xs, a => by
      rw [List.foldl_cons]
      rcases foldl_max_shape xs (Nat.max a x) with h | h
      · rw [h]
        have hm : Nat.max a x = a ∨ Nat.max a x = x := by
          rcases Nat.le_total a x with hle | hle
          · exact Or.inr (Nat.max_eq_right hle)
          · exact Or.inl (Nat.max_eq_left hle)
        rcases hm with hm | hm
        · exact Or.inl hm
        · rw [hm]
          exact Or.inr (List.mem_cons_self x xs)
      · exact Or.inr (List.mem_cons_of_mem x h)

theorem popMax_spec (pending : List Nat) (j : Nat) (rest : List Nat)
    (h : popMax pending = some (j, rest)) :
    j ∈ pending ∧ rest = pending.erase j := by
  match pending, h with
  | p :: ps, h =>
      unfold popMax at h
      simp only [Option.some.injEq, Prod.mk.injEq] at h
      obtain ⟨h1, h2⟩ := h
      have hzp : Nat.max 0 p = p := Nat.max_eq_right (Nat.zero_le p)
      rw [List.foldl_cons, hzp] at h1
      rw [List.foldl_cons, hzp, h1] at h2
      have hmem : j ∈ p :: ps := by
        rcases foldl_max_shape ps p with hs | hs
        · rw [hs] at h1
          exact h1 ▸ List.mem_cons_self p ps
        · exact h1 ▸ List.mem_cons_of_mem p hs
      exact ⟨hmem, h2.symm⟩

theorem depFold_spec (im : List (Option Nat))
    (him : ∀ d1 d2 p, im.getD d1 none = some p →
      im.getD d2 none = some p → d1 = d2) :
    ∀ (ds : List DumpId) (pend : List Nat) (bef : List Int) (err : Bool),
    (∀ d ∈ ds, d < bef.length) →
    ∃ enq,
      (depFold im ds (pend, bef, err)).1 = pend ++ enq ∧
      (∀ id, (depFold im ds (pend, bef, err)).2.1.getD id 0 =
        bef.getD id 0 - (ds.count id : Int)) ∧
      (depFold im ds (pend, bef, err)).2.1.length = bef.length ∧
      (∀ p ∈ enq, ∃ d ∈ ds, im.getD d none = some p ∧
        1 ≤ bef.getD d 0 ∧ bef.getD d 0 ≤ (ds.count d : Int)) ∧
      enq.Nodup
  | [], pend, bef, err, _ =>
      ⟨[], by simp [depFold], by simp [depFold], by simp [depFold],
        by simp, by simp⟩
  | d :: ds, pend, bef, err, hval => by
      have hd : d < bef.length := hval d (by simp)
      have hval2 : ∀ x ∈ ds, x < (bef.set d (bef.getD d 0 - 1)).length := by
        intro x hx
        rw [List.length_set]
        exact hval x (List.mem_cons_of_mem d hx)
      have hb2d : (bef.set d (bef.getD d 0 - 1)).getD d 0 =
          bef.getD d 0 - 1 := getD_set_eq bef d _ 0 hd
      have hb2ne : ∀ id, id ≠ d →
          (bef.set d (bef.getD d 0 - 1)).getD id 0 = bef.getD id 0 :=
        fun id hid => getD_set_ne bef _ 0 (fun hc => hid hc.symm)
      simp only [depFold]
      by_cases h0 : (bef.set d (bef.getD d 0 - 1)).getD d 0 = 0
      · rw [if_pos h0]
        have hbd1 : bef.getD d 0 = 1 := by
          rw [hb2d] at h0
          omega
        match himd : im.getD d none with
        | some ix =>
            obtain ⟨enq', he1, he2, he3, he4, he5⟩ :=
              depFold_spec im him ds (pend ++ [ix])
                (bef.set d (bef.getD d 0 - 1)) err hval2
            refine ⟨ix :: enq', ?_, ?_, ?_, ?_, ?_⟩
            · rw [he1, List.append_assoc]
              rfl
            · intro id
              rw [he2 id]
              by_cases hid : id = d
              · subst hid
                rw [hb2d, List.count_cons_self]
                push_cast
                omega
              · rw [hb2ne id hid,
                  List.count_cons_of_ne (fun hc => hid hc)]
            · rw [he3, List.length_set]
            · intro p hp
              rcases List.mem_cons.mp hp with rfl | hp'
              · refine ⟨d, by simp, himd, by omega, ?_⟩
                rw [List.count_cons_self, hbd1]
                push_cast
                omega
              · obtain ⟨d', hd'1, hd'2, hd'3, hd'4⟩ := he4 p hp'
                have hdd : d' ≠ d := by
                  intro hc
                  subst hc
                  rw [hb2d, hbd1] at hd'3
                  omega
                refine ⟨d', List.mem_cons_of_mem d hd'1, hd'2, ?_, ?_⟩
                · rwa [hb2ne d' hdd] at hd'3
                · rw [hb2ne d' hdd] at hd'4
                  rw [List.count_cons_of_ne (fun hc => hdd hc)]
                  exact hd'4
            · refine List.nodup_cons.mpr ⟨?_, he5⟩
              intro hc
              obtain ⟨d', hd'1, hd'2, hd'3, _⟩ := he4 ix hc
              have hdd : d' ≠ d := by
                intro hceq
                subst hceq
                rw [hb2d, hbd1] at hd'3
                omega
              exact hdd (him d' d ix hd'2 himd)
        | none =>
            obtain ⟨enq', he1, he2, he3, he4, he5⟩ :=
              depFold_spec im him ds pend
                (bef.set d (bef.getD d 0 - 1)) true hval2
            refine ⟨enq', he1, ?_, ?_, ?_, he5⟩
            · intro id
              rw [he2 id]
              by_cases hid : id = d
              · subst hid
                rw [hb2d, List.count_cons_self]
                push_cast
                omega
              · rw [hb2ne id hid,
                  List.count_cons_of_ne (fun hc => hid hc)]
            · rw [he3, List.length_set]
            · intro p hp
              obtain ⟨d', hd'1, hd'2, hd'3, hd'4⟩ := he4 p hp
              have hdd : d' ≠ d := by
                intro hc
                subst hc
                rw [hb2d, hbd1] at hd'3
                omega
              refine ⟨d', List.mem_cons_of_mem d hd'1, hd'2, ?_, ?_⟩
              · rwa [hb2ne d' hdd] at hd'3
              · rw [hb2ne d' hdd] at hd'4
                rw [List.count_cons_of_ne (fun hc => hdd hc)]
                exact hd'4
      · rw [if_neg h0]
        obtain ⟨enq', he1, he2, he3, he4, he5⟩ :=
          depFold_spec im him ds pend
            (bef.set d (bef.getD d 0 - 1)) err hval2
        refine ⟨enq', he1, ?_, ?_, ?_, he5⟩
        · intro id
          rw [he2 id]
          by_cases hid : id = d
          · subst hid
            rw [hb2d, List.count_cons_self]
            push_cast
            omega
          · rw [hb2ne id hid,
              List.count_cons_of_ne (fun hc => hid hc)]
        · rw [he3, List.length_set]
        · intro p hp
          obtain ⟨d', hd'1, hd'2, hd'3, hd'4⟩ := he4 p hp
          by_cases hdd : d' = d
          · subst hdd
            rw [hb2d] at hd'3 hd'4
            refine ⟨d', by simp, hd'2, by omega, ?_⟩
            rw [List.count_cons_self]
            push_cast
            omega
          · refine ⟨d', List.mem_cons_of_mem d hd'1, hd'2, ?_, ?_⟩
            · rwa [hb2ne d' hdd] at hd'3
            · rw [hb2ne d' hdd] at hd'4
              rw [List.count_cons_of_ne (fun hc => hdd hc)]
              exact hd'4

theorem index_inj (objs : List DumpableObject)
    (hnd : (objs.map (fun o => o.dumpId)).Nodup) (p q : Nat)
    (hp : p < objs.length) (hq : q < objs.length)
    (h : (objs.getD p default).dumpId = (objs.getD q default).dumpId) :
    p = q := by
  have hp' : p < (objs.map (fun o => o.dumpId)).length := by simpa using hp
  have hq' : q < (objs.map (fun o => o.dumpId)).length := by simpa using hq
  have e1 : (objs.map (fun o => o.dumpId)).get ⟨p, hp'⟩ =
      (objs.getD p default).dumpId := by
    simp [List.getD_eq_getElem?_getD, List.getElem?_eq_getElem, hp]
  have e2 : (objs.map (fun o => o.dumpId)).get ⟨q, hq'⟩ =
      (objs.getD q default).dumpId := by
    simp [List.getD_eq_getElem?_getD, List.getElem?_eq_getElem, hq]
  have hg : (objs.map (fun o => o.dumpId)).get ⟨p, hp'⟩ =
      (objs.map (fun o => o.dumpId)).get ⟨q, hq'⟩ := by
    rw [e1, e2]
    exact h
  have := (List.Nodup.get_inj_iff hnd).mp hg
  simpa using this

/-- The invariant the emission loop maintains (on top of the scan facts):
the pending indexes are in-range, duplicate-free, ready (zero count) and
unemitted; the emitted ids are distinct dump ids of input objects with
zero counts; `before[]` tracks the remaining occurrence counts of the
unemitted objects' dependency lists; no unemitted object depends on an
emitted id; and the output built so far is ordered with every dependency
edge pointing toward the front. -/
structure EmitInv (objs : List DumpableObject) (im : List (Option Nat))
    (maxId : Nat) (s : EmitState) : Prop where
  before_len : s.before.length = maxId + 1
  pend_ready : ∀ p ∈ s.pending, p < objs.length ∧
    s.before.getD ((objs.getD p default).dumpId) 0 = 0
  pend_nodup : s.pending.Nodup
  pend_not_out : ∀ p ∈ s.pending, (objs.getD p default).dumpId ∉ s.out
  out_sub : ∀ x ∈ s.out, ∃ k, k < objs.length ∧
    (objs.getD k default).dumpId = x
  out_nodup : s.out.Nodup
  out_zero : ∀ x ∈ s.out, s.before.getD x 0 = 0
  before_eq : ∀ id, s.before.getD id 0 = (remCount objs s.out id : Int)
  no_back : ∀ k, k < objs.length → (objs.getD k default).dumpId ∉ s.out →
    ∀ d ∈ (objs.getD k default).dependencies, d ∉ s.out
  ordered : ∀ ka kb (ha : ka < s.out.length) (hb : kb < s.out.length),
    s.out.get ⟨kb, hb⟩ ∈
      ((findObjectByDumpId objs (s.out.get ⟨ka, ha⟩)).getD
        default).dependencies → kb < ka

theorem emitStep_inv (objs : List DumpableObject) (im : List (Option Nat))
    (maxId : Nat) (hnd : (objs.map (fun o => o.dumpId)).Nodup)
    (hval : ∀ o ∈ objs, (o.dumpId ≠ 0 ∧ o.dumpId ≤ maxId) ∧
      ∀ d ∈ o.dependencies, d ≠ 0 ∧ d ≤ maxId)
    (him_sound : ∀ id ix, im.getD id none = some ix →
      ix < objs.length ∧ (objs.getD ix default).dumpId = id)
    (s : EmitState) (inv : EmitInv objs im maxId s) :
    EmitInv objs im maxId (emitStep objs im s) := by
  match hpop : popMax s.pending with
  | none =>
      rw [show emitStep objs im s = s from by unfold emitStep; rw [hpop]]
      exact inv
  | some (j, rest) =>
      obtain ⟨hjmem, hrest⟩ := popMax_spec s.pending j rest hpop
      obtain ⟨hjlt, hj0⟩ := inv.pend_ready j hjmem
      have ho : objs.getD j default ∈ objs := getD_mem_of_lt objs j hjlt
      have hnotout : (objs.getD j default).dumpId ∉ s.out :=
        inv.pend_not_out j hjmem
      have hrc : ∀ id, remCount objs s.out id =
          remCount objs ((objs.getD j default).dumpId :: s.out) id +
            (objs.getD j default).dependencies.count id :=
        remCount_emit objs s.out (objs.getD j default) hnd ho hnotout
      have hrem0 : remCount objs s.out ((objs.getD j default).dumpId) = 0 := by
        have := inv.before_eq ((objs.getD j default).dumpId)
        rw [hj0] at this
        exact_mod_cast this.symm
      have him : ∀ d1 d2 p, im.getD d1 none = some p →
          im.getD d2 none = some p → d1 = d2 := by
        intro d1 d2 p h1 h2
        rw [← (him_sound d1 p h1).2, ← (him_sound d2 p h2).2]
      have hdval : ∀ d ∈ (objs.getD j default).dependencies,
          d < s.before.length := by
        intro d hd
        have hle := ((hval _ ho).2 d hd).2
        rw [inv.before_len]
        exact Nat.lt_succ_of_le hle
      obtain ⟨enq, he1, he2, he3, he4, he5⟩ :=
        depFold_spec im him (objs.getD j default).dependencies rest
          s.before s.err hdval
      have hstep : emitStep objs im s =
          { pending := (depFold im (objs.getD j default).dependencies
              (rest, s.before, s.err)).1,
            before := (depFold im (objs.getD j default).dependencies
              (rest, s.before, s.err)).2.1,
            out := (objs.getD j default).dumpId :: s.out,
            err := (depFold im (objs.getD j default).dependencies
              (rest, s.before, s.err)).2.2 } := by
        unfold emitStep
        rw [hpop]
      have hbefore_eq : ∀ id,
          (depFold im (objs.getD j default).dependencies
            (rest, s.before, s.err)).2.1.getD id 0 =
          (remCount objs ((objs.getD j default).dumpId :: s.out) id :
            Int) := by
        intro id
        rw [he2 id, inv.before_eq id, hrc id]
        push_cast
        omega
      have hrest_sub : ∀ p ∈ rest, p ∈ s.pending := by
        intro p hp
        rw [hrest] at hp
        exact List.mem_of_mem_erase hp
      rw [hstep]
      refine ⟨?_, ?_, ?_, ?_, ?_, ?_, ?_, ?_, ?_, ?_⟩
      · show (depFold im _ _).2.1.length = maxId + 1
        rw [he3, inv.before_len]
      · show ∀ p ∈ (depFold im _ _).1, _
        rw [he1]
        intro p hp
        rcases List.mem_append.mp hp with hp | hp
        · obtain ⟨hplt, hp0⟩ := inv.pend_ready p (hrest_sub p hp)
          refine ⟨hplt, ?_⟩
          have hz : remCount objs s.out
              ((objs.getD p default).dumpId) = 0 := by
            have := inv.before_eq ((objs.getD p default).dumpId)
            rw [hp0] at this
            exact_mod_cast this.symm
          have hsplit := hrc ((objs.getD p default).dumpId)
          rw [hbefore_eq]
          have hq : remCount objs ((objs.getD j default).dumpId :: s.out)
              ((objs.getD p default).dumpId) = 0 :=
            Nat.eq_zero_of_add_eq_zero_right (hsplit.symm.trans hz)
          exact_mod_cast hq
        · obtain ⟨d, hd1, hd2, hd3, hd4⟩ := he4 p hp
          obtain ⟨hplt, hpid⟩ := him_sound d p hd2
          refine ⟨hplt, ?_⟩
          rw [hpid, hbefore_eq d]
          have hnn : (0 : Int) ≤ (remCount objs
              ((objs.getD j default).dumpId :: s.out) d : Int) :=
            Int.ofNat_nonneg _
          have hsub := hbefore_eq d
          rw [he2 d] at hsub
          omega
      · show ((depFold im _ _).1).Nodup
        rw [he1]
        refine List.Nodup.append ?_ he5 ?_
        · rw [hrest]
          exact inv.pend_nodup.erase j
        · intro p hp1 hp2
          obtain ⟨_, hp0⟩ := inv.pend_ready p (hrest_sub p hp1)
          obtain ⟨d, hd1, hd2, hd3, hd4⟩ := he4 p hp2
          have hpid := (him_sound d p hd2).2
          rw [← hpid] at hd3
          omega
      · show ∀ p ∈ (depFold im _ _).1, _ ∉ _ :: s.out
        rw [he1]
        intro p hp hc
        rcases List.mem_append.mp hp with hp | hp
        · rcases List.mem_cons.mp hc with hc | hc
          · obtain ⟨hplt, _⟩ := inv.pend_ready p (hrest_sub p hp)
            have hpj : p = j := index_inj objs hnd p j hplt hjlt hc
            rw [hrest] at hp
            exact ((List.Nodup.mem_erase_iff inv.pend_nodup).mp hp).1 hpj
          · exact inv.pend_not_out p (hrest_sub p hp) hc
        · obtain ⟨d, hd1, hd2, hd3, hd4⟩ := he4 p hp
          have hpid := (him_sound d p hd2).2
          rcases List.mem_cons.mp hc with hc | hc
          · have hdo : d = (objs.getD j default).dumpId := by
              rw [← hpid, hc]
            rw [hdo, hj0] at hd3
            exact absurd hd3 (by norm_num)
          · have hz := inv.out_zero _ hc
            rw [hpid] at hz
            rw [hz] at hd3
            exact absurd hd3 (by norm_num)
      · show ∀ x ∈ _ :: s.out, ∃ k, _
        intro x hx
        rcases List.mem_cons.mp hx with rfl | hx
        · exact ⟨j, hjlt, rfl⟩
        · exact inv.out_sub x hx
      · exact List.nodup_cons.mpr ⟨hnotout, inv.out_nodup⟩
      · show ∀ x ∈ _ :: s.out, (depFold im _ _).2.1.getD x 0 = 0
        intro x hx
        rw [hbefore_eq x]
        rcases List.mem_cons.mp hx with hxx | hxx
        · subst hxx
          have hs1 := hrc ((objs.getD j default).dumpId)
          have hq : remCount objs
              ((objs.getD j default).dumpId :: s.out)
              ((objs.getD j default).dumpId) = 0 :=
            Nat.eq_zero_of_add_eq_zero_right (hs1.symm.trans hrem0)
          exact_mod_cast hq
        · have hz : remCount objs s.out x = 0 := by
            have := inv.before_eq x
            rw [inv.out_zero x hxx] at this
            exact_mod_cast this.symm
          have hs1 := hrc x
          have hq : remCount objs
              ((objs.getD j default).dumpId :: s.out) x = 0 :=
            Nat.eq_zero_of_add_eq_zero_right (hs1.symm.trans hz)
          exact_mod_cast hq
      · exact hbefore_eq
      · show ∀ k, k < objs.length → _
        intro k hk hknot d hd hcon
        have hknot' : (objs.getD k default).dumpId ∉ s.out :=
          fun hc => hknot (List.mem_cons_of_mem _ hc)
        rcases List.mem_cons.mp hcon with hc | hc
        · have hok : objs.getD k default ∈ objs := getD_mem_of_lt objs k hk
          have := remCount_pos objs s.out (objs.getD k default) hok hknot'
            d hd
          rw [hc] at this
          exact this hrem0
        · exact inv.no_back k hk hknot' d hd hc
      · show ∀ ka kb (ha : ka < (_ :: s.out).length)
            (hb : kb < (_ :: s.out).length), _
        intro ka kb ha hb hmem
        match ka, kb, ha, hb, hmem with
        | 0, 0, ha, hb, hmem =>
            exfalso
            have hga : ((objs.getD j default).dumpId :: s.out).get ⟨0, ha⟩ =
                (objs.getD j default).dumpId := rfl
            rw [hga, lookup_getD_nodup objs j hnd hjlt] at hmem
            simp only [Option.getD_some] at hmem
            exact remCount_pos objs s.out (objs.getD j default) ho hnotout
              _ hmem hrem0
        | 0, kb' + 1, ha, hb, hmem =>
            exfalso
            have hga : ((objs.getD j default).dumpId :: s.out).get ⟨0, ha⟩ =
                (objs.getD j default).dumpId := rfl
            have hb' : kb' < s.out.length := by simpa using hb
            have hgb : ((objs.getD j default).dumpId :: s.out).get
                ⟨kb' + 1, hb⟩ = s.out.get ⟨kb', hb'⟩ := rfl
            rw [hga, hgb, lookup_getD_nodup objs j hnd hjlt] at hmem
            simp only [Option.getD_some] at hmem
            exact inv.no_back j hjlt hnotout _ hmem
              (List.get_mem s.out kb' hb')
        | ka' + 1, 0, ha, hb, hmem => exact Nat.succ_pos ka'
        | ka' + 1, kb' + 1, ha, hb, hmem =>
            have ha' : ka' < s.out.length := by simpa using ha
            have hb' : kb' < s.out.length := by simpa using hb
            have hga : ((objs.getD j default).dumpId :: s.out).get
                ⟨ka' + 1, ha⟩ = s.out.get ⟨ka', ha'⟩ := rfl
            have hgb : ((objs.getD j default).dumpId :: s.out).get
                ⟨kb' + 1, hb⟩ = s.out.get ⟨kb', hb'⟩ := rfl
            rw [hga, hgb] at hmem
            exact Nat.succ_lt_succ (inv.ordered ka' kb' ha' hb' hmem)

theorem emitLoop_inv (objs : List DumpableObject) (im : List (Option Nat))
    (maxId : Nat) (hnd : (objs.map (fun o => o.dumpId)).Nodup)
    (hval : ∀ o ∈ objs, (o.dumpId ≠ 0 ∧ o.dumpId ≤ maxId) ∧
      ∀ d ∈ o.dependencies, d ≠ 0 ∧ d ≤ maxId)
    (him_sound : ∀ id ix, im.getD id none = some ix →
      ix < objs.length ∧ (objs.getD ix default).dumpId = id) :
    ∀ (fuel : Nat) (s : EmitState), EmitInv objs im maxId s →
      EmitInv objs im maxId (emitLoop objs im fuel s)
  | 0, s, inv => inv
  | fuel + 1, s, inv => by
      simp only [emitLoop]
      match hsp : s.pending with
      | [] => exact inv
      | p :: ps =>
          exact emitLoop_inv objs im maxId hnd hval him_sound fuel _
            (emitStep_inv objs im maxId hnd hval him_sound s inv)

theorem init_inv (maxId : Nat) (objs : List DumpableObject)
    (bef : List Int) (im : List (Option Nat))
    (hscan : topoScan maxId objs = some (bef, im)) :
    EmitInv objs im maxId
      { pending := topoSeed objs bef, before := bef, out := [],
        err := false } := by
  refine ⟨?_, ?_, ?_, ?_, ?_, ?_, ?_, ?_, ?_, ?_⟩
  · exact (topoScan_lengths maxId objs bef im hscan).1
  · intro p hp
    exact (topoSeed_mem objs bef p).mp hp
  · show (topoSeed objs bef).Nodup
    unfold topoSeed
    exact (List.nodup_reverse.mpr (List.nodup_range _)).filter _
  · intro p _ hc
    exact absurd hc (List.not_mem_nil _)
  · intro x hx
    exact absurd hx (List.not_mem_nil x)
  · exact List.nodup_nil
  · intro x hx
    exact absurd hx (List.not_mem_nil x)
  · intro id
    rw [topoScan_before maxId objs bef im hscan id, remCount_nil]
  · intro k _ _ d _ hc
    exact absurd hc (List.not_mem_nil d)
  · intro ka kb ha _ _
    exact absurd ha (by simp)

theorem filterMap_all_some : ∀ (l : List DumpId)
    (f : DumpId → Option DumpableObject), (∀ x ∈ l, (f x).isSome) →
    l.filterMap f = l.map (fun x => (f x).getD default)
  | [], _, _ => rfl
  | x :: xs, f, h => by
      rw [List.filterMap_cons, List.map_cons]
      match hx : f x with
      | none =>
          have := h x (by simp)
          rw [hx] at this
          exact absurd this (by simp)
      | some o =>
          simp only [Option.getD_some]
          rw [filterMap_all_some xs f (fun y hy => h y (by simp [hy]))]

/-- A successful `TopoSort` pass emits a permutation of the input dump
ids, each resolvable in the store, in an order where every dependency
between emitted objects points toward the front of `ordering`. -/
theorem TopoSort_success_spec (maxId : Nat) (objs : List DumpableObject)
    (r : TopoOut) (hnd : (objs.map (fun o => o.dumpId)).Nodup)
    (h : TopoSort maxId objs = some r) (hs : r.success = true) :
    r.ordering.Perm (objs.map (fun o => o.dumpId)) ∧
    (∀ x ∈ r.ordering, (findObjectByDumpId objs x).isSome) ∧
    ∀ ka kb (ha : ka < r.ordering.length) (hb : kb < r.ordering.length),
      r.ordering.get ⟨kb, hb⟩ ∈
        ((findObjectByDumpId objs (r.ordering.get ⟨ka, ha⟩)).getD
          default).dependencies → kb < ka := by
  obtain ⟨bef, im, hscan, herr, hr⟩ := TopoSort_some_elim maxId objs r h
  subst hr
  have hval := topoScan_valid maxId objs bef im hscan
  have him_sound : ∀ id ix, im.getD id none = some ix →
      ix < objs.length ∧ (objs.getD ix default).dumpId = id :=
    topoScan_im_sound maxId objs bef im hscan
  have inv : EmitInv objs im maxId (emitRun objs bef im) :=
    emitLoop_inv objs im maxId hnd hval him_sound (objs.length + 1) _
      (init_inv maxId objs bef im hscan)
  have hlen : (emitRun objs bef im).out.length = objs.length := by
    simpa using hs
  have hsub : ∀ x ∈ (emitRun objs bef im).out,
      x ∈ objs.map (fun o => o.dumpId) := by
    intro x hx
    obtain ⟨k, hk, hkid⟩ := inv.out_sub x hx
    exact hkid ▸ List.mem_map_of_mem (fun o => o.dumpId)
      (getD_mem_of_lt objs k hk)
  have hperm : (emitRun objs bef im).out.Perm
      (objs.map (fun o => o.dumpId)) := by
    refine List.Subperm.perm_of_length_le
      (List.Nodup.subperm inv.out_nodup hsub) ?_
    rw [hlen, List.length_map]
  refine ⟨hperm, ?_, ?_⟩
  · intro x hx
    obtain ⟨k, hk, hkid⟩ := inv.out_sub x hx
    exact lookup_isSome_of_mem objs x
      ⟨objs.getD k default, getD_mem_of_lt objs k hk, hkid⟩
  · exact inv.ordered

theorem updateObject_map_dumpId (store : List DumpableObject) (id : DumpId)
    (f : DumpableObject → DumpableObject)
    (hf : ∀ o, (f o).dumpId = o.dumpId) :
    (updateObject store id f).map (fun o => o.dumpId) =
      store.map (fun o => o.dumpId) := by
  unfold updateObject
  rw [List.map_map]
  apply List.map_congr_left
  intro o _
  simp only [Function.comp]
  split
  · exact hf o
  · rfl

theorem removeObjectDependency_map (store : List DumpableObject)
    (a b : DumpId) :
    (removeObjectDependency store a b).map (fun o => o.dumpId) =
      store.map (fun o => o.dumpId) :=
  updateObject_map_dumpId store a _ (fun o => rfl)

theorem addObjectDependency_map (store : List DumpableObject)
    (a b : DumpId) :
    (addObjectDependency store a b).map (fun o => o.dumpId) =
      store.map (fun o => o.dumpId) :=
  updateObject_map_dumpId store a _ (fun o => rfl)

theorem repairTypeFuncLoop_map (store : List DumpableObject)
    (typeId funcId : DumpId) :
    (repairTypeFuncLoop store typeId funcId).map (fun o => o.dumpId) =
      store.map (fun o => o.dumpId) := by
  unfold repairTypeFuncLoop
  dsimp only
  split
  · exact removeObjectDependency_map store funcId typeId
  · split
    · rw [updateObject_map_dumpId _ _
        (fun sh => { sh with dump := ((findObjectByDumpId store
          funcId).getD default).dump ||| DUMP_COMPONENT_DEFINITION })
        (fun o => rfl),
        addObjectDependency_map, removeObjectDependency_map]
    · rw [addObjectDependency_map, removeObjectDependency_map]

theorem repairViewRuleMultiLoop_map (postId : DumpId)
    (store : List DumpableObject) (viewId ruleId : DumpId) :
    (repairViewRuleMultiLoop postId store viewId ruleId).map
      (fun o => o.dumpId) = store.map (fun o => o.dumpId) := by
  unfold repairViewRuleMultiLoop
  rw [addObjectDependency_map, addObjectDependency_map,
    updateObject_map_dumpId _ _ (fun r => { r with separate := true })
      (fun o => rfl),
    updateObject_map_dumpId _ _ (fun v => { v with dummy_view := true })
      (fun o => rfl),
    removeObjectDependency_map]

theorem repairMatViewBoundaryMultiLoop_map (store : List DumpableObject)
    (boundaryId nextId : DumpId) :
    (repairMatViewBoundaryMultiLoop store boundaryId nextId).map
      (fun o => o.dumpId) = store.map (fun o => o.dumpId) := by
  unfold repairMatViewBoundaryMultiLoop
  rw [updateObject_map_dumpId _ _
    (fun nx =>
      if nx.objType = DO_TABLE then
        if nx.relkind = RELKIND_MATVIEW then { nx with postponed_def := true }
        else nx
      else if nx.objType = DO_REL_STATS then
        if nx.relkind = RELKIND_MATVIEW then
          { nx with teSection := SECTION_POST_DATA }
        else nx
      else nx)
    (fun o => by
      dsimp only
      split
      · split
        · rfl
        · rfl
      · split
        · split
          · rfl
          · rfl
        · rfl),
    removeObjectDependency_map]

theorem repairFunctionBoundaryMultiLoop_map (store : List DumpableObject)
    (boundaryId nextId : DumpId) :
    (repairFunctionBoundaryMultiLoop store boundaryId nextId).map
      (fun o => o.dumpId) = store.map (fun o => o.dumpId) := by
  unfold repairFunctionBoundaryMultiLoop
  rw [updateObject_map_dumpId _ _
    (fun nx =>
      if nx.objType = DO_FUNC then { nx with postponed_def := true } else nx)
    (fun o => by
      dsimp only
      split
      · rfl
      · rfl),
    removeObjectDependency_map]

theorem repairTableConstraintMultiLoop_map (postId : DumpId)
    (store : List DumpableObject) (tableId constraintId : DumpId) :
    (repairTableConstraintMultiLoop postId store tableId constraintId).map
      (fun o => o.dumpId) = store.map (fun o => o.dumpId) := by
  unfold repairTableConstraintMultiLoop
  rw [addObjectDependency_map, addObjectDependency_map,
    updateObject_map_dumpId _ _ (fun c => { c with separate := true })
      (fun o => rfl),
    removeObjectDependency_map]

theorem repairTableAttrDefMultiLoop_map (store : List DumpableObject)
    (tableId attrdefId : DumpId) :
    (repairTableAttrDefMultiLoop store tableId attrdefId).map
      (fun o => o.dumpId) = store.map (fun o => o.dumpId) := by
  unfold repairTableAttrDefMultiLoop
  rw [addObjectDependency_map,
    updateObject_map_dumpId _ _ (fun a => { a with separate := true })
      (fun o => rfl),
    removeObjectDependency_map]

theorem repairDomainConstraintMultiLoop_map (postId : DumpId)
    (store : List DumpableObject) (domainId constraintId : DumpId) :
    (repairDomainConstraintMultiLoop postId store domainId constraintId).map
      (fun o => o.dumpId) = store.map (fun o => o.dumpId) := by
  unfold repairDomainConstraintMultiLoop
  rw [addObjectDependency_map, addObjectDependency_map,
    updateObject_map_dumpId _ _ (fun c => { c with separate := true })
      (fun o => rfl),
    removeObjectDependency_map]

set_option maxHeartbeats 1600000 in
theorem repairDependencyLoop_map (preId postId : DumpId)
    (store : List DumpableObject) (loop : List DumpId) :
    (repairDependencyLoop preId postId store loop).map (fun o => o.dumpId) =
      store.map (fun o => o.dumpId) := by
  unfold repairDependencyLoop
  dsimp only
  by_cases g1 : loop.length = 2 ∧ (loopObj store loop 0).objType = DOType.DO_TYPE ∧ (loopObj store loop 1).objType = DOType.DO_FUNC
  case pos =>
    rw [if_pos g1]
    exact repairTypeFuncLoop_map store _ _
  rw [if_neg g1]
  by_cases g2 : loop.length = 2 ∧ (loopObj store loop 1).objType = DOType.DO_TYPE ∧ (loopObj store loop 0).objType = DOType.DO_FUNC
  case pos =>
    rw [if_pos g2]
    exact repairTypeFuncLoop_map store _ _
  rw [if_neg g2]
  by_cases g3 : loop.length = 2 ∧ (loopObj store loop 0).objType = DOType.DO_TABLE ∧ (loopObj store loop 1).objType = DOType.DO_RULE ∧ ((loopObj store loop 0).relkind = RELKIND_VIEW ∨ (loopObj store loop 0).relkind = RELKIND_MATVIEW) ∧ (loopObj store loop 1).ev_type = 49 ∧ (loopObj store loop 1).is_instead = true ∧ (loopObj store loop 1).ruletableId = (loopObj store loop 0).dumpId
  case pos =>
    rw [if_pos g3]
    exact removeObjectDependency_map store _ _
  rw [if_neg g3]
  by_cases g4 : loop.length = 2 ∧ (loopObj store loop 1).objType = DOType.DO_TABLE ∧ (loopObj store loop 0).objType = DOType.DO_RULE ∧ ((loopObj store loop 1).relkind = RELKIND_VIEW ∨ (loopObj store loop 1).relkind = RELKIND_MATVIEW) ∧ (loopObj store loop 0).ev_type = 49 ∧ (loopObj store loop 0).is_instead = true ∧ (loopObj store loop 0).ruletableId = (loopObj store loop 1).dumpId
  case pos =>
    rw [if_pos g4]
    exact removeObjectDependency_map store _ _
  rw [if_neg g4]
  rcases hm1 : viewRuleMultiScan store loop with _ | ⟨i1, j1⟩
  swap
  case _ =>
    dsimp only
    exact repairViewRuleMultiLoop_map postId store _ _
  dsimp only
  rcases hm2 : matviewBoundaryScan store loop with _ | ⟨i2, j2⟩
  swap
  case _ =>
    dsimp only
    exact repairMatViewBoundaryMultiLoop_map store _ _
  dsimp only
  rcases hm3 : functionBoundaryScan store loop with _ | ⟨i3, j3⟩
  swap
  case _ =>
    dsimp only
    exact repairFunctionBoundaryMultiLoop_map store _ _
  dsimp only
  by_cases g5 : loop.length = 2 ∧ (loopObj store loop 0).objType = DOType.DO_TABLE ∧ (loopObj store loop 1).objType = DOType.DO_CONSTRAINT ∧ (loopObj store loop 1).contype = 99 ∧ (loopObj store loop 1).contableId = some (loopObj store loop 0).dumpId
  case pos =>
    rw [if_pos g5]
    exact removeObjectDependency_map store _ _
  rw [if_neg g5]
  by_cases g6 : loop.length = 2 ∧ (loopObj store loop 1).objType = DOType.DO_TABLE ∧ (loopObj store loop 0).objType = DOType.DO_CONSTRAINT ∧ (loopObj store loop 0).contype = 99 ∧ (loopObj store loop 0).contableId = some (loopObj store loop 1).dumpId
  case pos =>
    rw [if_pos g6]
    exact removeObjectDependency_map store _ _
  rw [if_neg g6]
  rcases hm4 : tableConstraintScan store loop with _ | ⟨i4, j4⟩
  swap
  case _ =>
    dsimp only
    exact repairTableConstraintMultiLoop_map postId store _ _
  dsimp only
  by_cases g7 : loop.length = 2 ∧ (loopObj store loop 0).objType = DOType.DO_TABLE ∧ (loopObj store loop 1).objType = DOType.DO_ATTRDEF ∧ (loopObj store loop 1).adtableId = (loopObj store loop 0).dumpId
  case pos =>
    rw [if_pos g7]
    exact removeObjectDependency_map store _ _
  rw [if_neg g7]
  by_cases g8 : loop.length = 2 ∧ (loopObj store loop 1).objType = DOType.DO_TABLE ∧ (loopObj store loop 0).objType = DOType.DO_ATTRDEF ∧ (loopObj store loop 0).adtableId = (loopObj store loop 1).dumpId
  case pos =>
    rw [if_pos g8]
    exact removeObjectDependency_map store _ _
  rw [if_neg g8]
  by_cases g9 : loop.length = 2 ∧ (loopObj store loop 0).objType = DOType.DO_INDEX ∧ (loopObj store loop 1).objType = DOType.DO_INDEX ∧ (loopObj store loop 0).parentidx = (loopObj store loop 1).catIdOid
  case pos =>
    rw [if_pos g9]
    exact removeObjectDependency_map store _ _
  rw [if_neg g9]
  by_cases g10 : loop.length = 2 ∧ (loopObj store loop 0).objType = DOType.DO_INDEX ∧ (loopObj store loop 1).objType = DOType.DO_INDEX ∧ (loopObj store loop 1).parentidx = (loopObj store loop 0).catIdOid
  case pos =>
    rw [if_pos g10]
    exact removeObjectDependency_map store _ _
  rw [if_neg g10]
  rcases hm5 : tableAttrDefScan store loop with _ | ⟨i5, j5⟩
  swap
  case _ =>
    dsimp only
    exact repairTableAttrDefMultiLoop_map store _ _
  dsimp only
  by_cases g11 : loop.length = 2 ∧ (loopObj store loop 0).objType = DOType.DO_TYPE ∧ (loopObj store loop 1).objType = DOType.DO_CONSTRAINT ∧ ((loopObj store loop 1).contype = 99 ∨ (loopObj store loop 1).contype = 110) ∧ (loopObj store loop 1).condomainId = some (loopObj store loop 0).dumpId
  case pos =>
    rw [if_pos g11]
    exact removeObjectDependency_map store _ _
  rw [if_neg g11]
  by_cases g12 : loop.length = 2 ∧ (loopObj store loop 1).objType = DOType.DO_TYPE ∧ (loopObj store loop 0).objType = DOType.DO_CONSTRAINT ∧ ((loopObj store loop 0).contype = 99 ∨ (loopObj store loop 0).contype = 110) ∧ (loopObj store loop 0).condomainId = some (loopObj store loop 1).dumpId
  case pos =>
    rw [if_pos g12]
    exact removeObjectDependency_map store _ _
  rw [if_neg g12]
  rcases hm6 : domainConstraintScan store loop with _ | ⟨i6, j6⟩
  swap
  case _ =>
    dsimp only
    exact repairDomainConstraintMultiLoop_map postId store _ _
  dsimp only
  by_cases g13 : loop.length = 1 ∧ (loopObj store loop 0).objType = DOType.DO_TABLE
  case pos =>
    rw [if_pos g13]
    exact removeObjectDependency_map store _ _
  rw [if_neg g13]
  by_cases g14 : (loop.all fun id => decide (((findObjectByDumpId store id).getD default).objType = DOType.DO_TABLE_DATA)) = true
  case pos =>
    rw [if_pos g14]
    by_cases gt : loop.length > 1
    case pos =>
      rw [if_pos gt]
      exact removeObjectDependency_map store _ _
    rw [if_neg gt]
    exact removeObjectDependency_map store _ _
  rw [if_neg g14]
  by_cases gt : loop.length > 1
  case pos =>
    rw [if_pos gt]
    exact removeObjectDependency_map store _ _
  rw [if_neg gt]
  exact removeObjectDependency_map store _ _

theorem fdlStep_store_map (preId postId : DumpId) (s : FdlState)
    (objId : DumpId) :
    ((fdlStep preId postId s objId).store).map (fun o => o.dumpId) =
      s.store.map (fun o => o.dumpId) := by
  unfold fdlStep
  split
  · rfl
  · split
    · exact repairDependencyLoop_map preId postId s.store _
    · rfl

theorem fdlFold_store_map (preId postId : DumpId) :
    ∀ (rem : List DumpId) (s : FdlState),
    ((rem.foldl (fdlStep preId postId) s).store).map (fun o => o.dumpId) =
      s.store.map (fun o => o.dumpId)
  | [], s => rfl
  | x :: xs, s => by
      rw [List.foldl_cons, fdlFold_store_map preId postId xs _]
      exact fdlStep_store_map preId postId s x

theorem findDependencyLoops_map (preId postId maxDumpId : DumpId)
    (store store2 : List DumpableObject) (rem : List DumpId)
    (h : findDependencyLoops preId postId maxDumpId store rem =
      some store2) :
    store2.map (fun o => o.dumpId) = store.map (fun o => o.dumpId) := by
  simp only [findDependencyLoops] at h
  split at h
  · injection h with h2
    rw [← h2]
    exact fdlFold_store_map preId postId rem _
  · exact absurd h (by simp)

theorem driver_success_case (maxId : Nat) (objs : List DumpableObject)
    (r : TopoOut) (hnd : (objs.map (fun o => o.dumpId)).Nodup)
    (hts : TopoSort maxId objs = some r) (hs : r.success = true) :
    ((r.ordering.filterMap (findObjectByDumpId objs)).map
      (fun o => o.dumpId)).Perm (objs.map (fun o => o.dumpId)) ∧
    ∀ ka kb
      (ha : ka < (r.ordering.filterMap (findObjectByDumpId objs)).length)
      (hb : kb < (r.ordering.filterMap (findObjectByDumpId objs)).length),
      ((r.ordering.filterMap (findObjectByDumpId objs)).get
        ⟨kb, hb⟩).dumpId ∈
        ((r.ordering.filterMap (findObjectByDumpId objs)).get
          ⟨ka, ha⟩).dependencies → kb < ka := by
  obtain ⟨hperm, hsome, horder⟩ :=
    TopoSort_success_spec maxId objs r hnd hts hs
  have hfm : r.ordering.filterMap (findObjectByDumpId objs) =
      r.ordering.map (fun x => (findObjectByDumpId objs x).getD default) :=
    filterMap_all_some _ _ hsome
  have hdumpid : ∀ x ∈ r.ordering,
      ((findObjectByDumpId objs x).getD default).dumpId = x := by
    intro x hx
    have := hsome x hx
    match hfx : findObjectByDumpId objs x with
    | none => rw [hfx] at this; exact absurd this (by simp)
    | some o =>
        simp only [hfx, Option.getD_some]
        exact (findObjectByDumpId_spec objs x o hfx).2
  have hmapid : (r.ordering.filterMap (findObjectByDumpId objs)).map
      (fun o => o.dumpId) = r.ordering := by
    rw [hfm, List.map_map]
    conv_rhs => rw [← List.map_id r.ordering]
    apply List.map_congr_left
    intro x hx
    simp only [Function.comp, id]
    exact hdumpid x hx
  constructor
  · rw [hmapid]
    exact hperm
  · intro ka kb ha hb hdep
    have hlen : (r.ordering.filterMap (findObjectByDumpId objs)).length =
        r.ordering.length := by
      rw [hfm, List.length_map]
    have ha' : ka < r.ordering.length := hlen ▸ ha
    have hb' : kb < r.ordering.length := hlen ▸ hb
    have hLget : ∀ k (hk : k <
        (r.ordering.filterMap (findObjectByDumpId objs)).length)
        (hk' : k < r.ordering.length),
        (r.ordering.filterMap (findObjectByDumpId objs)).get ⟨k, hk⟩ =
          (findObjectByDumpId objs (r.ordering.get ⟨k, hk'⟩)).getD
            default := by
      intro k hk hk'
      have hcast := List.get_of_eq hfm ⟨k, hk⟩
      rw [hcast]
      simp [List.get_eq_getElem]
    rw [hLget ka ha ha', hLget kb hb hb'] at hdep
    rw [hdumpid _ (List.get_mem r.ordering kb hb')] at hdep
    exact horder ka kb ha' hb' hdep

theorem sortLoop_ok_spec (maxId preId postId : Nat) :
    ∀ (fuel : Nat) (objs out : List DumpableObject),
    (objs.map (fun o => o.dumpId)).Nodup →
    sortDumpableObjectsLoop maxId preId postId fuel objs =
      DriverResult.ok out →
    (out.map (fun o => o.dumpId)).Perm (objs.map (fun o => o.dumpId)) ∧
    ∀ ka kb (ha : ka < out.length) (hb : kb < out.length),
      (out.get ⟨kb, hb⟩).dumpId ∈ (out.get ⟨ka, ha⟩).dependencies →
      kb < ka := by
  intro fuel
  induction fuel with
  | zero =>
      intro objs out hnd hok
      rw [sortDumpableObjectsLoop] at hok
      rcases hts : TopoSort maxId objs with _ | r
      · rw [hts] at hok
        exact absurd hok (by simp)
      · rw [hts] at hok
        dsimp only at hok
        by_cases hs : r.success = true
        · rw [if_pos hs] at hok
          injection hok with hout
          subst hout
          exact driver_success_case maxId objs r hnd hts hs
        · rw [if_neg hs] at hok
          rcases hrem : r.remainder with _ | rem
          · rw [hrem] at hok
            exact absurd hok (by simp)
          · rw [hrem] at hok
            dsimp only at hok
            exact absurd hok (by simp)
  | succ n ih =>
      intro objs out hnd hok
      rw [sortDumpableObjectsLoop] at hok
      rcases hts : TopoSort maxId objs with _ | r
      · rw [hts] at hok
        exact absurd hok (by simp)
      · rw [hts] at hok
        dsimp only at hok
        by_cases hs : r.success = true
        · rw [if_pos hs] at hok
          injection hok with hout
          subst hout
          exact driver_success_case maxId objs r hnd hts hs
        · rw [if_neg hs] at hok
          rcases hrem : r.remainder with _ | rem
          · rw [hrem] at hok
            exact absurd hok (by simp)
          · rw [hrem] at hok
            dsimp only at hok
            rcases hfd : findDependencyLoops preId postId maxId objs rem
              with _ | objs2
            · rw [hfd] at hok
              exact absurd hok (by simp)
            · rw [hfd] at hok
              dsimp only at hok
              have hmap : objs2.map (fun o => o.dumpId) =
                  objs.map (fun o => o.dumpId) :=
                findDependencyLoops_map preId postId maxId objs objs2 rem hfd
              have hnd2 : (objs2.map (fun o => o.dumpId)).Nodup := by
                rw [hmap]
                exact hnd
              obtain ⟨hperm, hord⟩ := ih objs2 out hnd2 hok
              exact ⟨hmap ▸ hperm, hord⟩

/-- C1, explicit: after a successful `sortDumpableObjects` run with
unique dump ids, every dependency id of an output object that is the dump
id of another output object names an object at a strictly earlier
position; ids resolving to no dumped object impose nothing. -/
theorem c1_dependency_respect (fuel maxId preId postId : Nat)
    (objs out : List DumpableObject)
    (hnd : (objs.map (fun o => o.dumpId)).Nodup)
    (hok : sortDumpableObjects fuel maxId preId postId objs =
      DriverResult.ok out) :
    ∀ ka kb (ha : ka < out.length) (hb : kb < out.length),
      (out.get ⟨kb, hb⟩).dumpId ∈ (out.get ⟨ka, ha⟩).dependencies →
      kb < ka := by
  unfold sortDumpableObjects at hok
  by_cases h0 : objs.length = 0
  · rw [if_pos h0] at hok
    injection hok with hout
    subst hout
    have hnil : objs = [] := List.eq_nil_of_length_eq_zero h0
    subst hnil
    intro ka kb ha _ _
    exact absurd ha (by simp)
  · rw [if_neg h0] at hok
    exact (sortLoop_ok_spec maxId preId postId fuel objs out hnd hok).2

/-- C2, explicit: a successful `sortDumpableObjects` run returns exactly
the same multiset of object handles (dump ids, the model's handle
identity) that it received — nothing is dropped, duplicated, or
fabricated.  Unique dump ids, an invariant of pg_dump's id allocator, are
assumed; they are what makes the model's id-based handles faithful to the
C pointers. -/
theorem c2_permutation (fuel maxId preId postId : Nat)
    (objs out : List DumpableObject)
    (hnd : (objs.map (fun o => o.dumpId)).Nodup)
    (hok : sortDumpableObjects fuel maxId preId postId objs =
      DriverResult.ok out) :
    (out.map (fun o => o.dumpId)).Perm (objs.map (fun o => o.dumpId)) := by
  unfold sortDumpableObjects at hok
  by_cases h0 : objs.length = 0
  · rw [if_pos h0] at hok
    injection hok with hout
    subst hout
    exact List.Perm.refl _
  · rw [if_neg h0] at hok
    exact (sortLoop_ok_spec maxId preId postId fuel objs out hnd hok).1

/-- The store the C1 and C2 witnesses run on: a table in a namespace. -/
def c12WStore : List DumpableObject :=
  [{ dumpId := 1, objType := DO_TABLE, catIdOid := 51, name := "tw",
     namespaceName := some "public", dependencies := [2] },
   { dumpId := 2, objType := DO_NAMESPACE, catIdOid := 52, name := "nw",
     namespaceName := none, dependencies := [] }]

/-- The reordered output of the C1 and C2 witness run. -/
def c12WOut : List DumpableObject :=
  [{ dumpId := 2, objType := DO_NAMESPACE, catIdOid := 52, name := "nw",
     namespaceName := none, dependencies := [] },
   { dumpId := 1, objType := DO_TABLE, catIdOid := 51, name := "tw",
     namespaceName := some "public", dependencies := [2] }]

theorem c1_witness :
    ((c12WStore.map (fun o => o.dumpId)).Nodup ∧
      sortDumpableObjects 3 2 8 9 c12WStore = DriverResult.ok c12WOut) ∧
    (0 : Nat) < 1 :=
  ⟨⟨by decide, rfl⟩,
    c1_dependency_respect 3 2 8 9 c12WStore c12WOut (by decide) rfl 1 0
      (by decide) (by decide) (by decide)⟩

theorem c2_witness :
    (c12WOut.map (fun o => o.dumpId)).Perm
      (c12WStore.map (fun o => o.dumpId)) :=
  c2_permutation 3 2 8 9 c12WStore c12WOut (by decide) rfl

end PgDumpSort
